import Mathlib

/-!
Verification development for the `vast-parser` repository (Rust).

The repository parses VAST (video ad) XML documents from a streaming
`quick_xml` event source (`src/parser.rs`), resolves wrapper redirect
chains over a content fetcher (`src/unwrap.rs`), collects wrapper-hop
tracking and stitches it into the resolved document, and serializes
documents back to XML (`src/stitcher.rs`).

Shallow embedding conventions:
* Raw XML text is represented by the stream of `quick_xml` events the
  reader would produce for it (`Event` below); `Eof` is the end of the
  list and a reader-level error (malformed XML) is the `Event.err`
  event.  The parser in `src/parser.rs` consumes exactly this event
  stream, so every parsing function is translated as a function from
  `List Event` to a result together with the remaining events.
* The content source (`fetch_vast_content`, an external collaborator:
  file system / HTTP) is modelled as a finite association list from
  locator strings to fetch outcomes; a locator outside the list is a
  fetch failure.
* Rust `&mut` state is passed explicitly and returned; each traversal
  additionally returns the list of locators it passed to the fetcher
  (`log`), which records nothing but the fetch calls the Rust code
  makes.
* `u32` values are represented as `Nat` with an explicit `< 2 ^ 32`
  bound in attribute parsing.
-/

namespace VastLib

/-- Attribute of an XML start tag: key and (already unescaped) value. -/
abbrev Attr := String × String

/-- One `quick_xml` event as consumed by `src/parser.rs`.
`start` / `endE` / `text` / `cdata` mirror `Event::Start` / `Event::End`
/ `Event::Text` (already unescaped) / `Event::CData`; `decl` stands for
the events the parser never inspects (declaration, comment, processing
instruction, empty tag); `err` is a reader error (malformed XML).
`Event::Eof` is represented by the end of the event list. -/
inductive Event where
  | start (name : String) (attrs : List Attr)
  | endE (name : String)
  | text (s : String)
  | cdata (s : String)
  | decl
  | err
deriving DecidableEq, Repr

/-- `VastError` from `src/error.rs` (payloads of foreign error types are
dropped; the string payloads produced by this repository are kept). -/
inductive VastError where
  | xmlParseError
  | ioError
  | invalidVersion (s : String)
  | missingField (s : String)
  | urlError
  | unsupportedFeature (s : String)
  | other (s : String)
deriving DecidableEq, Repr

/-- `AdSystem` from `src/models.rs`. -/
structure AdSystem where
  name : String
  version : Option String
deriving DecidableEq, Repr

/-- `Impression` from `src/models.rs`. -/
structure Impression where
  id : Option String
  url : String
deriving DecidableEq, Repr

/-- `Pricing` from `src/models.rs`. -/
structure Pricing where
  model : String
  currency : String
  value : String
deriving DecidableEq, Repr

/-- `Extension` from `src/models.rs` (`r#type` is rendered `type_`). -/
structure Extension where
  type_ : Option String
  content : String
deriving DecidableEq, Repr

/-- `MediaFile` from `src/models.rs` (`r#type` is rendered `type_`). -/
structure MediaFile where
  url : String
  mime_type : String
  codec : Option String
  bitrate : Option Nat
  width : Option Nat
  height : Option Nat
  delivery : Option String
  type_ : Option String
deriving DecidableEq, Repr

/-- `VideoClicks` from `src/models.rs`. -/
structure VideoClicks where
  click_through : Option String
  click_tracking : List String
  custom_click : List String
deriving DecidableEq, Repr

/-- `TrackingEvent` from `src/models.rs`. -/
structure TrackingEvent where
  event : String
  url : String
deriving DecidableEq, Repr

/-- `Companion` from `src/models.rs`. -/
structure Companion where
  id : Option String
  width : Nat
  height : Nat
  resource_type : String
  resource : String
  click_through : Option String
  tracking_events : List TrackingEvent
deriving DecidableEq, Repr

/-- `CompanionAds` from `src/models.rs`. -/
structure CompanionAds where
  companions : List Companion
deriving DecidableEq, Repr

/-- `NonLinear` from `src/models.rs`. -/
structure NonLinear where
  id : Option String
  width : Nat
  height : Nat
  expand_width : Option Nat
  expand_height : Option Nat
  scalable : Option Bool
  maintain_aspect_ratio : Option Bool
  resource_type : String
  resource : String
  click_through : Option String
deriving DecidableEq, Repr

/-- `NonLinearAds` from `src/models.rs`. -/
structure NonLinearAds where
  non_linears : List NonLinear
deriving DecidableEq, Repr

/-- `Linear` from `src/models.rs`. -/
structure Linear where
  duration : Option String
  media_files : List MediaFile
  video_clicks : Option VideoClicks
  tracking_events : List TrackingEvent
deriving DecidableEq, Repr

/-- `Creative` from `src/models.rs`. -/
structure Creative where
  id : Option String
  sequence : Option Nat
  ad_id : Option String
  api_framework : Option String
  linear : Option Linear
  companion_ads : Option CompanionAds
  non_linear_ads : Option NonLinearAds
deriving DecidableEq, Repr

/-- `InLine` from `src/models.rs`. -/
structure InLine where
  ad_system : AdSystem
  ad_title : String
  impressions : List Impression
  description : Option String
  advertiser : Option String
  survey : Option String
  error : Option String
  pricing : Option Pricing
  extensions : List Extension
  creatives : List Creative
deriving DecidableEq, Repr

/-- `Wrapper` from `src/models.rs`. -/
structure Wrapper where
  ad_system : AdSystem
  vast_ad_tag_uri : String
  impressions : List Impression
  error : Option String
  extensions : List Extension
  creatives : List Creative
deriving DecidableEq, Repr

/-- `Ad` from `src/models.rs`. -/
structure Ad where
  id : Option String
  sequence : Option Nat
  conditional_ad : Option Bool
  inline : Option InLine
  wrapper : Option Wrapper
deriving DecidableEq, Repr

/-- `Vast` from `src/models.rs`. -/
structure Vast where
  version : String
  ads : List Ad
  error : Option String
deriving DecidableEq, Repr

/-- Rust `str::parse::<u32>()`: optional leading `+`, one or more ASCII
digits, value below `2 ^ 32`; anything else is `none`. -/
def parseU32 (s : String) : Option Nat :=
  let ds := match s.data with
    | '+' :: rest => rest
    | l => l
  if ds ≠ [] ∧ ds.all (·.isDigit) then
    let n := ds.foldl (fun acc c => 10 * acc + (c.toNat - 48)) 0
    if n < 2 ^ 32 then some n else none
  else none

/-! ## Parser (`src/parser.rs`)

Each Rust parsing helper advances a mutable `quick_xml::Reader`; here it
consumes a prefix of the event list and returns the remaining suffix,
bundled with the bound `rest.length ≤ evs.length` used for termination
of the calling loops. -/

/-- Remaining events after a parsing helper, bounded by its input. -/
abbrev Rest (evs : List Event) := {rest : List Event // rest.length ≤ evs.length}

/-- Transport a parsing result along a longer input list. -/
def wk {α : Type} {l₁ l₂ : List Event} (h : l₁.length ≤ l₂.length) :
    Except VastError (α × Rest l₁) → Except VastError (α × Rest l₂)
  | .ok (a, ⟨r, hr⟩) => .ok (a, ⟨r, hr.trans h⟩)
  | .error e => .error e

/-- Loop of `read_text_element`: the text is overwritten by each
Text/CDATA event (last fragment wins); any End event stops the loop;
Start and other events are ignored. -/
def read_text_go (t : String) : (evs : List Event) → Except VastError (String × Rest evs)
  | [] => .error (.other "Unexpected end of file")
  | .err :: _ => .error .xmlParseError
  | .text s :: rest => wk (Nat.le_succ _) (read_text_go s rest)
  | .cdata s :: rest => wk (Nat.le_succ _) (read_text_go s rest)
  | .endE _ :: rest => .ok (t, ⟨rest, Nat.le_succ _⟩)
  | .start _ _ :: rest => wk (Nat.le_succ _) (read_text_go t rest)
  | .decl :: rest => wk (Nat.le_succ _) (read_text_go t rest)

/-- `read_text_element` from `src/parser.rs`. -/
def read_text_element (evs : List Event) : Except VastError (String × Rest evs) :=
  read_text_go "" evs

/-- Loop of `skip_element` from `src/parser.rs`, with its depth counter:
a nested start tag of the same name (or any start tag while the counter
is positive) increments it; a matching end tag stops the loop when the
counter is 0 or becomes 0, while other end tags decrement it when it is
positive. -/
def skip_element_go (name : String) (depth : Nat) :
    (evs : List Event) → Except VastError (Unit × Rest evs)
  | [] => .error (.other "Unexpected end of file")
  | .err :: _ => .error .xmlParseError
  | .start n _ :: rest =>
    if n = name ∧ depth = 0 then wk (Nat.le_succ _) (skip_element_go name (depth + 1) rest)
    else if 0 < depth then wk (Nat.le_succ _) (skip_element_go name (depth + 1) rest)
    else wk (Nat.le_succ _) (skip_element_go name depth rest)
  | .endE n :: rest =>
    if n = name then
      if depth = 0 then .ok ((), ⟨rest, Nat.le_succ _⟩)
      else if depth - 1 = 0 then .ok ((), ⟨rest, Nat.le_succ _⟩)
      else wk (Nat.le_succ _) (skip_element_go name (depth - 1) rest)
    else if 0 < depth then wk (Nat.le_succ _) (skip_element_go name (depth - 1) rest)
    else wk (Nat.le_succ _) (skip_element_go name depth rest)
  | .text _ :: rest => wk (Nat.le_succ _) (skip_element_go name depth rest)
  | .cdata _ :: rest => wk (Nat.le_succ _) (skip_element_go name depth rest)
  | .decl :: rest => wk (Nat.le_succ _) (skip_element_go name depth rest)

/-- `skip_element` from `src/parser.rs` (entered after the element's
start tag has been consumed; `depth` starts at 0). -/
def skip_element (name : String) (evs : List Event) : Except VastError (Unit × Rest evs) :=
  skip_element_go name 0 evs

/-- Attribute scan of `parse_vast` for the `version` attribute
(assignment in a loop: the last occurrence wins). -/
def vastVersionFromAttrs (attrs : List Attr) : String :=
  attrs.foldl (fun v kv => if kv.1 = "version" then kv.2 else v) ""

/-- Attribute scan of `parse_ad_element` (`id`, `sequence`,
`conditionalAd`; numeric parse failures leave the field absent). -/
def adFromAttrs (attrs : List Attr) : Ad :=
  attrs.foldl
    (fun ad kv =>
      if kv.1 = "id" then { ad with id := some kv.2 }
      else if kv.1 = "sequence" then
        match parseU32 kv.2 with
        | some n => { ad with sequence := some n }
        | none => ad
      else if kv.1 = "conditionalAd" then { ad with conditional_ad := some (kv.2.toLower = "true") }
      else ad)
    ⟨none, none, none, none, none⟩

/-- Attribute scan of `parse_ad_system` for `version`. -/
def adSystemVersionFromAttrs (attrs : List Attr) : Option String :=
  attrs.foldl (fun v kv => if kv.1 = "version" then some kv.2 else v) none

/-- Attribute scan of `parse_impression` for `id`. -/
def impressionIdFromAttrs (attrs : List Attr) : Option String :=
  attrs.foldl (fun v kv => if kv.1 = "id" then some kv.2 else v) none

/-- Attribute scan of `parse_pricing` for `model` and `currency`. -/
def pricingFromAttrs (attrs : List Attr) : Pricing :=
  attrs.foldl
    (fun p kv =>
      if kv.1 = "model" then { p with model := kv.2 }
      else if kv.1 = "currency" then { p with currency := kv.2 }
      else p)
    ⟨"", "", ""⟩

/-- Attribute scan of `parse_extension` for `type`. -/
def extensionTypeFromAttrs (attrs : List Attr) : Option String :=
  attrs.foldl (fun v kv => if kv.1 = "type" then some kv.2 else v) none

/-- Attribute scan of `parse_creative` (`id`, `sequence`, `adId`,
`apiFramework`). -/
def creativeFromAttrs (attrs : List Attr) : Creative :=
  attrs.foldl
    (fun c kv =>
      if kv.1 = "id" then { c with id := some kv.2 }
      else if kv.1 = "sequence" then
        match parseU32 kv.2 with
        | some n => { c with sequence := some n }
        | none => c
      else if kv.1 = "adId" then { c with ad_id := some kv.2 }
      else if kv.1 = "apiFramework" then { c with api_framework := some kv.2 }
      else c)
    ⟨none, none, none, none, none, none, none⟩

/-- Attribute scan of `parse_media_file` (`type`, `codec`, `bitrate`,
`width`, `height`, `delivery`, `mediaType`). -/
def mediaFileFromAttrs (attrs : List Attr) : MediaFile :=
  attrs.foldl
    (fun m kv =>
      if kv.1 = "type" then { m with mime_type := kv.2 }
      else if kv.1 = "codec" then { m with codec := some kv.2 }
      else if kv.1 = "bitrate" then
        match parseU32 kv.2 with
        | some n => { m with bitrate := some n }
        | none => m
      else if kv.1 = "width" then
        match parseU32 kv.2 with
        | some n => { m with width := some n }
        | none => m
      else if kv.1 = "height" then
        match parseU32 kv.2 with
        | some n => { m with height := some n }
        | none => m
      else if kv.1 = "delivery" then { m with delivery := some kv.2 }
      else if kv.1 = "mediaType" then { m with type_ := some kv.2 }
      else m)
    ⟨"", "", none, none, none, none, none, none⟩

/-- Attribute scan of `parse_tracking_event` for `event`. -/
def trackingEventFromAttrs (attrs : List Attr) : String :=
  attrs.foldl (fun v kv => if kv.1 = "event" then kv.2 else v) ""

/-- `parse_ad_system` from `src/parser.rs`. -/
def parse_ad_system (attrs : List Attr) (evs : List Event) :
    Except VastError (AdSystem × Rest evs) :=
  match read_text_element evs with
  | .error e => .error e
  | .ok (n, r) => .ok ({ name := n, version := adSystemVersionFromAttrs attrs }, r)

/-- `parse_impression` from `src/parser.rs`. -/
def parse_impression (attrs : List Attr) (evs : List Event) :
    Except VastError (Impression × Rest evs) :=
  match read_text_element evs with
  | .error e => .error e
  | .ok (u, r) => .ok ({ id := impressionIdFromAttrs attrs, url := u }, r)

/-- `parse_pricing` from `src/parser.rs`. -/
def parse_pricing (attrs : List Attr) (evs : List Event) :
    Except VastError (Pricing × Rest evs) :=
  match read_text_element evs with
  | .error e => .error e
  | .ok (v, r) => .ok ({ pricingFromAttrs attrs with value := v }, r)

/-- `parse_extension` from `src/parser.rs` (content is flattened text). -/
def parse_extension (attrs : List Attr) (evs : List Event) :
    Except VastError (Extension × Rest evs) :=
  match read_text_element evs with
  | .error e => .error e
  | .ok (c, r) => .ok ({ type_ := extensionTypeFromAttrs attrs, content := c }, r)

/-- `parse_tracking_event` from `src/parser.rs`. -/
def parse_tracking_event (attrs : List Attr) (evs : List Event) :
    Except VastError (TrackingEvent × Rest evs) :=
  match read_text_element evs with
  | .error e => .error e
  | .ok (u, r) => .ok ({ event := trackingEventFromAttrs attrs, url := u }, r)

/-- `parse_media_file` from `src/parser.rs`. -/
def parse_media_file (attrs : List Attr) (evs : List Event) :
    Except VastError (MediaFile × Rest evs) :=
  match read_text_element evs with
  | .error e => .error e
  | .ok (u, r) => .ok ({ mediaFileFromAttrs attrs with url := u }, r)

/-- Loop of `parse_video_clicks` from `src/parser.rs`. -/
def parse_video_clicks_go (vc : VideoClicks) :
    (evs : List Event) → Except VastError (VideoClicks × Rest evs)
  | [] => .error (.other "Unexpected end of file")
  | .err :: _ => .error .xmlParseError
  | .start n _ :: rest =>
    if n = "ClickThrough" then
      match read_text_element rest with
      | .error e => .error e
      | .ok (t, ⟨r₂, h₂⟩) =>
        wk (h₂.trans (Nat.le_succ _)) (parse_video_clicks_go { vc with click_through := some t } r₂)
    else if n = "ClickTracking" then
      match read_text_element rest with
      | .error e => .error e
      | .ok (t, ⟨r₂, h₂⟩) =>
        wk (h₂.trans (Nat.le_succ _))
          (parse_video_clicks_go { vc with click_tracking := vc.click_tracking ++ [t] } r₂)
    else if n = "CustomClick" then
      match read_text_element rest with
      | .error e => .error e
      | .ok (t, ⟨r₂, h₂⟩) =>
        wk (h₂.trans (Nat.le_succ _))
          (parse_video_clicks_go { vc with custom_click := vc.custom_click ++ [t] } r₂)
    else
      match skip_element n rest with
      | .error e => .error e
      | .ok (_, ⟨r₂, h₂⟩) => wk (h₂.trans (Nat.le_succ _)) (parse_video_clicks_go vc r₂)
  | .endE n :: rest =>
    if n = "VideoClicks" then .ok (vc, ⟨rest, Nat.le_succ _⟩)
    else wk (Nat.le_succ _) (parse_video_clicks_go vc rest)
  | .text _ :: rest => wk (Nat.le_succ _) (parse_video_clicks_go vc rest)
  | .cdata _ :: rest => wk (Nat.le_succ _) (parse_video_clicks_go vc rest)
  | .decl :: rest => wk (Nat.le_succ _) (parse_video_clicks_go vc rest)
termination_by evs => evs.length
decreasing_by all_goals (simp only [List.length_cons]; omega)

/-- `parse_video_clicks` from `src/parser.rs`. -/
def parse_video_clicks (evs : List Event) : Except VastError (VideoClicks × Rest evs) :=
  parse_video_clicks_go ⟨none, [], []⟩ evs

/-- Loop of `parse_media_files` from `src/parser.rs` (start tags other
than `MediaFile` are ignored, not skipped). -/
def parse_media_files_go (acc : List MediaFile) :
    (evs : List Event) → Except VastError (List MediaFile × Rest evs)
  | [] => .error (.other "Unexpected end of file")
  | .err :: _ => .error .xmlParseError
  | .start n attrs :: rest =>
    if n = "MediaFile" then
      match parse_media_file attrs rest with
      | .error e => .error e
      | .ok (m, ⟨r₂, h₂⟩) =>
        wk (h₂.trans (Nat.le_succ _)) (parse_media_files_go (acc ++ [m]) r₂)
    else wk (Nat.le_succ _) (parse_media_files_go acc rest)
  | .endE n :: rest =>
    if n = "MediaFiles" then .ok (acc, ⟨rest, Nat.le_succ _⟩)
    else wk (Nat.le_succ _) (parse_media_files_go acc rest)
  | .text _ :: rest => wk (Nat.le_succ _) (parse_media_files_go acc rest)
  | .cdata _ :: rest => wk (Nat.le_succ _) (parse_media_files_go acc rest)
  | .decl :: rest => wk (Nat.le_succ _) (parse_media_files_go acc rest)
termination_by evs => evs.length
decreasing_by all_goals (simp only [List.length_cons]; omega)

/-- `parse_media_files` from `src/parser.rs`. -/
def parse_media_files (evs : List Event) : Except VastError (List MediaFile × Rest evs) :=
  parse_media_files_go [] evs

/-- Loop of `parse_tracking_events` from `src/parser.rs`. -/
def parse_tracking_events_go (acc : List TrackingEvent) :
    (evs : List Event) → Except VastError (List TrackingEvent × Rest evs)
  | [] => .error (.other "Unexpected end of file")
  | .err :: _ => .error .xmlParseError
  | .start n attrs :: rest =>
    if n = "Tracking" then
      match parse_tracking_event attrs rest with
      | .error e => .error e
      | .ok (t, ⟨r₂, h₂⟩) =>
        wk (h₂.trans (Nat.le_succ _)) (parse_tracking_events_go (acc ++ [t]) r₂)
    else wk (Nat.le_succ _) (parse_tracking_events_go acc rest)
  | .endE n :: rest =>
    if n = "TrackingEvents" then .ok (acc, ⟨rest, Nat.le_succ _⟩)
    else wk (Nat.le_succ _) (parse_tracking_events_go acc rest)
  | .text _ :: rest => wk (Nat.le_succ _) (parse_tracking_events_go acc rest)
  | .cdata _ :: rest => wk (Nat.le_succ _) (parse_tracking_events_go acc rest)
  | .decl :: rest => wk (Nat.le_succ _) (parse_tracking_events_go acc rest)
termination_by evs => evs.length
decreasing_by all_goals (simp only [List.length_cons]; omega)

/-- `parse_tracking_events` from `src/parser.rs`. -/
def parse_tracking_events (evs : List Event) :
    Except VastError (List TrackingEvent × Rest evs) :=
  parse_tracking_events_go [] evs

/-- Loop of `parse_linear` from `src/parser.rs`. -/
def parse_linear_go (lin : Linear) :
    (evs : List Event) → Except VastError (Linear × Rest evs)
  | [] => .error (.other "Unexpected end of file")
  | .err :: _ => .error .xmlParseError
  | .start n _ :: rest =>
    if n = "Duration" then
      match read_text_element rest with
      | .error e => .error e
      | .ok (t, ⟨r₂, h₂⟩) =>
        wk (h₂.trans (Nat.le_succ _)) (parse_linear_go { lin with duration := some t } r₂)
    else if n = "MediaFiles" then
      match parse_media_files rest with
      | .error e => .error e
      | .ok (ms, ⟨r₂, h₂⟩) =>
        wk (h₂.trans (Nat.le_succ _)) (parse_linear_go { lin with media_files := ms } r₂)
    else if n = "VideoClicks" then
      match parse_video_clicks rest with
      | .error e => .error e
      | .ok (vc, ⟨r₂, h₂⟩) =>
        wk (h₂.trans (Nat.le_succ _)) (parse_linear_go { lin with video_clicks := some vc } r₂)
    else if n = "TrackingEvents" then
      match parse_tracking_events rest with
      | .error e => .error e
      | .ok (ts, ⟨r₂, h₂⟩) =>
        wk (h₂.trans (Nat.le_succ _)) (parse_linear_go { lin with tracking_events := ts } r₂)
    else
      match skip_element n rest with
      | .error e => .error e
      | .ok (_, ⟨r₂, h₂⟩) => wk (h₂.trans (Nat.le_succ _)) (parse_linear_go lin r₂)
  | .endE n :: rest =>
    if n = "Linear" then .ok (lin, ⟨rest, Nat.le_succ _⟩)
    else wk (Nat.le_succ _) (parse_linear_go lin rest)
  | .text _ :: rest => wk (Nat.le_succ _) (parse_linear_go lin rest)
  | .cdata _ :: rest => wk (Nat.le_succ _) (parse_linear_go lin rest)
  | .decl :: rest => wk (Nat.le_succ _) (parse_linear_go lin rest)
termination_by evs => evs.length
decreasing_by all_goals (simp only [List.length_cons]; omega)

/-- `parse_linear` from `src/parser.rs`. -/
def parse_linear (evs : List Event) : Except VastError (Linear × Rest evs) :=
  parse_linear_go ⟨none, [], none, []⟩ evs

/-- `parse_companion_ads` from `src/parser.rs`: placeholder that skips
the subtree and returns no companions. -/
def parse_companion_ads (evs : List Event) :
    Except VastError (CompanionAds × Rest evs) :=
  match skip_element "CompanionAds" evs with
  | .error e => .error e
  | .ok (_, r) => .ok (⟨[]⟩, r)

/-- `parse_non_linear_ads` from `src/parser.rs`: placeholder that skips
the subtree and returns no non-linears. -/
def parse_non_linear_ads (evs : List Event) :
    Except VastError (NonLinearAds × Rest evs) :=
  match skip_element "NonLinearAds" evs with
  | .error e => .error e
  | .ok (_, r) => .ok (⟨[]⟩, r)

/-- Loop of `parse_creative` from `src/parser.rs`. -/
def parse_creative_go (c : Creative) :
    (evs : List Event) → Except VastError (Creative × Rest evs)
  | [] => .error (.other "Unexpected end of file")
  | .err :: _ => .error .xmlParseError
  | .start n _ :: rest =>
    if n = "Linear" then
      match parse_linear rest with
      | .error e => .error e
      | .ok (l, ⟨r₂, h₂⟩) =>
        wk (h₂.trans (Nat.le_succ _)) (parse_creative_go { c with linear := some l } r₂)
    else if n = "CompanionAds" then
      match parse_companion_ads rest with
      | .error e => .error e
      | .ok (ca, ⟨r₂, h₂⟩) =>
        wk (h₂.trans (Nat.le_succ _)) (parse_creative_go { c with companion_ads := some ca } r₂)
    else if n = "NonLinearAds" then
      match parse_non_linear_ads rest with
      | .error e => .error e
      | .ok (na, ⟨r₂, h₂⟩) =>
        wk (h₂.trans (Nat.le_succ _)) (parse_creative_go { c with non_linear_ads := some na } r₂)
    else
      match skip_element n rest with
      | .error e => .error e
      | .ok (_, ⟨r₂, h₂⟩) => wk (h₂.trans (Nat.le_succ _)) (parse_creative_go c r₂)
  | .endE n :: rest =>
    if n = "Creative" then .ok (c, ⟨rest, Nat.le_succ _⟩)
    else wk (Nat.le_succ _) (parse_creative_go c rest)
  | .text _ :: rest => wk (Nat.le_succ _) (parse_creative_go c rest)
  | .cdata _ :: rest => wk (Nat.le_succ _) (parse_creative_go c rest)
  | .decl :: rest => wk (Nat.le_succ _) (parse_creative_go c rest)
termination_by evs => evs.length
decreasing_by all_goals (simp only [List.length_cons]; omega)

/-- `parse_creative` from `src/parser.rs`. -/
def parse_creative (attrs : List Attr) (evs : List Event) :
    Except VastError (Creative × Rest evs) :=
  parse_creative_go (creativeFromAttrs attrs) evs

/-- Loop of `parse_creatives` from `src/parser.rs`. -/
def parse_creatives_go (acc : List Creative) :
    (evs : List Event) → Except VastError (List Creative × Rest evs)
  | [] => .error (.other "Unexpected end of file")
  | .err :: _ => .error .xmlParseError
  | .start n attrs :: rest =>
    if n = "Creative" then
      match parse_creative attrs rest with
      | .error e => .error e
      | .ok (c, ⟨r₂, h₂⟩) =>
        wk (h₂.trans (Nat.le_succ _)) (parse_creatives_go (acc ++ [c]) r₂)
    else wk (Nat.le_succ _) (parse_creatives_go acc rest)
  | .endE n :: rest =>
    if n = "Creatives" then .ok (acc, ⟨rest, Nat.le_succ _⟩)
    else wk (Nat.le_succ _) (parse_creatives_go acc rest)
  | .text _ :: rest => wk (Nat.le_succ _) (parse_creatives_go acc rest)
  | .cdata _ :: rest => wk (Nat.le_succ _) (parse_creatives_go acc rest)
  | .decl :: rest => wk (Nat.le_succ _) (parse_creatives_go acc rest)
termination_by evs => evs.length
decreasing_by all_goals (simp only [List.length_cons]; omega)

/-- `parse_creatives` from `src/parser.rs`. -/
def parse_creatives (evs : List Event) : Except VastError (List Creative × Rest evs) :=
  parse_creatives_go [] evs

/-- Loop of `parse_extensions` from `src/parser.rs`. -/
def parse_extensions_go (acc : List Extension) :
    (evs : List Event) → Except VastError (List Extension × Rest evs)
  | [] => .error (.other "Unexpected end of file")
  | .err :: _ => .error .xmlParseError
  | .start n attrs :: rest =>
    if n = "Extension" then
      match parse_extension attrs rest with
      | .error e => .error e
      | .ok (x, ⟨r₂, h₂⟩) =>
        wk (h₂.trans (Nat.le_succ _)) (parse_extensions_go (acc ++ [x]) r₂)
    else wk (Nat.le_succ _) (parse_extensions_go acc rest)
  | .endE n :: rest =>
    if n = "Extensions" then .ok (acc, ⟨rest, Nat.le_succ _⟩)
    else wk (Nat.le_succ _) (parse_extensions_go acc rest)
  | .text _ :: rest => wk (Nat.le_succ _) (parse_extensions_go acc rest)
  | .cdata _ :: rest => wk (Nat.le_succ _) (parse_extensions_go acc rest)
  | .decl :: rest => wk (Nat.le_succ _) (parse_extensions_go acc rest)
termination_by evs => evs.length
decreasing_by all_goals (simp only [List.length_cons]; omega)

/-- `parse_extensions` from `src/parser.rs`. -/
def parse_extensions (evs : List Event) : Except VastError (List Extension × Rest evs) :=
  parse_extensions_go [] evs

/-- The fresh `InLine` value `parse_inline_element` starts from. -/
def InLine.init : InLine := ⟨⟨"", none⟩, "", [], none, none, none, none, none, [], []⟩

/-- Loop of `parse_inline_element` from `src/parser.rs`. -/
def parse_inline_go (i : InLine) :
    (evs : List Event) → Except VastError (InLine × Rest evs)
  | [] => .error (.other "Unexpected end of file")
  | .err :: _ => .error .xmlParseError
  | .start n attrs :: rest =>
    if n = "AdSystem" then
      match parse_ad_system attrs rest with
      | .error e => .error e
      | .ok (s, ⟨r₂, h₂⟩) =>
        wk (h₂.trans (Nat.le_succ _)) (parse_inline_go { i with ad_system := s } r₂)
    else if n = "AdTitle" then
      match read_text_element rest with
      | .error e => .error e
      | .ok (t, ⟨r₂, h₂⟩) =>
        wk (h₂.trans (Nat.le_succ _)) (parse_inline_go { i with ad_title := t } r₂)
    else if n = "Impression" then
      match parse_impression attrs rest with
      | .error e => .error e
      | .ok (im, ⟨r₂, h₂⟩) =>
        wk (h₂.trans (Nat.le_succ _))
          (parse_inline_go { i with impressions := i.impressions ++ [im] } r₂)
    else if n = "Description" then
      match read_text_element rest with
      | .error e => .error e
      | .ok (t, ⟨r₂, h₂⟩) =>
        wk (h₂.trans (Nat.le_succ _)) (parse_inline_go { i with description := some t } r₂)
    else if n = "Advertiser" then
      match read_text_element rest with
      | .error e => .error e
      | .ok (t, ⟨r₂, h₂⟩) =>
        wk (h₂.trans (Nat.le_succ _)) (parse_inline_go { i with advertiser := some t } r₂)
    else if n = "Survey" then
      match read_text_element rest with
      | .error e => .error e
      | .ok (t, ⟨r₂, h₂⟩) =>
        wk (h₂.trans (Nat.le_succ _)) (parse_inline_go { i with survey := some t } r₂)
    else if n = "Error" then
      match read_text_element rest with
      | .error e => .error e
      | .ok (t, ⟨r₂, h₂⟩) =>
        wk (h₂.trans (Nat.le_succ _)) (parse_inline_go { i with error := some t } r₂)
    else if n = "Pricing" then
      match parse_pricing attrs rest with
      | .error e => .error e
      | .ok (p, ⟨r₂, h₂⟩) =>
        wk (h₂.trans (Nat.le_succ _)) (parse_inline_go { i with pricing := some p } r₂)
    else if n = "Extensions" then
      match parse_extensions rest with
      | .error e => .error e
      | .ok (xs, ⟨r₂, h₂⟩) =>
        wk (h₂.trans (Nat.le_succ _)) (parse_inline_go { i with extensions := xs } r₂)
    else if n = "Creatives" then
      match parse_creatives rest with
      | .error e => .error e
      | .ok (cs, ⟨r₂, h₂⟩) =>
        wk (h₂.trans (Nat.le_succ _)) (parse_inline_go { i with creatives := cs } r₂)
    else
      match skip_element n rest with
      | .error e => .error e
      | .ok (_, ⟨r₂, h₂⟩) => wk (h₂.trans (Nat.le_succ _)) (parse_inline_go i r₂)
  | .endE n :: rest =>
    if n = "InLine" then .ok (i, ⟨rest, Nat.le_succ _⟩)
    else wk (Nat.le_succ _) (parse_inline_go i rest)
  | .text _ :: rest => wk (Nat.le_succ _) (parse_inline_go i rest)
  | .cdata _ :: rest => wk (Nat.le_succ _) (parse_inline_go i rest)
  | .decl :: rest => wk (Nat.le_succ _) (parse_inline_go i rest)
termination_by evs => evs.length
decreasing_by all_goals (simp only [List.length_cons]; omega)

/-- `parse_inline_element` from `src/parser.rs`. -/
def parse_inline_element (evs : List Event) : Except VastError (InLine × Rest evs) :=
  parse_inline_go InLine.init evs

/-- The fresh `Wrapper` value `parse_wrapper_element` starts from. -/
def Wrapper.init : Wrapper := ⟨⟨"", none⟩, "", [], none, [], []⟩

/-- Loop of `parse_wrapper_element` from `src/parser.rs`. -/
def parse_wrapper_go (w : Wrapper) :
    (evs : List Event) → Except VastError (Wrapper × Rest evs)
  | [] => .error (.other "Unexpected end of file")
  | .err :: _ => .error .xmlParseError
  | .start n attrs :: rest =>
    if n = "AdSystem" then
      match parse_ad_system attrs rest with
      | .error e => .error e
      | .ok (s, ⟨r₂, h₂⟩) =>
        wk (h₂.trans (Nat.le_succ _)) (parse_wrapper_go { w with ad_system := s } r₂)
    else if n = "VASTAdTagURI" then
      match read_text_element rest with
      | .error e => .error e
      | .ok (t, ⟨r₂, h₂⟩) =>
        wk (h₂.trans (Nat.le_succ _)) (parse_wrapper_go { w with vast_ad_tag_uri := t } r₂)
    else if n = "Impression" then
      match parse_impression attrs rest with
      | .error e => .error e
      | .ok (im, ⟨r₂, h₂⟩) =>
        wk (h₂.trans (Nat.le_succ _))
          (parse_wrapper_go { w with impressions := w.impressions ++ [im] } r₂)
    else if n = "Error" then
      match read_text_element rest with
      | .error e => .error e
      | .ok (t, ⟨r₂, h₂⟩) =>
        wk (h₂.trans (Nat.le_succ _)) (parse_wrapper_go { w with error := some t } r₂)
    else if n = "Extensions" then
      match parse_extensions rest with
      | .error e => .error e
      | .ok (xs, ⟨r₂, h₂⟩) =>
        wk (h₂.trans (Nat.le_succ _)) (parse_wrapper_go { w with extensions := xs } r₂)
    else if n = "Creatives" then
      match parse_creatives rest with
      | .error e => .error e
      | .ok (cs, ⟨r₂, h₂⟩) =>
        wk (h₂.trans (Nat.le_succ _)) (parse_wrapper_go { w with creatives := cs } r₂)
    else
      match skip_element n rest with
      | .error e => .error e
      | .ok (_, ⟨r₂, h₂⟩) => wk (h₂.trans (Nat.le_succ _)) (parse_wrapper_go w r₂)
  | .endE n :: rest =>
    if n = "Wrapper" then .ok (w, ⟨rest, Nat.le_succ _⟩)
    else wk (Nat.le_succ _) (parse_wrapper_go w rest)
  | .text _ :: rest => wk (Nat.le_succ _) (parse_wrapper_go w rest)
  | .cdata _ :: rest => wk (Nat.le_succ _) (parse_wrapper_go w rest)
  | .decl :: rest => wk (Nat.le_succ _) (parse_wrapper_go w rest)
termination_by evs => evs.length
decreasing_by all_goals (simp only [List.length_cons]; omega)

/-- `parse_wrapper_element` from `src/parser.rs`. -/
def parse_wrapper_element (evs : List Event) : Except VastError (Wrapper × Rest evs) :=
  parse_wrapper_go Wrapper.init evs

/-- Loop of `parse_ad_element` from `src/parser.rs`. -/
def parse_ad_go (ad : Ad) :
    (evs : List Event) → Except VastError (Ad × Rest evs)
  | [] => .error (.other "Unexpected end of file")
  | .err :: _ => .error .xmlParseError
  | .start n _ :: rest =>
    if n = "InLine" then
      match parse_inline_element rest with
      | .error e => .error e
      | .ok (i, ⟨r₂, h₂⟩) =>
        wk (h₂.trans (Nat.le_succ _)) (parse_ad_go { ad with inline := some i } r₂)
    else if n = "Wrapper" then
      match parse_wrapper_element rest with
      | .error e => .error e
      | .ok (w, ⟨r₂, h₂⟩) =>
        wk (h₂.trans (Nat.le_succ _)) (parse_ad_go { ad with wrapper := some w } r₂)
    else
      match skip_element n rest with
      | .error e => .error e
      | .ok (_, ⟨r₂, h₂⟩) => wk (h₂.trans (Nat.le_succ _)) (parse_ad_go ad r₂)
  | .endE n :: rest =>
    if n = "Ad" then .ok (ad, ⟨rest, Nat.le_succ _⟩)
    else wk (Nat.le_succ _) (parse_ad_go ad rest)
  | .text _ :: rest => wk (Nat.le_succ _) (parse_ad_go ad rest)
  | .cdata _ :: rest => wk (Nat.le_succ _) (parse_ad_go ad rest)
  | .decl :: rest => wk (Nat.le_succ _) (parse_ad_go ad rest)
termination_by evs => evs.length
decreasing_by all_goals (simp only [List.length_cons]; omega)

/-- `parse_ad_element` from `src/parser.rs` (entered after the `Ad`
start tag, whose attributes are `attrs`). -/
def parse_ad_element (attrs : List Attr) (evs : List Event) :
    Except VastError (Ad × Rest evs) :=
  parse_ad_go (adFromAttrs attrs) evs

/-- Loop of `parse_ads` from `src/parser.rs` (stops at `</VAST>` or at
end of input). -/
def parse_ads_go (acc : List Ad) :
    (evs : List Event) → Except VastError (List Ad × Rest evs)
  | [] => .ok (acc, ⟨[], Nat.zero_le _⟩)
  | .err :: _ => .error .xmlParseError
  | .start n attrs :: rest =>
    if n = "Ad" then
      match parse_ad_element attrs rest with
      | .error e => .error e
      | .ok (ad, ⟨r₂, h₂⟩) =>
        wk (h₂.trans (Nat.le_succ _)) (parse_ads_go (acc ++ [ad]) r₂)
    else wk (Nat.le_succ _) (parse_ads_go acc rest)
  | .endE n :: rest =>
    if n = "VAST" then .ok (acc, ⟨rest, Nat.le_succ _⟩)
    else wk (Nat.le_succ _) (parse_ads_go acc rest)
  | .text _ :: rest => wk (Nat.le_succ _) (parse_ads_go acc rest)
  | .cdata _ :: rest => wk (Nat.le_succ _) (parse_ads_go acc rest)
  | .decl :: rest => wk (Nat.le_succ _) (parse_ads_go acc rest)
termination_by evs => evs.length
decreasing_by all_goals (simp only [List.length_cons]; omega)

/-- `parse_ads` from `src/parser.rs`. -/
def parse_ads (evs : List Event) : Except VastError (List Ad × Rest evs) :=
  parse_ads_go [] evs

/-- `parse_vast` from `src/parser.rs`: scan for the `VAST` start tag
(events before it are skipped); reaching end of input without one
returns the initial document (empty version, no ads); a present `VAST`
tag whose `version` attribute is missing or empty is a
`MissingField "VAST version"` error; otherwise the ads are parsed and
the document's top-level `error` field is always `none`. -/
def parse_vast : List Event → Except VastError Vast
  | [] => .ok ⟨"", [], none⟩
  | .err :: _ => .error .xmlParseError
  | .start n attrs :: rest =>
    if n = "VAST" then
      let version := vastVersionFromAttrs attrs
      if version = "" then .error (.missingField "VAST version")
      else
        match parse_ads rest with
        | .error e => .error e
        | .ok (ads, _) => .ok ⟨version, ads, none⟩
    else parse_vast rest
  | .endE _ :: rest => parse_vast rest
  | .text _ :: rest => parse_vast rest
  | .cdata _ :: rest => parse_vast rest
  | .decl :: rest => parse_vast rest

/-! ## Chain resolution (`src/unwrap.rs`)

The content fetcher is an external collaborator (file system / HTTP);
it is modelled as a finite table `FetchEnv`.  Each traversal returns,
besides its result, the final visited set and the list of locators it
passed to the fetcher (`log`), in call order. -/

/-- `MAX_WRAPPER_DEPTH` from `src/unwrap.rs`. -/
def MAX_WRAPPER_DEPTH : Nat := 10

-- Lexicographic-order helpers for the termination measures below.

theorem lex3_fst {a₁ b₁ c₁ a₂ b₂ c₂ : Nat} (h : a₁ < a₂) :
    Prod.Lex (fun x y => x < y) (Prod.Lex (fun x y => x < y) (fun x y => x < y))
      (a₁, b₁, c₁) (a₂, b₂, c₂) :=
  Prod.Lex.left _ _ h

theorem lex3_snd {a b₁ c₁ b₂ c₂ : Nat} (h : b₁ < b₂) :
    Prod.Lex (fun x y => x < y) (Prod.Lex (fun x y => x < y) (fun x y => x < y))
      (a, b₁, c₁) (a, b₂, c₂) :=
  Prod.Lex.right _ (Prod.Lex.left _ _ h)

theorem lex3_thd {a b c₁ c₂ : Nat} (h : c₁ < c₂) :
    Prod.Lex (fun x y => x < y) (Prod.Lex (fun x y => x < y) (fun x y => x < y))
      (a, b, c₁) (a, b, c₂) :=
  Prod.Lex.right _ (Prod.Lex.right _ h)

/-- Model of the content source consulted by `fetch_vast_content` /
`fetch_vast_content_async`: a finite table from locators to outcomes;
fetched text is represented by its event stream, and a locator outside
the table fails like an unreachable resource. -/
abbrev FetchEnv := List (String × Except VastError (List Event))

/-- Look up a locator in the content-source table. -/
def fetchEnv (env : FetchEnv) (uri : String) : Except VastError (List Event) :=
  match env.find? (fun kv => kv.1 == uri) with
  | some kv => kv.2
  | none => .error .ioError

mutual
/-- `unwrap_vast_with_depth` from `src/unwrap.rs`, with the `depth`
parameter represented by the remaining budget
`remaining = MAX_WRAPPER_DEPTH - depth`, so `remaining = 0` is exactly
the `depth >= MAX_WRAPPER_DEPTH` guard.  Returns
(result, final visited set, fetch log). -/
def unwrapGo (env : FetchEnv) (evs : List Event) (remaining : Nat)
    (visited : List String) :
    Except VastError Vast × List String × List String :=
  match remaining with
  | 0 => (.ok ⟨"4.0", [], some "Maximum wrapper depth exceeded"⟩, visited, [])
  | r + 1 =>
    match parse_vast evs with
    | .error _ => (.ok ⟨"4.0", [], some "Failed to parse VAST XML"⟩, visited, [])
    | .ok vast =>
      match unwrapAds env vast.ads r visited with
      | (result_ads, found_inline, visited', log) =>
        if found_inline then (.ok ⟨vast.version, result_ads, vast.error⟩, visited', log)
        else (.ok vast, visited', log)
termination_by (remaining, 1, 0)
decreasing_by
  exact lex3_snd (by omega)

/-- The per-ad loop of `unwrap_vast_with_depth`.  `r` is the budget for
the recursive calls (the current level's budget minus one).  Returns
(accumulated result ads, `found_inline`, visited set, fetch log). -/
def unwrapAds (env : FetchEnv) (ads : List Ad) (r : Nat) (visited : List String) :
    List Ad × Bool × List String × List String :=
  match ads with
  | [] => ([], false, visited, [])
  | ad :: rest =>
    if ad.inline.isSome then
      match unwrapAds env rest r visited with
      | (ras, _, v', lg) => (ad :: ras, true, v', lg)
    else
      match ad.wrapper with
      | none => unwrapAds env rest r visited
      | some w =>
        if w.vast_ad_tag_uri ∈ visited then unwrapAds env rest r visited
        else
          match fetchEnv env w.vast_ad_tag_uri with
          | .error _ =>
            match unwrapAds env rest r (w.vast_ad_tag_uri :: visited) with
            | (ras, fi, v', lg) => (ras, fi, v', w.vast_ad_tag_uri :: lg)
          | .ok next_evs =>
            match unwrapGo env next_evs r (w.vast_ad_tag_uri :: visited) with
            | (.error _, v₂, lg₂) =>
              match unwrapAds env rest r v₂ with
              | (ras, fi, v₃, lg₃) => (ras, fi, v₃, w.vast_ad_tag_uri :: (lg₂ ++ lg₃))
            | (.ok nv, v₂, lg₂) =>
              match unwrapAds env rest r v₂ with
              | (ras, fi, v₃, lg₃) =>
                (nv.ads ++ ras, fi || !nv.ads.isEmpty, v₃,
                  w.vast_ad_tag_uri :: (lg₂ ++ lg₃))
termination_by (r + 1, 0, ads.length)
decreasing_by
  all_goals simp only [List.length_cons]
  all_goals first
    | exact lex3_thd (by omega)
    | exact lex3_snd (by omega)
    | exact lex3_fst (by omega)
end

/-- `unwrap_vast_with_depth`'s signature from the source (depth and
shared visited set), implemented by `unwrapGo`. -/
def unwrap_vast_with_depth (env : FetchEnv) (evs : List Event) (depth : Nat)
    (visited : List String) : Except VastError Vast × List String × List String :=
  unwrapGo env evs (MAX_WRAPPER_DEPTH - depth) visited

/-- `unwrap_vast` from `src/unwrap.rs`. -/
def unwrap_vast (env : FetchEnv) (evs : List Event) : Except VastError Vast :=
  (unwrapGo env evs MAX_WRAPPER_DEPTH []).1

/-- The locators `unwrap_vast` passes to the fetcher, in call order. -/
def unwrap_vast_log (env : FetchEnv) (evs : List Event) : List String :=
  (unwrapGo env evs MAX_WRAPPER_DEPTH []).2.2

/-- Termination measure for the queue traversals: how many fetchable
locators are not yet visited. -/
def countFresh (env : FetchEnv) (visited : List String) : Nat :=
  ((env.map Prod.fst).filter (fun u => decide (u ∉ visited))).length

-- Supporting lemmas for the termination of the queue traversals.

theorem length_filter_le_of_imp {α : Type} (l : List α) (p q : α → Bool)
    (h : ∀ a, p a = true → q a = true) :
    (l.filter p).length ≤ (l.filter q).length := by
  induction l with
  | nil => simp
  | cons a l ih =>
    simp only [List.filter_cons]
    by_cases hp : p a = true
    · rw [if_pos hp, if_pos (h a hp)]
      simpa using ih
    · rw [if_neg hp]
      by_cases hq : q a = true
      · rw [if_pos hq]
        exact ih.trans (by simp)
      · rw [if_neg hq]
        exact ih

theorem countFresh_cons_le (env : FetchEnv) (u : String) (v : List String) :
    countFresh env (u :: v) ≤ countFresh env v := by
  apply length_filter_le_of_imp
  intro a ha
  simp only [decide_eq_true_eq, List.mem_cons, not_or] at *
  exact ha.2

theorem length_filter_fresh_lt (l : List String) (u : String) (v : List String)
    (hk : u ∈ l) (hv : u ∉ v) :
    (l.filter (fun x => decide (x ∉ u :: v))).length <
      (l.filter (fun x => decide (x ∉ v))).length := by
  induction l with
  | nil => cases hk
  | cons a l ih =>
    simp only [List.filter_cons]
    rcases eq_or_ne a u with rfl | hau
    · rw [if_neg (by simp), if_pos (by simpa using hv)]
      have hmono := length_filter_le_of_imp l (fun x => decide (x ∉ a :: v))
        (fun x => decide (x ∉ v)) (by
          intro b hb
          simp only [decide_eq_true_eq, List.mem_cons, not_or] at *
          exact hb.2)
      simpa using Nat.lt_succ_of_le hmono
    · have hk' : u ∈ l := by
        rcases List.mem_cons.mp hk with h | h
        · exact absurd h.symm hau
        · exact h
      by_cases hav : a ∈ v
      · rw [if_neg (by simp [hav]), if_neg (by simp [hav])]
        exact ih hk'
      · rw [if_pos (by simp [hau, hav]), if_pos (by simpa using hav)]
        simpa using Nat.succ_lt_succ (ih hk')

theorem countFresh_cons_lt (env : FetchEnv) (u : String) (v : List String)
    (hk : u ∈ env.map Prod.fst) (hv : u ∉ v) :
    countFresh env (u :: v) < countFresh env v :=
  length_filter_fresh_lt (env.map Prod.fst) u v hk hv

theorem fetchEnv_ok_mem (env : FetchEnv) (u : String) (evs : List Event)
    (h : fetchEnv env u = .ok evs) : u ∈ env.map Prod.fst := by
  unfold fetchEnv at h
  rcases hf : env.find? (fun kv => kv.1 == u) with _ | kv
  · rw [hf] at h
    exact absurd h (by simp)
  · rw [hf] at h
    have heq := List.find?_some hf
    have hmem := List.mem_of_find?_eq_some hf
    simp only [beq_iff_eq] at heq
    subst heq
    exact List.mem_map_of_mem Prod.fst hmem

/-- Step record of one popped queue item in `unwrap_vast_async`:
fetched texts to enqueue, inline ads found, updated visited set, and
the fetch log of this step.  The carried bound is the termination
measure of the queue loop. -/
structure AsyncStep where
  pushed : List (List Event)
  inlines : List Ad
  visited : List String
  log : List String
deriving Repr

/-- The per-ad loop of one `unwrap_vast_async` queue iteration
(`src/unwrap.rs`, lines 64-98). -/
def processAdsAsync (env : FetchEnv) (ads : List Ad) (visited : List String) :
    {s : AsyncStep //
      countFresh env s.visited + s.pushed.length ≤ countFresh env visited} :=
  match ads with
  | [] => ⟨⟨[], [], visited, []⟩, Nat.le_refl _⟩
  | ad :: rest =>
    if ad.inline.isSome then
      match processAdsAsync env rest visited with
      | ⟨s, hs⟩ => ⟨⟨s.pushed, ad :: s.inlines, s.visited, s.log⟩, hs⟩
    else
      match ad.wrapper with
      | none => processAdsAsync env rest visited
      | some w =>
        if hmem : w.vast_ad_tag_uri ∈ visited then processAdsAsync env rest visited
        else
          match hf : fetchEnv env w.vast_ad_tag_uri with
          | .error _ =>
            match processAdsAsync env rest (w.vast_ad_tag_uri :: visited) with
            | ⟨s, hs⟩ =>
              ⟨⟨s.pushed, s.inlines, s.visited, w.vast_ad_tag_uri :: s.log⟩,
                hs.trans (countFresh_cons_le env _ _)⟩
          | .ok next_evs =>
            match processAdsAsync env rest (w.vast_ad_tag_uri :: visited) with
            | ⟨s, hs⟩ =>
              ⟨⟨next_evs :: s.pushed, s.inlines, s.visited,
                  w.vast_ad_tag_uri :: s.log⟩, by
                have hlt := countFresh_cons_lt env w.vast_ad_tag_uri visited
                  (fetchEnv_ok_mem env _ _ hf) hmem
                simp only [List.length_cons]
                omega⟩

/-- The breadth-first queue loop of `unwrap_vast_async` from
`src/unwrap.rs`.  State: queue of (text, depth), visited set, inline
result accumulator, most recent successfully parsed document, fetch
log. -/
def unwrapAsyncGo (env : FetchEnv) (queue : List (List Event × Nat))
    (visited : List String) (result_ads : List Ad) (last_valid : Option Vast)
    (log : List String) : List Ad × Option Vast × List String × List String :=
  match queue with
  | [] => (result_ads, last_valid, visited, log)
  | (evs, depth) :: rest =>
    if MAX_WRAPPER_DEPTH ≤ depth then
      unwrapAsyncGo env rest visited result_ads last_valid log
    else
      match parse_vast evs with
      | .error _ => unwrapAsyncGo env rest visited result_ads last_valid log
      | .ok vast =>
        match processAdsAsync env vast.ads visited with
        | ⟨s, hs⟩ =>
          unwrapAsyncGo env (rest ++ s.pushed.map (fun t => (t, depth + 1)))
            s.visited (result_ads ++ s.inlines) (some vast) (log ++ s.log)
termination_by (countFresh env visited, queue.length)
decreasing_by
  · exact Prod.Lex.right _ (by simp)
  · exact Prod.Lex.right _ (by simp)
  · rcases Nat.lt_or_ge (countFresh env s.visited) (countFresh env visited) with h | h
    · exact Prod.Lex.left _ _ h
    · have hp : s.pushed.length = 0 := by omega
      have hcf : countFresh env s.visited = countFresh env visited := by omega
      rw [hcf]
      exact Prod.Lex.right _ (by simp [hp])

/-- `unwrap_vast_async` from `src/unwrap.rs`. -/
def unwrap_vast_async (env : FetchEnv) (evs : List Event) : Except VastError Vast :=
  match unwrapAsyncGo env [(evs, 0)] [] [] none [] with
  | (result_ads, last_valid, _, _) =>
    if !result_ads.isEmpty then
      let version :=
        match parse_vast evs with
        | .ok vast => vast.version
        | .error _ => "4.0"
      .ok ⟨version, result_ads, none⟩
    else
      match last_valid with
      | some lv => .ok lv
      | none => .ok ⟨"4.0", [], some "No valid VAST documents found in the chain"⟩

/-- The locators `unwrap_vast_async` passes to the fetcher, in call
order. -/
def unwrap_vast_async_log (env : FetchEnv) (evs : List Event) : List String :=
  (unwrapAsyncGo env [(evs, 0)] [] [] none []).2.2.2

/-! ## Stitcher (`src/stitcher.rs`) -/

/-- `WrapperTracking` from `src/stitcher.rs`.  The
`HashMap<String, Vec<String>>` of tracking events is modelled as an
association list in first-insertion order. -/
structure WrapperTracking where
  impressions : List Impression
  error_urls : List String
  tracking_events : List (String × List String)
  click_tracking : List String
  custom_click : List String
deriving DecidableEq, Repr

/-- `WrapperTracking::default()`. -/
def WrapperTracking.default : WrapperTracking := ⟨[], [], [], [], []⟩

/-- `result.tracking_events.entry(event).or_insert_with(Vec::new).push(url)`. -/
def teInsert (m : List (String × List String)) (ev url : String) :
    List (String × List String) :=
  match m with
  | [] => [(ev, [url])]
  | (k, us) :: rest =>
    if k = ev then (k, us ++ [url]) :: rest
    else (k, us) :: teInsert rest ev url

/-- Tracking-event loop of `extract_wrapper_tracking`. -/
def extractTrackingEvents (st : WrapperTracking) (tes : List TrackingEvent) :
    WrapperTracking :=
  tes.foldl
    (fun st te =>
      { st with tracking_events := teInsert st.tracking_events te.event te.url })
    st

/-- Creative loop body of `extract_wrapper_tracking` (only Linear
creatives contribute). -/
def extractCreative (st : WrapperTracking) (c : Creative) : WrapperTracking :=
  match c.linear with
  | none => st
  | some lin =>
    let st := extractTrackingEvents st lin.tracking_events
    match lin.video_clicks with
    | none => st
    | some vc =>
      { st with
        click_tracking := st.click_tracking ++ vc.click_tracking,
        custom_click := st.custom_click ++ vc.custom_click }

/-- `extract_wrapper_tracking` from `src/stitcher.rs`: impressions, the
wrapper's error URL, each Linear creative's tracking events and
click-tracking / custom-click URLs are appended to the accumulator. -/
def extract_wrapper_tracking (w : Wrapper) (st : WrapperTracking) : WrapperTracking :=
  let st := { st with impressions := st.impressions ++ w.impressions }
  let st :=
    match w.error with
    | some e => { st with error_urls := st.error_urls ++ [e] }
    | none => st
  w.creatives.foldl extractCreative st

-- Supporting lemmas for the termination of the recursive collector.

theorem countFresh_le_of_subset (env : FetchEnv) {v v' : List String}
    (h : v ⊆ v') : countFresh env v' ≤ countFresh env v := by
  apply length_filter_le_of_imp
  intro a ha
  simp only [decide_eq_true_eq] at *
  exact fun hm => ha (h hm)

/-- Transport a collector result along a smaller initial visited set. -/
def wkSub {visited v₁ : List String} (h : visited ⊆ v₁) :
    Except VastError (WrapperTracking × {v : List String // v₁ ⊆ v}) →
      Except VastError (WrapperTracking × {v : List String // visited ⊆ v})
  | .ok (st, ⟨v, hv⟩) => .ok (st, ⟨v, h.trans hv⟩)
  | .error e => .error e

mutual
/-- `collect_wrapper_tracking_recursive` from `src/stitcher.rs`.  Note
that the parse error of the current hop is propagated (`?`), for the
root and for fetched hops alike; only fetch failures are absorbed. -/
def collectGo (env : FetchEnv) (evs : List Event) (st : WrapperTracking)
    (visited : List String) :
    Except VastError (WrapperTracking × {v : List String // visited ⊆ v}) :=
  match parse_vast evs with
  | .error e => .error e
  | .ok vast => collectAds env vast.ads st visited
termination_by (countFresh env visited, 1, 0)
decreasing_by
  exact lex3_snd (by omega)

/-- The per-ad loop of `collect_wrapper_tracking_recursive`: a wrapper
ad's tracking is extracted before the visited set is consulted; the
visited set only gates fetching and recursing into the target. -/
def collectAds (env : FetchEnv) (ads : List Ad) (st : WrapperTracking)
    (visited : List String) :
    Except VastError (WrapperTracking × {v : List String // visited ⊆ v}) :=
  match ads with
  | [] => .ok (st, ⟨visited, fun _ hm => hm⟩)
  | ad :: rest =>
    match ad.wrapper with
    | none => collectAds env rest st visited
    | some w =>
      let st₁ := extract_wrapper_tracking w st
      if hmem : w.vast_ad_tag_uri ∈ visited then collectAds env rest st₁ visited
      else
        match hf : fetchEnv env w.vast_ad_tag_uri with
        | .error _ =>
          wkSub (List.subset_cons_self _ _)
            (collectAds env rest st₁ (w.vast_ad_tag_uri :: visited))
        | .ok next_evs =>
          match collectGo env next_evs st₁ (w.vast_ad_tag_uri :: visited) with
          | .error e => .error e
          | .ok (st₂, ⟨v₂, hv₂⟩) =>
            wkSub ((List.subset_cons_self _ _).trans hv₂)
              (collectAds env rest st₂ v₂)
termination_by (countFresh env visited, 0, ads.length)
decreasing_by
  · exact lex3_thd (by simp)
  · exact lex3_thd (by simp)
  · have := countFresh_cons_le env w.vast_ad_tag_uri visited
    rcases Nat.lt_or_ge (countFresh env (w.vast_ad_tag_uri :: visited))
      (countFresh env visited) with h | h
    · exact lex3_fst h
    · have hcf : countFresh env (w.vast_ad_tag_uri :: visited) = countFresh env visited := by
        omega
      rw [hcf]
      exact lex3_thd (by simp)
  · exact lex3_fst (countFresh_cons_lt env _ _ (fetchEnv_ok_mem env _ _ hf) hmem)
  · have h₁ := countFresh_le_of_subset env hv₂
    have h₂ := countFresh_cons_lt env w.vast_ad_tag_uri visited
      (fetchEnv_ok_mem env _ _ hf) hmem
    exact lex3_fst (by omega)
end

/-- `collect_wrapper_tracking` from `src/stitcher.rs`. -/
def collect_wrapper_tracking (env : FetchEnv) (evs : List Event) :
    Except VastError WrapperTracking :=
  match collectGo env evs .default [] with
  | .error e => .error e
  | .ok (st, _) => .ok st

/-- The per-ad loop of one `collect_wrapper_tracking_async` queue
iteration: extracts each wrapper's tracking (before consulting the
visited set) and fetches unvisited targets, queueing fetched texts. -/
def collectAsyncAds (env : FetchEnv) (ads : List Ad) (st : WrapperTracking)
    (visited : List String) :
    {p : List (List Event) × WrapperTracking × List String //
      countFresh env p.2.2 + p.1.length ≤ countFresh env visited} :=
  match ads with
  | [] => ⟨([], st, visited), Nat.le_refl _⟩
  | ad :: rest =>
    match ad.wrapper with
    | none => collectAsyncAds env rest st visited
    | some w =>
      let st₁ := extract_wrapper_tracking w st
      if hmem : w.vast_ad_tag_uri ∈ visited then collectAsyncAds env rest st₁ visited
      else
        match hf : fetchEnv env w.vast_ad_tag_uri with
        | .error _ =>
          match collectAsyncAds env rest st₁ (w.vast_ad_tag_uri :: visited) with
          | ⟨p, hp⟩ => ⟨p, hp.trans (countFresh_cons_le env _ _)⟩
        | .ok next_evs =>
          match collectAsyncAds env rest st₁ (w.vast_ad_tag_uri :: visited) with
          | ⟨(pushed, st₂, v₂), hp⟩ =>
            ⟨(next_evs :: pushed, st₂, v₂), by
              have hlt := countFresh_cons_lt env w.vast_ad_tag_uri visited
                (fetchEnv_ok_mem env _ _ hf) hmem
              simp only [List.length_cons] at *
              omega⟩

/-- The queue loop of `collect_wrapper_tracking_async` from
`src/stitcher.rs` (breadth-first, no depth limit; parse errors of any
popped text are propagated). -/
def collectAsyncGo (env : FetchEnv) (queue : List (List Event))
    (st : WrapperTracking) (visited : List String) :
    Except VastError (WrapperTracking × List String) :=
  match queue with
  | [] => .ok (st, visited)
  | evs :: rest =>
    match parse_vast evs with
    | .error e => .error e
    | .ok vast =>
      match collectAsyncAds env vast.ads st visited with
      | ⟨(pushed, st', v'), hp⟩ => collectAsyncGo env (rest ++ pushed) st' v'
termination_by (countFresh env visited, queue.length)
decreasing_by
  rcases Nat.lt_or_ge (countFresh env v') (countFresh env visited) with h | h
  · exact Prod.Lex.left _ _ h
  · have hp' : pushed.length = 0 := by
      simp only at hp
      omega
    have hcf : countFresh env v' = countFresh env visited := by
      simp only at hp
      omega
    rw [hcf]
    exact Prod.Lex.right _ (by simp [hp'])

/-- `collect_wrapper_tracking_async` from `src/stitcher.rs`. -/
def collect_wrapper_tracking_async (env : FetchEnv) (evs : List Event) :
    Except VastError WrapperTracking :=
  match collectAsyncGo env [evs] .default [] with
  | .error e => .error e
  | .ok (st, _) => .ok st

/-- Per-Linear merge step of `stitch_vast_from_unwrapped`: append one
tracking event per bundled (tag, url) pair; append bundle clicks to an
existing `VideoClicks`, or build a fresh one (click_through = none) when
the Linear has none and the bundle has any click URLs. -/
def stitchLinear (wt : WrapperTracking) (lin : Linear) : Linear :=
  let lin :=
    { lin with
      tracking_events := lin.tracking_events ++
        wt.tracking_events.flatMap (fun p => p.2.map (fun u => TrackingEvent.mk p.1 u)) }
  match lin.video_clicks with
  | some vc =>
    { lin with
      video_clicks := some
        { vc with
          click_tracking := vc.click_tracking ++ wt.click_tracking,
          custom_click := vc.custom_click ++ wt.custom_click } }
  | none =>
    if ¬wt.click_tracking.isEmpty ∨ ¬wt.custom_click.isEmpty then
      { lin with video_clicks := some ⟨none, wt.click_tracking, wt.custom_click⟩ }
    else lin

/-- Per-creative merge step of `stitch_vast_from_unwrapped` (only
Linear creatives are touched). -/
def stitchCreative (wt : WrapperTracking) (c : Creative) : Creative :=
  match c.linear with
  | some lin => { c with linear := some (stitchLinear wt lin) }
  | none => c

/-- Per-InLine merge step of `stitch_vast_from_unwrapped`: bundle
impressions are appended after the existing ones; a missing error URL
is filled with the first bundled error URL; creatives are merged. -/
def stitchInline (wt : WrapperTracking) (i : InLine) : InLine :=
  let i := { i with impressions := i.impressions ++ wt.impressions }
  let i :=
    if i.error.isNone ∧ ¬wt.error_urls.isEmpty then
      { i with error := wt.error_urls.head? }
    else i
  { i with creatives := i.creatives.map (stitchCreative wt) }

/-- Per-ad merge step of `stitch_vast_from_unwrapped` (ads without
InLine content are untouched). -/
def stitchAd (wt : WrapperTracking) (ad : Ad) : Ad :=
  match ad.inline with
  | some i => { ad with inline := some (stitchInline wt i) }
  | none => ad

/-- `stitch_vast_from_unwrapped` from `src/stitcher.rs`. -/
def stitch_vast_from_unwrapped (unwrapped_vast : Vast) (wrapper_tracking : WrapperTracking) :
    Except VastError Vast :=
  .ok { unwrapped_vast with ads := unwrapped_vast.ads.map (stitchAd wrapper_tracking) }

/-! ### Serializer (`vast_to_xml` and helpers from `src/stitcher.rs`) -/

/-- `linear_to_xml` from `src/stitcher.rs`. -/
def linear_to_xml (linear : Linear) : String :=
  let xml := "          <Linear>\n"
  let xml := xml ++
    (match linear.duration with
     | some duration => "            <Duration>" ++ duration ++ "</Duration>\n"
     | none => "")
  let xml := xml ++
    (if ¬linear.tracking_events.isEmpty then
      "            <TrackingEvents>\n" ++
        String.join (linear.tracking_events.map (fun event =>
          "              <Tracking event=\"" ++ event.event ++ "\"><![CDATA[" ++
            event.url ++ "]]></Tracking>\n")) ++
        "            </TrackingEvents>\n"
    else "")
  let xml := xml ++
    (match linear.video_clicks with
     | some video_clicks =>
       "            <VideoClicks>\n" ++
         (match video_clicks.click_through with
          | some click_through =>
            "              <ClickThrough><![CDATA[" ++ click_through ++ "]]></ClickThrough>\n"
          | none => "") ++
         String.join (video_clicks.click_tracking.map (fun url =>
           "              <ClickTracking><![CDATA[" ++ url ++ "]]></ClickTracking>\n")) ++
         String.join (video_clicks.custom_click.map (fun url =>
           "              <CustomClick><![CDATA[" ++ url ++ "]]></CustomClick>\n")) ++
         "            </VideoClicks>\n"
     | none => "")
  let xml := xml ++
    (if ¬linear.media_files.isEmpty then
      "            <MediaFiles>\n" ++
        String.join (linear.media_files.map (fun media_file =>
          "              <MediaFile" ++
            (" type=\"" ++ media_file.mime_type ++ "\"") ++
            (match media_file.delivery with
             | some delivery => " delivery=\"" ++ delivery ++ "\""
             | none => "") ++
            (match media_file.width with
             | some width => " width=\"" ++ toString width ++ "\""
             | none => "") ++
            (match media_file.height with
             | some height => " height=\"" ++ toString height ++ "\""
             | none => "") ++
            (match media_file.codec with
             | some codec => " codec=\"" ++ codec ++ "\""
             | none => "") ++
            (match media_file.bitrate with
             | some bitrate => " bitrate=\"" ++ toString bitrate ++ "\""
             | none => "") ++
            ("><![CDATA[" ++ media_file.url ++ "]]></MediaFile>\n"))) ++
        "            </MediaFiles>\n"
    else "")
  xml ++ "          </Linear>\n"

/-- `companion_ads_to_xml` from `src/stitcher.rs`. -/
def companion_ads_to_xml (companion_ads : CompanionAds) : String :=
  "          <CompanionAds>\n" ++
    String.join (companion_ads.companions.map (fun companion =>
      "            <Companion" ++
        (match companion.id with
         | some id => " id=\"" ++ id ++ "\""
         | none => "") ++
        (" width=\"" ++ toString companion.width ++ "\" height=\"" ++
          toString companion.height ++ "\"") ++
        ">\n" ++
        (if companion.resource_type = "StaticResource" then
          "              <StaticResource><![CDATA[" ++ companion.resource ++
            "]]></StaticResource>\n"
        else if companion.resource_type = "IFrameResource" then
          "              <IFrameResource><![CDATA[" ++ companion.resource ++
            "]]></IFrameResource>\n"
        else if companion.resource_type = "HTMLResource" then
          "              <HTMLResource><![CDATA[" ++ companion.resource ++
            "]]></HTMLResource>\n"
        else "") ++
        (match companion.click_through with
         | some click_through =>
           "              <CompanionClickThrough><![CDATA[" ++ click_through ++
             "]]></CompanionClickThrough>\n"
         | none => "") ++
        (if ¬companion.tracking_events.isEmpty then
          "              <TrackingEvents>\n" ++
            String.join (companion.tracking_events.map (fun event =>
              "                <Tracking event=\"" ++ event.event ++ "\"><![CDATA[" ++
                event.url ++ "]]></Tracking>\n")) ++
            "              </TrackingEvents>\n"
        else "") ++
        "            </Companion>\n")) ++
    "          </CompanionAds>\n"

/-- `non_linear_ads_to_xml` from `src/stitcher.rs`. -/
def non_linear_ads_to_xml (non_linear_ads : NonLinearAds) : String :=
  "          <NonLinearAds>\n" ++
    String.join (non_linear_ads.non_linears.map (fun non_linear =>
      "            <NonLinear" ++
        (match non_linear.id with
         | some id => " id=\"" ++ id ++ "\""
         | none => "") ++
        (" width=\"" ++ toString non_linear.width ++ "\" height=\"" ++
          toString non_linear.height ++ "\"") ++
        (match non_linear.expand_width with
         | some expand_width => " expandedWidth=\"" ++ toString expand_width ++ "\""
         | none => "") ++
        (match non_linear.expand_height with
         | some expand_height => " expandedHeight=\"" ++ toString expand_height ++ "\""
         | none => "") ++
        (match non_linear.scalable with
         | some scalable => " scalable=\"" ++ (if scalable then "true" else "false") ++ "\""
         | none => "") ++
        (match non_linear.maintain_aspect_ratio with
         | some mar => " maintainAspectRatio=\"" ++ (if mar then "true" else "false") ++ "\""
         | none => "") ++
        ">\n" ++
        (if non_linear.resource_type = "StaticResource" then
          "              <StaticResource><![CDATA[" ++ non_linear.resource ++
            "]]></StaticResource>\n"
        else if non_linear.resource_type = "IFrameResource" then
          "              <IFrameResource><![CDATA[" ++ non_linear.resource ++
            "]]></IFrameResource>\n"
        else if non_linear.resource_type = "HTMLResource" then
          "              <HTMLResource><![CDATA[" ++ non_linear.resource ++
            "]]></HTMLResource>\n"
        else "") ++
        (match non_linear.click_through with
         | some click_through =>
           "              <NonLinearClickThrough><![CDATA[" ++ click_through ++
             "]]></NonLinearClickThrough>\n"
         | none => "") ++
        "            </NonLinear>\n")) ++
    "          </NonLinearAds>\n"

/-- `creative_to_xml` from `src/stitcher.rs`. -/
def creative_to_xml (creative : Creative) : String :=
  "        <Creative" ++
    (match creative.id with
     | some id => " id=\"" ++ id ++ "\""
     | none => "") ++
    (match creative.sequence with
     | some sequence => " sequence=\"" ++ toString sequence ++ "\""
     | none => "") ++
    (match creative.ad_id with
     | some ad_id => " adId=\"" ++ ad_id ++ "\""
     | none => "") ++
    (match creative.api_framework with
     | some api_framework => " apiFramework=\"" ++ api_framework ++ "\""
     | none => "") ++
    ">\n" ++
    (match creative.linear with
     | some linear => linear_to_xml linear
     | none => "") ++
    (match creative.companion_ads with
     | some companion_ads => companion_ads_to_xml companion_ads
     | none => "") ++
    (match creative.non_linear_ads with
     | some non_linear_ads => non_linear_ads_to_xml non_linear_ads
     | none => "") ++
    "        </Creative>\n"

/-- `inline_to_xml` from `src/stitcher.rs`. -/
def inline_to_xml (inline : InLine) : String :=
  "    <InLine>\n" ++
    ("      <AdSystem" ++
      (match inline.ad_system.version with
       | some version => " version=\"" ++ version ++ "\""
       | none => "") ++
      (">" ++ inline.ad_system.name ++ "</AdSystem>\n")) ++
    ("      <AdTitle>" ++ inline.ad_title ++ "</AdTitle>\n") ++
    (match inline.description with
     | some description => "      <Description>" ++ description ++ "</Description>\n"
     | none => "") ++
    (match inline.advertiser with
     | some advertiser => "      <Advertiser>" ++ advertiser ++ "</Advertiser>\n"
     | none => "") ++
    (match inline.survey with
     | some survey => "      <Survey><![CDATA[" ++ survey ++ "]]></Survey>\n"
     | none => "") ++
    String.join (inline.impressions.map (fun impression =>
      "      <Impression" ++
        (match impression.id with
         | some id => " id=\"" ++ id ++ "\""
         | none => "") ++
        ("><![CDATA[" ++ impression.url ++ "]]></Impression>\n"))) ++
    (match inline.error with
     | some error => "      <Error><![CDATA[" ++ error ++ "]]></Error>\n"
     | none => "") ++
    (match inline.pricing with
     | some pricing =>
       "      <Pricing model=\"" ++ pricing.model ++ "\" currency=\"" ++
         pricing.currency ++ "\">" ++ pricing.value ++ "</Pricing>\n"
     | none => "") ++
    (if ¬inline.extensions.isEmpty then
      "      <Extensions>\n" ++
        String.join (inline.extensions.map (fun extension =>
          "        <Extension" ++
            (match extension.type_ with
             | some extension_type => " type=\"" ++ extension_type ++ "\""
             | none => "") ++
            (">" ++ extension.content ++ "</Extension>\n"))) ++
        "      </Extensions>\n"
    else "") ++
    (if ¬inline.creatives.isEmpty then
      "      <Creatives>\n" ++
        String.join (inline.creatives.map creative_to_xml) ++
        "      </Creatives>\n"
    else "") ++
    "    </InLine>\n"

/-- `wrapper_to_xml` from `src/stitcher.rs`. -/
def wrapper_to_xml (wrapper : Wrapper) : String :=
  "    <Wrapper>\n" ++
    ("      <AdSystem" ++
      (match wrapper.ad_system.version with
       | some version => " version=\"" ++ version ++ "\""
       | none => "") ++
      (">" ++ wrapper.ad_system.name ++ "</AdSystem>\n")) ++
    ("      <VASTAdTagURI><![CDATA[" ++ wrapper.vast_ad_tag_uri ++
      "]]></VASTAdTagURI>\n") ++
    String.join (wrapper.impressions.map (fun impression =>
      "      <Impression" ++
        (match impression.id with
         | some id => " id=\"" ++ id ++ "\""
         | none => "") ++
        ("><![CDATA[" ++ impression.url ++ "]]></Impression>\n"))) ++
    (match wrapper.error with
     | some error => "      <Error><![CDATA[" ++ error ++ "]]></Error>\n"
     | none => "") ++
    (if ¬wrapper.creatives.isEmpty then
      "      <Creatives>\n" ++
        String.join (wrapper.creatives.map creative_to_xml) ++
        "      </Creatives>\n"
    else "") ++
    "    </Wrapper>\n"

/-- `ad_to_xml` from `src/stitcher.rs`. -/
def ad_to_xml (ad : Ad) : String :=
  "  <Ad" ++
    (match ad.id with
     | some id => " id=\"" ++ id ++ "\""
     | none => "") ++
    (match ad.sequence with
     | some sequence => " sequence=\"" ++ toString sequence ++ "\""
     | none => "") ++
    (match ad.conditional_ad with
     | some conditional_ad =>
       " conditionalAd=\"" ++ (if conditional_ad then "true" else "false") ++ "\""
     | none => "") ++
    ">\n" ++
    (match ad.inline with
     | some inline => inline_to_xml inline
     | none =>
       match ad.wrapper with
       | some wrapper => wrapper_to_xml wrapper
       | none => "") ++
    "  </Ad>\n"

/-- `vast_to_xml` from `src/stitcher.rs`. -/
def vast_to_xml (vast : Vast) : Except VastError String :=
  .ok
    ("<?xml version=\"1.0\" encoding=\"UTF-8\"?>\n" ++
      ("<VAST version=\"" ++ vast.version ++ "\">\n") ++
      (match vast.error with
       | some error => "  <Error><![CDATA[" ++ error ++ "]]></Error>\n"
       | none => "") ++
      String.join (vast.ads.map ad_to_xml) ++
      "</VAST>")

/-- `stitch_vast` from `src/stitcher.rs`. -/
def stitch_vast (env : FetchEnv) (evs : List Event) : Except VastError String :=
  match collect_wrapper_tracking env evs with
  | .error e => .error e
  | .ok wrapper_tracking =>
    match unwrap_vast env evs with
    | .error e => .error e
    | .ok unwrapped_vast =>
      match stitch_vast_from_unwrapped unwrapped_vast wrapper_tracking with
      | .error e => .error e
      | .ok stitched_vast => vast_to_xml stitched_vast

/-- `stitch_vast_async` from `src/stitcher.rs`. -/
def stitch_vast_async (env : FetchEnv) (evs : List Event) : Except VastError String :=
  match collect_wrapper_tracking_async env evs with
  | .error e => .error e
  | .ok wrapper_tracking =>
    match unwrap_vast_async env evs with
    | .error e => .error e
    | .ok unwrapped_vast =>
      match stitch_vast_from_unwrapped unwrapped_vast wrapper_tracking with
      | .error e => .error e
      | .ok stitched_vast => vast_to_xml stitched_vast

/-! ## Theorems -/

/-- C2: the stitch merge law for `stitch_vast_from_unwrapped`: every
InLine ad of the output has the original impressions followed by all
bundle impressions; a missing error URL is filled by the first bundled
error URL; a Linear creative without VideoClicks gains a fresh
`⟨none, bundle click-tracking, bundle custom-click⟩` when the bundle
has any click URLs, while an existing VideoClicks has the bundle lists
appended. -/
theorem C2_stitch_merge (v : Vast) (wt : WrapperTracking) (sv : Vast)
    (h : stitch_vast_from_unwrapped v wt = .ok sv) :
    sv.ads.length = v.ads.length ∧
    ∀ k, (hk : k < v.ads.length) → (hk' : k < sv.ads.length) →
      ∀ i, (v.ads[k]).inline = some i →
        ∃ i', (sv.ads[k]).inline = some i' ∧
          i'.impressions = i.impressions ++ wt.impressions ∧
          (i.error = none → wt.error_urls ≠ [] → i'.error = wt.error_urls.head?) ∧
          i'.creatives.length = i.creatives.length ∧
          ∀ j, (hj : j < i.creatives.length) → (hj' : j < i'.creatives.length) →
            ∀ lin, (i.creatives[j]).linear = some lin →
              ∃ lin', (i'.creatives[j]).linear = some lin' ∧
                (lin.video_clicks = none →
                  (wt.click_tracking ≠ [] ∨ wt.custom_click ≠ []) →
                  lin'.video_clicks = some ⟨none, wt.click_tracking, wt.custom_click⟩) ∧
                (∀ vc, lin.video_clicks = some vc →
                  lin'.video_clicks = some ⟨vc.click_through,
                    vc.click_tracking ++ wt.click_tracking,
                    vc.custom_click ++ wt.custom_click⟩) := by
  simp only [stitch_vast_from_unwrapped, Except.ok.injEq] at h
  subst h
  refine ⟨by simp, ?_⟩
  intro k hk hk' i hi
  have hmap : (Vast.mk v.version (v.ads.map (stitchAd wt)) v.error).ads[k] =
      stitchAd wt (v.ads[k]) := by
    simp
  have hcre : (stitchInline wt i).creatives = i.creatives.map (stitchCreative wt) := by
    simp only [stitchInline]
    split <;> simp
  refine ⟨stitchInline wt i, ?_, ?_, ?_, ?_, ?_⟩
  · rw [hmap]
    simp [stitchAd, hi]
  · simp only [stitchInline]
    split <;> simp
  · intro he hne
    simp [stitchInline, he, hne]
  · simp [hcre]
  · intro j hj hj' lin hlin
    have hcmap : (stitchInline wt i).creatives[j] = stitchCreative wt (i.creatives[j]) := by
      have hj₂ : j < (stitchInline wt i).creatives.length := by
        simp [hcre]
        omega
      rw [List.getElem_of_eq hcre hj₂]
      simp
    refine ⟨stitchLinear wt lin, ?_, ?_, ?_⟩
    · rw [hcmap]
      simp [stitchCreative, hlin]
    · intro hnone hcl
      simp [stitchLinear, hnone]
      rw [if_pos hcl]
    · intro vc hvc
      simp [stitchLinear, hvc]

def linC2 : Linear := ⟨some "00:00:10", [], none, []⟩

def vcC2 : VideoClicks := ⟨some "ct", ["a"], []⟩

def linC2b : Linear := ⟨none, [], some vcC2, []⟩

def inlineC2 : InLine :=
  ⟨⟨"sys", none⟩, "T", [⟨none, "i1"⟩], none, none, none, none, none, [],
    [⟨none, none, none, none, some linC2, none, none⟩,
     ⟨none, none, none, none, some linC2b, none, none⟩]⟩

def adC2 : Ad := ⟨some "a", none, none, some inlineC2, none⟩

def vC2 : Vast := ⟨"3.0", [adC2], none⟩

def wtC2 : WrapperTracking :=
  ⟨[⟨none, "wi"⟩], ["we1", "we2"], [("start", ["ws"])], ["wct"], ["wcc"]⟩

def svC2 : Vast :=
  ⟨"3.0",
    [⟨some "a", none, none,
      some ⟨⟨"sys", none⟩, "T", [⟨none, "i1"⟩, ⟨none, "wi"⟩], none, none, none,
        some "we1", none, [],
        [⟨none, none, none, none,
          some ⟨some "00:00:10", [], some ⟨none, ["wct"], ["wcc"]⟩, [⟨"start", "ws"⟩]⟩,
          none, none⟩,
         ⟨none, none, none, none,
          some ⟨none, [], some ⟨some "ct", ["a", "wct"], ["wcc"]⟩, [⟨"start", "ws"⟩]⟩,
          none, none⟩]⟩,
      none⟩],
    none⟩

/-- Witness for C2 at a concrete document and tracking bundle. -/
theorem C2_stitch_merge_witness :
    stitch_vast_from_unwrapped vC2 wtC2 = .ok svC2 ∧
    (svC2.ads.length = vC2.ads.length ∧
    ∀ k, (hk : k < vC2.ads.length) → (hk' : k < svC2.ads.length) →
      ∀ i, (vC2.ads[k]).inline = some i →
        ∃ i', (svC2.ads[k]).inline = some i' ∧
          i'.impressions = i.impressions ++ wtC2.impressions ∧
          (i.error = none → wtC2.error_urls ≠ [] → i'.error = wtC2.error_urls.head?) ∧
          i'.creatives.length = i.creatives.length ∧
          ∀ j, (hj : j < i.creatives.length) → (hj' : j < i'.creatives.length) →
            ∀ lin, (i.creatives[j]).linear = some lin →
              ∃ lin', (i'.creatives[j]).linear = some lin' ∧
                (lin.video_clicks = none →
                  (wtC2.click_tracking ≠ [] ∨ wtC2.custom_click ≠ []) →
                  lin'.video_clicks = some ⟨none, wtC2.click_tracking, wtC2.custom_click⟩) ∧
                (∀ vc, lin.video_clicks = some vc →
                  lin'.video_clicks = some ⟨vc.click_through,
                    vc.click_tracking ++ wtC2.click_tracking,
                    vc.custom_click ++ wtC2.custom_click⟩)) :=
  ⟨by rfl, C2_stitch_merge vC2 wtC2 svC2 (by rfl)⟩

/-- C7: evaluation of `skip_element` on a skipped `Foo` subtree that
contains a nested `Foo` element (events after the outer start tag:
`<Foo> </Foo> </Foo>`): the loop stops at the inner end tag, leaving
the outermost end tag unconsumed, instead of stopping just after it. -/
theorem C7_skip_element_same_name :
    (skip_element "Foo" [.start "Foo" [], .endE "Foo", .endE "Foo"]).toOption.map
        (fun p => p.2.val) = some [.endE "Foo"] ∧
      some [Event.endE "Foo"] ≠ some ([] : List Event) := by
  exact ⟨rfl, by decide⟩

-- The scan loop of `parse_vast` ignores every event other than a
-- `VAST` start tag and a reader error.
theorem parse_vast_scan_skip (pre tail : List Event)
    (h1 : ∀ a, Event.start "VAST" a ∉ pre) (h2 : Event.err ∉ pre) :
    parse_vast (pre ++ tail) = parse_vast tail := by
  induction pre with
  | nil => rfl
  | cons e pre ih =>
    have h1' : ∀ a, Event.start "VAST" a ∉ pre := fun a hm => h1 a (List.mem_cons_of_mem _ hm)
    have h2' : Event.err ∉ pre := fun hm => h2 (List.mem_cons_of_mem _ hm)
    cases e with
    | start n attrs =>
      have hne : ¬n = "VAST" := by
        intro h
        subst h
        exact h1 attrs (List.mem_cons_self _ _)
      simp [parse_vast, hne, ih h1' h2']
    | err => exact absurd (List.mem_cons_self _ _) h2
    | endE n => simpa [parse_vast] using ih h1' h2'
    | text s => simpa [parse_vast] using ih h1' h2'
    | cdata s => simpa [parse_vast] using ih h1' h2'
    | decl => simpa [parse_vast] using ih h1' h2'

/-- C5 counterexample: an input with no `VAST` root element at all (here
the empty input, i.e. an immediate Eof) makes `parse_vast` succeed with
an empty version rather than fail with a StructuralError, refuting both
"fails for every input whose root VAST element is absent" and "every
Document returned by a successful parse has a non-empty version". -/
theorem C5_absent_root_counterexample :
    parse_vast [] = .ok ⟨"", [], none⟩ ∧ (Vast.mk "" [] none).version = "" :=
  ⟨rfl, rfl⟩

/-- C5 (amended): scanning ignores events before the `VAST` start tag;
(1) if the input ends with no `VAST` start tag and no reader error, the
parse succeeds with an empty version and no ads (not a StructuralError);
(2) a `VAST` start tag with a missing or empty version attribute fails
with `MissingField "VAST version"`; (3) a `VAST` start tag with a
nonempty version yields that version (with top-level error `none`);
(4) a reader error before any `VAST` start tag is an XML parse
(structural) error. -/
theorem C5_parse_contract :
    (∀ evs : List Event, (∀ a, Event.start "VAST" a ∉ evs) → Event.err ∉ evs →
      parse_vast evs = .ok ⟨"", [], none⟩) ∧
    (∀ (pre : List Event) attrs rest, (∀ a, Event.start "VAST" a ∉ pre) →
      Event.err ∉ pre → vastVersionFromAttrs attrs = "" →
      parse_vast (pre ++ .start "VAST" attrs :: rest) =
        .error (.missingField "VAST version")) ∧
    (∀ (pre : List Event) attrs rest ads r, (∀ a, Event.start "VAST" a ∉ pre) →
      Event.err ∉ pre → vastVersionFromAttrs attrs ≠ "" →
      parse_ads rest = .ok (ads, r) →
      parse_vast (pre ++ .start "VAST" attrs :: rest) =
        .ok ⟨vastVersionFromAttrs attrs, ads, none⟩) ∧
    (∀ (pre rest : List Event), (∀ a, Event.start "VAST" a ∉ pre) → Event.err ∉ pre →
      parse_vast (pre ++ .err :: rest) = .error .xmlParseError) := by
  refine ⟨?_, ?_, ?_, ?_⟩
  · intro evs h1 h2
    have := parse_vast_scan_skip evs [] h1 h2
    simpa using this
  · intro pre attrs rest h1 h2 hv
    rw [parse_vast_scan_skip pre _ h1 h2]
    simp [parse_vast, hv]
  · intro pre attrs rest ads r h1 h2 hv hads
    rw [parse_vast_scan_skip pre _ h1 h2]
    simp [parse_vast, hv, hads]
  · intro pre rest h1 h2
    rw [parse_vast_scan_skip pre _ h1 h2]
    rfl

/-- Witness for C5 at concrete inputs: (1) a document with no `VAST`
element; (2) `<VAST version="">`; (3) `<VAST version="2.0"></VAST>`;
(4) a reader error after the declaration. -/
theorem C5_parse_contract_witness :
    parse_vast [.decl, .text "x"] = .ok ⟨"", [], none⟩ ∧
    parse_vast [.decl, .start "VAST" [("version", "")], .endE "VAST"] =
      .error (.missingField "VAST version") ∧
    parse_vast [.decl, .start "VAST" [("version", "2.0")], .endE "VAST"] =
      .ok ⟨"2.0", [], none⟩ ∧
    parse_vast [.decl, .err] = .error .xmlParseError := by
  refine ⟨?_, ?_, ?_, ?_⟩
  · exact C5_parse_contract.1 [.decl, .text "x"] (by simp) (by simp)
  · exact C5_parse_contract.2.1 [.decl] [("version", "")] [.endE "VAST"]
      (by simp) (by simp) (by rfl)
  · have := C5_parse_contract.2.2.1 [.decl] [("version", "2.0")] [.endE "VAST"]
      [] ⟨[], by simp⟩ (by simp) (by simp) (by simp [vastVersionFromAttrs])
      (by simp [parse_ads, parse_ads_go])
    simpa [vastVersionFromAttrs] using this
  · exact C5_parse_contract.2.2.2 [.decl] [] (by simp) (by simp)

-- `unwrap_vast_with_depth` returns `Ok` in every branch.
theorem unwrapGo_isOk (env : FetchEnv) (evs : List Event) (r : Nat)
    (visited : List String) : (unwrapGo env evs r visited).1.isOk = true := by
  rcases r with _ | r
  · simp [unwrapGo, Except.isOk, Except.toBool]
  · simp only [unwrapGo]
    rcases h : parse_vast evs with e | vast
    · simp [Except.isOk, Except.toBool]
    · rcases hads : unwrapAds env vast.ads r visited with ⟨ras, fi, v', lg⟩
      rcases fi <;> simp [Except.isOk, Except.toBool, hads]

/-- C4 (amended): resolve never fails: both `unwrap_vast` and
`unwrap_vast_async` return `Ok` on every input, and in particular a
root whose parse fails (StructuralError or MissingFieldError) yields a
success Document with version "4.0", no ads, and a descriptive
top-level error string, rather than surfacing the parse error. -/
theorem C4_resolve_never_fails :
    (∀ (env : FetchEnv) (evs : List Event),
      (unwrap_vast env evs).isOk = true ∧ (unwrap_vast_async env evs).isOk = true) ∧
    (∀ (env : FetchEnv) (evs : List Event) (e : VastError), parse_vast evs = .error e →
      unwrap_vast env evs = .ok ⟨"4.0", [], some "Failed to parse VAST XML"⟩ ∧
      unwrap_vast_async env evs =
        .ok ⟨"4.0", [], some "No valid VAST documents found in the chain"⟩) := by
  constructor
  · intro env evs
    constructor
    · exact unwrapGo_isOk env evs MAX_WRAPPER_DEPTH []
    · rcases hq : unwrapAsyncGo env [(evs, 0)] [] [] none [] with ⟨ras, lastv, v, lg⟩
      rcases hp : parse_vast evs with e | vast <;>
        rcases ras with _ | ⟨a, ras⟩ <;> rcases lastv with _ | lv <;>
        simp [unwrap_vast_async, hq, hp, Except.isOk, Except.toBool]
  · intro env evs e h
    constructor
    · simp [unwrap_vast, unwrapGo, MAX_WRAPPER_DEPTH, h]
    · simp [unwrap_vast_async, unwrapAsyncGo, MAX_WRAPPER_DEPTH, h]

/-- C4 counterexample: at the concrete root `<VAST>` (version attribute
missing) the parse fails with MissingFieldError, yet both resolvers
return a success value instead of failing outright. -/
theorem C4_root_error_counterexample :
    parse_vast [.start "VAST" []] = .error (.missingField "VAST version") ∧
    unwrap_vast [] [.start "VAST" []] =
      .ok ⟨"4.0", [], some "Failed to parse VAST XML"⟩ ∧
    unwrap_vast_async [] [.start "VAST" []] =
      .ok ⟨"4.0", [], some "No valid VAST documents found in the chain"⟩ := by
  refine ⟨by simp [parse_vast, vastVersionFromAttrs], ?_, ?_⟩
  · simp [unwrap_vast, unwrapGo, MAX_WRAPPER_DEPTH, parse_vast, vastVersionFromAttrs]
  · simp [unwrap_vast_async, unwrapAsyncGo, MAX_WRAPPER_DEPTH, parse_vast,
      vastVersionFromAttrs]

/-- Witness for C4 applying the theorem at the concrete failing root. -/
theorem C4_resolve_never_fails_witness :
    (unwrap_vast [] [.start "VAST" []]).isOk = true ∧
    unwrap_vast [] [.start "VAST" []] =
      .ok ⟨"4.0", [], some "Failed to parse VAST XML"⟩ ∧
    unwrap_vast_async [] [.start "VAST" []] =
      .ok ⟨"4.0", [], some "No valid VAST documents found in the chain"⟩ :=
  ⟨(C4_resolve_never_fails.1 [] [.start "VAST" []]).1,
    (C4_resolve_never_fails.2 [] [.start "VAST" []] (.missingField "VAST version")
      (by simp [parse_vast, vastVersionFromAttrs])).1,
    (C4_resolve_never_fails.2 [] [.start "VAST" []] (.missingField "VAST version")
      (by simp [parse_vast, vastVersionFromAttrs])).2⟩

-- The creative loop of `extract_wrapper_tracking` never touches the
-- impression and error-URL accumulators.
theorem extractTrackingEvents_fields (tes : List TrackingEvent) (st : WrapperTracking) :
    (extractTrackingEvents st tes).impressions = st.impressions ∧
    (extractTrackingEvents st tes).error_urls = st.error_urls := by
  induction tes generalizing st with
  | nil => exact ⟨rfl, rfl⟩
  | cons te tes ih =>
    simpa [extractTrackingEvents] using ih _

theorem extractCreative_fields (st : WrapperTracking) (c : Creative) :
    (extractCreative st c).impressions = st.impressions ∧
    (extractCreative st c).error_urls = st.error_urls := by
  unfold extractCreative
  rcases hl : c.linear with _ | lin
  · simp
  · simp only []
    rcases hv : lin.video_clicks with _ | vc
    · simp only [hv]
      exact extractTrackingEvents_fields lin.tracking_events st
    · simp only [hv]
      simpa using extractTrackingEvents_fields lin.tracking_events st

theorem foldl_extractCreative_fields (cs : List Creative) (s : WrapperTracking) :
    (cs.foldl extractCreative s).impressions = s.impressions ∧
    (cs.foldl extractCreative s).error_urls = s.error_urls := by
  induction cs generalizing s with
  | nil => exact ⟨rfl, rfl⟩
  | cons c cs ih =>
    have h := extractCreative_fields s c
    have h' := ih (extractCreative s c)
    simp only [List.foldl_cons]
    exact ⟨h'.1.trans h.1, h'.2.trans h.2⟩

/-- C10: in both the recursive and the queue-based tracking
collectors, a wrapper ad's own tracking is extracted before the visited
set is consulted: for a wrapper whose target URI is already visited the
step reduces to continuing with the accumulator extended by exactly
that wrapper's extraction, and extraction appends the wrapper's
impressions and error URL to the bundle. -/
theorem C10_tracking_collected_before_visited :
    (∀ (env : FetchEnv) (ad : Ad) (w : Wrapper) (rest : List Ad)
        (st : WrapperTracking) (visited : List String),
      ad.wrapper = some w → w.vast_ad_tag_uri ∈ visited →
      collectAds env (ad :: rest) st visited =
        collectAds env rest (extract_wrapper_tracking w st) visited) ∧
    (∀ (env : FetchEnv) (ad : Ad) (w : Wrapper) (rest : List Ad)
        (st : WrapperTracking) (visited : List String),
      ad.wrapper = some w → w.vast_ad_tag_uri ∈ visited →
      (collectAsyncAds env (ad :: rest) st visited).val =
        (collectAsyncAds env rest (extract_wrapper_tracking w st) visited).val) ∧
    (∀ (w : Wrapper) (st : WrapperTracking),
      (extract_wrapper_tracking w st).impressions = st.impressions ++ w.impressions ∧
      (extract_wrapper_tracking w st).error_urls = st.error_urls ++ w.error.toList) := by
  refine ⟨?_, ?_, ?_⟩
  · intro env ad w rest st visited hw hmem
    simp [collectAds, hw, hmem]
  · intro env ad w rest st visited hw hmem
    simp [collectAsyncAds, hw, hmem]
  · intro w st
    unfold extract_wrapper_tracking
    have h := foldl_extractCreative_fields w.creatives
    rcases he : w.error with _ | e
    · simpa [he] using h _
    · simpa [he] using h _

def wC10 : Wrapper := ⟨⟨"s", none⟩, "u", [⟨none, "wi"⟩], some "we", [], []⟩

def adC10 : Ad := ⟨none, none, none, none, some wC10⟩

/-- Witness for C10 at a concrete already-visited wrapper. -/
theorem C10_tracking_collected_before_visited_witness :
    collectAds [] [adC10] .default ["u"] =
      collectAds [] [] (extract_wrapper_tracking wC10 .default) ["u"] ∧
    (collectAsyncAds [] [adC10] .default ["u"]).val =
      (collectAsyncAds [] [] (extract_wrapper_tracking wC10 .default) ["u"]).val ∧
    ((extract_wrapper_tracking wC10 .default).impressions =
        WrapperTracking.default.impressions ++ wC10.impressions ∧
      (extract_wrapper_tracking wC10 .default).error_urls =
        WrapperTracking.default.error_urls ++ wC10.error.toList) :=
  ⟨C10_tracking_collected_before_visited.1 [] adC10 wC10 [] .default ["u"] rfl
      (by decide),
    C10_tracking_collected_before_visited.2.1 [] adC10 wC10 [] .default ["u"] rfl
      (by decide),
    C10_tracking_collected_before_visited.2.2 wC10 .default⟩

-- A hop whose parse fails produces a no-ads document, leaving the
-- visited set and fetch log untouched.
theorem unwrapGo_parse_fail (env : FetchEnv) (evs : List Event) (r : Nat)
    (visited : List String) (e : VastError) (h : parse_vast evs = .error e) :
    unwrapGo env evs r visited =
      (.ok ⟨"4.0", [],
        some (if r = 0 then "Maximum wrapper depth exceeded"
          else "Failed to parse VAST XML")⟩, visited, []) := by
  rcases r with _ | r
  · simp [unwrapGo]
  · simp [unwrapGo, h]

-- `wkSub` only adjusts the carried subset proof.
theorem wkSub_map_fst {visited v₁ : List String} (h : visited ⊆ v₁)
    (x : Except VastError (WrapperTracking × {v : List String // v₁ ⊆ v})) :
    (wkSub h x).map (fun p => p.1) = x.map (fun p => p.1) := by
  rcases x with e | ⟨st, v, hv⟩ <;> rfl

/-- C3 (amended): during traversal of non-root hops, the chain
resolution (`unwrap_vast` / `unwrap_vast_async`) absorbs both fetch
failures and parse failures of fetched text — the failing branch
contributes no ads and the call goes on; the tracking-collection
traversal used by stitch absorbs fetch failures the same way (after
extracting the wrapper's own tracking), but a parse failure of fetched
text is NOT caught there: it propagates (see the counterexample). -/
theorem C3_nonroot_hop_failures :
    (∀ (env : FetchEnv) (ad : Ad) (w : Wrapper) (rest : List Ad) (r : Nat)
        (visited : List String) (e : VastError),
      ad.inline = none → ad.wrapper = some w → w.vast_ad_tag_uri ∉ visited →
      fetchEnv env w.vast_ad_tag_uri = .error e →
      ((unwrapAds env (ad :: rest) r visited).1 =
          (unwrapAds env rest r (w.vast_ad_tag_uri :: visited)).1 ∧
        (unwrapAds env (ad :: rest) r visited).2.1 =
          (unwrapAds env rest r (w.vast_ad_tag_uri :: visited)).2.1)) ∧
    (∀ (env : FetchEnv) (ad : Ad) (w : Wrapper) (rest : List Ad) (r : Nat)
        (visited : List String) (next : List Event) (e : VastError),
      ad.inline = none → ad.wrapper = some w → w.vast_ad_tag_uri ∉ visited →
      fetchEnv env w.vast_ad_tag_uri = .ok next → parse_vast next = .error e →
      ((unwrapAds env (ad :: rest) r visited).1 =
          (unwrapAds env rest r (w.vast_ad_tag_uri :: visited)).1 ∧
        (unwrapAds env (ad :: rest) r visited).2.1 =
          (unwrapAds env rest r (w.vast_ad_tag_uri :: visited)).2.1)) ∧
    (∀ (env : FetchEnv) (ad : Ad) (w : Wrapper) (rest : List Ad)
        (visited : List String) (e : VastError),
      ad.inline = none → ad.wrapper = some w → w.vast_ad_tag_uri ∉ visited →
      fetchEnv env w.vast_ad_tag_uri = .error e →
      ((processAdsAsync env (ad :: rest) visited).val.pushed =
          (processAdsAsync env rest (w.vast_ad_tag_uri :: visited)).val.pushed ∧
        (processAdsAsync env (ad :: rest) visited).val.inlines =
          (processAdsAsync env rest (w.vast_ad_tag_uri :: visited)).val.inlines)) ∧
    (∀ (env : FetchEnv) (evs : List Event) (d : Nat)
        (rest : List (List Event × Nat)) (visited : List String) (ras : List Ad)
        (lastv : Option Vast) (lg : List String) (e : VastError),
      d < MAX_WRAPPER_DEPTH → parse_vast evs = .error e →
      unwrapAsyncGo env ((evs, d) :: rest) visited ras lastv lg =
        unwrapAsyncGo env rest visited ras lastv lg) ∧
    (∀ (env : FetchEnv) (ad : Ad) (w : Wrapper) (rest : List Ad)
        (st : WrapperTracking) (visited : List String) (e : VastError),
      ad.wrapper = some w → w.vast_ad_tag_uri ∉ visited →
      fetchEnv env w.vast_ad_tag_uri = .error e →
      (collectAds env (ad :: rest) st visited).map (fun p => p.1) =
        (collectAds env rest (extract_wrapper_tracking w st)
            (w.vast_ad_tag_uri :: visited)).map (fun p => p.1)) ∧
    (∀ (env : FetchEnv) (ad : Ad) (w : Wrapper) (rest : List Ad)
        (st : WrapperTracking) (visited : List String) (e : VastError),
      ad.wrapper = some w → w.vast_ad_tag_uri ∉ visited →
      fetchEnv env w.vast_ad_tag_uri = .error e →
      (collectAsyncAds env (ad :: rest) st visited).val =
        (collectAsyncAds env rest (extract_wrapper_tracking w st)
            (w.vast_ad_tag_uri :: visited)).val) := by
  refine ⟨?_, ?_, ?_, ?_, ?_, ?_⟩
  · intro env ad w rest r visited e hi hw hmem hf
    have hi' : ad.inline.isSome = false := by simp [hi]
    rcases hrec : unwrapAds env rest r (w.vast_ad_tag_uri :: visited) with
      ⟨ras, fi, v', lg⟩
    simp [unwrapAds, hi', hw, hmem, hf, hrec]
  · intro env ad w rest r visited next e hi hw hmem hf hp
    have hi' : ad.inline.isSome = false := by simp [hi]
    have hgo := unwrapGo_parse_fail env next r (w.vast_ad_tag_uri :: visited) e hp
    rcases hrec : unwrapAds env rest r (w.vast_ad_tag_uri :: visited) with
      ⟨ras, fi, v', lg⟩
    simp [unwrapAds, hi', hw, hmem, hf, hgo, hrec]
  · intro env ad w rest visited e hi hw hmem hf
    simp only [processAdsAsync, hi, hw, Option.isSome_none, Bool.false_eq_true,
      if_false]
    rw [dif_neg hmem]
    refine ⟨?_, ?_⟩ <;>
    · split
      · rfl
      · rename_i heq
        simp [hf] at heq
  · intro env evs d rest visited ras lastv lg e hd hp
    have hd' : ¬MAX_WRAPPER_DEPTH ≤ d := by omega
    simp [unwrapAsyncGo, hd', hp]
  · intro env ad w rest st visited e hw hmem hf
    simp only [collectAds, hw]
    rw [dif_neg hmem]
    split
    · rw [wkSub_map_fst]
    · rename_i heq
      simp [hf] at heq
  · intro env ad w rest st visited e hw hmem hf
    simp only [collectAsyncAds, hw]
    rw [dif_neg hmem]
    split
    · rename_i a heq
      rcases h2 : collectAsyncAds env rest (extract_wrapper_tracking w st)
        (w.vast_ad_tag_uri :: visited) with ⟨p, hp⟩
      simp [h2]
    · rename_i a heq
      simp [hf] at heq

def envC3 : FetchEnv := [("u1", .ok [.start "VAST" []])]

def rootC3 : List Event :=
  [.start "VAST" [("version", "2.0")],
   .start "Ad" [],
   .start "Wrapper" [],
   .start "VASTAdTagURI" [], .cdata "u1", .endE "VASTAdTagURI",
   .endE "Wrapper",
   .endE "Ad",
   .endE "VAST"]

/-- C3 counterexample: a non-root hop whose fetched text fails to parse
(fetch succeeds, parse fails with MissingFieldError) makes the
tracking-collection traversal — and with it the whole stitch call —
fail, while the chain resolution on the same input stays a success. -/
theorem C3_collector_parse_failure_counterexample :
    collect_wrapper_tracking envC3 rootC3 = .error (.missingField "VAST version") ∧
    collect_wrapper_tracking_async envC3 rootC3 =
      .error (.missingField "VAST version") ∧
    stitch_vast envC3 rootC3 = .error (.missingField "VAST version") ∧
    (unwrap_vast envC3 rootC3).isOk = true := by
  refine ⟨?_, ?_, ?_, unwrapGo_isOk envC3 rootC3 MAX_WRAPPER_DEPTH []⟩
  · simp [collect_wrapper_tracking, collectGo, collectAds, rootC3, envC3,
      parse_vast, parse_ads, parse_ads_go, parse_ad_element, parse_ad_go,
      parse_wrapper_element, parse_wrapper_go, Wrapper.init, read_text_element,
      read_text_go, adFromAttrs, vastVersionFromAttrs, wk, fetchEnv, List.find?,
      extract_wrapper_tracking, extractCreative]
  · simp [collect_wrapper_tracking_async, collectAsyncGo, collectAsyncAds, rootC3,
      envC3, parse_vast, parse_ads, parse_ads_go, parse_ad_element, parse_ad_go,
      parse_wrapper_element, parse_wrapper_go, Wrapper.init, read_text_element,
      read_text_go, adFromAttrs, vastVersionFromAttrs, wk, fetchEnv, List.find?,
      extract_wrapper_tracking, extractCreative]
  · simp [stitch_vast, collect_wrapper_tracking, collectGo, collectAds, rootC3,
      envC3, parse_vast, parse_ads, parse_ads_go, parse_ad_element, parse_ad_go,
      parse_wrapper_element, parse_wrapper_go, Wrapper.init, read_text_element,
      read_text_go, adFromAttrs, vastVersionFromAttrs, wk, fetchEnv, List.find?,
      extract_wrapper_tracking, extractCreative]

def wC3x : Wrapper := ⟨⟨"", none⟩, "x", [], none, [], []⟩

def wC3y : Wrapper := ⟨⟨"", none⟩, "y", [], none, [], []⟩

def adC3x : Ad := ⟨none, none, none, none, some wC3x⟩

def adC3y : Ad := ⟨none, none, none, none, some wC3y⟩

def envC3w : FetchEnv := [("x", .error .ioError), ("y", .ok [.start "VAST" []])]

/-- Witness for C3 at concrete failing hops ("x": fetch failure; "y":
fetch succeeds, parse fails). -/
theorem C3_nonroot_hop_failures_witness :
    ((unwrapAds envC3w [adC3x] 3 []).1 = (unwrapAds envC3w [] 3 ["x"]).1 ∧
      (unwrapAds envC3w [adC3x] 3 []).2.1 = (unwrapAds envC3w [] 3 ["x"]).2.1) ∧
    ((unwrapAds envC3w [adC3y] 3 []).1 = (unwrapAds envC3w [] 3 ["y"]).1 ∧
      (unwrapAds envC3w [adC3y] 3 []).2.1 = (unwrapAds envC3w [] 3 ["y"]).2.1) ∧
    ((processAdsAsync envC3w [adC3x] []).val.pushed =
        (processAdsAsync envC3w [] ["x"]).val.pushed ∧
      (processAdsAsync envC3w [adC3x] []).val.inlines =
        (processAdsAsync envC3w [] ["x"]).val.inlines) ∧
    (unwrapAsyncGo envC3w [([.start "VAST" []], 1)] [] [] none [] =
      unwrapAsyncGo envC3w [] [] [] none []) ∧
    ((collectAds envC3w [adC3x] .default []).map (fun p => p.1) =
      (collectAds envC3w [] (extract_wrapper_tracking wC3x .default) ["x"]).map
        (fun p => p.1)) ∧
    ((collectAsyncAds envC3w [adC3x] .default []).val =
      (collectAsyncAds envC3w [] (extract_wrapper_tracking wC3x .default) ["x"]).val) :=
  ⟨C3_nonroot_hop_failures.1 envC3w adC3x wC3x [] 3 [] .ioError rfl rfl (by simp)
      (by rfl),
    C3_nonroot_hop_failures.2.1 envC3w adC3y wC3y [] 3 [] [.start "VAST" []]
      (.missingField "VAST version") rfl rfl (by simp) (by rfl)
      (by simp [parse_vast, vastVersionFromAttrs]),
    C3_nonroot_hop_failures.2.2.1 envC3w adC3x wC3x [] [] .ioError rfl rfl (by simp)
      (by rfl),
    C3_nonroot_hop_failures.2.2.2.1 envC3w [.start "VAST" []] 1 [] [] [] none []
      (.missingField "VAST version") (by simp [MAX_WRAPPER_DEPTH])
      (by simp [parse_vast, vastVersionFromAttrs]),
    C3_nonroot_hop_failures.2.2.2.2.1 envC3w adC3x wC3x [] .default [] .ioError rfl
      (by simp) (by rfl),
    C3_nonroot_hop_failures.2.2.2.2.2 envC3w adC3x wC3x [] .default [] .ioError rfl
      (by simp) (by rfl)⟩

-- Fetch-log invariant of the recursive resolver: the visited set only
-- grows, and the log lists pairwise-distinct locators that were fresh
-- on entry and are visited on exit.
theorem unwrap_log_invariant (env : FetchEnv) :
    ∀ (evs : List Event) (r : Nat) (visited : List String),
      (∀ u, u ∈ visited → u ∈ (unwrapGo env evs r visited).2.1) ∧
      (unwrapGo env evs r visited).2.2.Nodup ∧
      ∀ u, u ∈ (unwrapGo env evs r visited).2.2 →
        u ∉ visited ∧ u ∈ (unwrapGo env evs r visited).2.1 := by
  refine unwrapGo.induct env
    (fun evs r visited =>
      (∀ u, u ∈ visited → u ∈ (unwrapGo env evs r visited).2.1) ∧
      (unwrapGo env evs r visited).2.2.Nodup ∧
      ∀ u, u ∈ (unwrapGo env evs r visited).2.2 →
        u ∉ visited ∧ u ∈ (unwrapGo env evs r visited).2.1)
    (fun ads r visited =>
      (∀ u, u ∈ visited → u ∈ (unwrapAds env ads r visited).2.2.1) ∧
      (unwrapAds env ads r visited).2.2.2.Nodup ∧
      ∀ u, u ∈ (unwrapAds env ads r visited).2.2.2 →
        u ∉ visited ∧ u ∈ (unwrapAds env ads r visited).2.2.1)
    ?_ ?_ ?_ ?_ ?_ ?_ ?_ ?_ ?_ ?_ ?_
  · intro evs visited
    simp [unwrapGo]
  · intro evs visited r e hp
    simp [unwrapGo, hp]
  · intro evs visited r vast hp ras v' lg hads ih
    simp only [hads] at ih
    simp only [unwrapGo, hp, hads]
    exact ih
  · intro evs visited r vast hp ras fi v' lg hads hfi ih
    simp only [hads] at ih
    have hfi' : fi = false := by
      simpa using hfi
    subst hfi'
    simp only [unwrapGo, hp, hads, Bool.false_eq_true, if_false]
    exact ih
  · intro r visited
    simp [unwrapAds]
  · intro r visited ad rest hi ras fi v' lg hads ih
    simp only [hads] at ih
    simp only [unwrapAds, hi, if_true, hads]
    exact ih
  · intro r visited ad rest hi hw ih
    simp only [unwrapAds, hi, Bool.false_eq_true, if_false, hw]
    exact ih
  · intro r visited ad rest hi w hw hmem ih
    simp only [unwrapAds, hi, Bool.false_eq_true, if_false, hw]
    rw [if_pos hmem]
    exact ih
  · intro r visited ad rest hi w hw hmem e hf ras fi v' lg hads ih
    simp only [hads] at ih
    simp only [unwrapAds, hi, Bool.false_eq_true, if_false, hw]
    rw [if_neg hmem]
    simp only [hf, hads]
    refine ⟨fun u hu => ih.1 u (List.mem_cons_of_mem _ hu), ?_, ?_⟩
    · refine List.nodup_cons.mpr ⟨fun hmemlg => ?_, ih.2.1⟩
      exact ((ih.2.2 _ hmemlg).1) (List.mem_cons_self _ _)
    · intro u hu
      rcases List.mem_cons.mp hu with rfl | hu
      · exact ⟨hmem, ih.1 _ (List.mem_cons_self _ _)⟩
      · have h := ih.2.2 u hu
        exact ⟨fun hv => h.1 (List.mem_cons_of_mem _ hv), h.2⟩
  · intro r visited ad rest hi w hw hmem next hf e v₂ lg₂ hgo ras fi v₃ lg₃ hads ih1 ih2
    simp only [hgo] at ih1
    simp only [hads] at ih2
    simp only [unwrapAds, hi, Bool.false_eq_true, if_false, hw]
    rw [if_neg hmem]
    simp only [hf, hgo, hads]
    refine ⟨?_, ?_, ?_⟩
    · intro u hu
      exact ih2.1 u (ih1.1 u (List.mem_cons_of_mem _ hu))
    · refine List.nodup_cons.mpr ⟨?_, ?_⟩
      · intro hmemlg
        rcases List.mem_append.mp hmemlg with h | h
        · exact (ih1.2.2 _ h).1 (List.mem_cons_self _ _)
        · exact (ih2.2.2 _ h).1 (ih1.1 _ (List.mem_cons_self _ _))
      · refine List.nodup_append.mpr ⟨ih1.2.1, ih2.2.1, ?_⟩
        intro u hu₂ hu₃
        exact (ih2.2.2 _ hu₃).1 ((ih1.2.2 _ hu₂).2)
    · intro u hu
      rcases List.mem_cons.mp hu with rfl | hu
      · exact ⟨hmem, ih2.1 _ (ih1.1 _ (List.mem_cons_self _ _))⟩
      · rcases List.mem_append.mp hu with h | h
        · have h1 := ih1.2.2 _ h
          exact ⟨fun hv => h1.1 (List.mem_cons_of_mem _ hv), ih2.1 _ h1.2⟩
        · have h2 := ih2.2.2 _ h
          exact ⟨fun hv => h2.1 (ih1.1 _ (List.mem_cons_of_mem _ hv)), h2.2⟩
  · intro r visited ad rest hi w hw hmem next hf nv v₂ lg₂ hgo ras fi v₃ lg₃ hads ih1 ih2
    simp only [hgo] at ih1
    simp only [hads] at ih2
    simp only [unwrapAds, hi, Bool.false_eq_true, if_false, hw]
    rw [if_neg hmem]
    simp only [hf, hgo, hads]
    refine ⟨?_, ?_, ?_⟩
    · intro u hu
      exact ih2.1 u (ih1.1 u (List.mem_cons_of_mem _ hu))
    · refine List.nodup_cons.mpr ⟨?_, ?_⟩
      · intro hmemlg
        rcases List.mem_append.mp hmemlg with h | h
        · exact (ih1.2.2 _ h).1 (List.mem_cons_self _ _)
        · exact (ih2.2.2 _ h).1 (ih1.1 _ (List.mem_cons_self _ _))
      · refine List.nodup_append.mpr ⟨ih1.2.1, ih2.2.1, ?_⟩
        intro u hu₂ hu₃
        exact (ih2.2.2 _ hu₃).1 ((ih1.2.2 _ hu₂).2)
    · intro u hu
      rcases List.mem_cons.mp hu with rfl | hu
      · exact ⟨hmem, ih2.1 _ (ih1.1 _ (List.mem_cons_self _ _))⟩
      · rcases List.mem_append.mp hu with h | h
        · have h1 := ih1.2.2 _ h
          exact ⟨fun hv => h1.1 (List.mem_cons_of_mem _ hv), ih2.1 _ h1.2⟩
        · have h2 := ih2.2.2 _ h
          exact ⟨fun hv => h2.1 (ih1.1 _ (List.mem_cons_of_mem _ hv)), h2.2⟩

-- Fetch-log invariant of one queue step of the breadth-first resolver.
theorem processAdsAsync_log_invariant (env : FetchEnv) :
    ∀ (ads : List Ad) (visited : List String),
      (∀ u, u ∈ visited → u ∈ (processAdsAsync env ads visited).val.visited) ∧
      (processAdsAsync env ads visited).val.log.Nodup ∧
      ∀ u, u ∈ (processAdsAsync env ads visited).val.log →
        u ∉ visited ∧ u ∈ (processAdsAsync env ads visited).val.visited := by
  refine processAdsAsync.induct env
    (fun ads visited =>
      (∀ u, u ∈ visited → u ∈ (processAdsAsync env ads visited).val.visited) ∧
      (processAdsAsync env ads visited).val.log.Nodup ∧
      ∀ u, u ∈ (processAdsAsync env ads visited).val.log →
        u ∉ visited ∧ u ∈ (processAdsAsync env ads visited).val.visited)
    ?_ ?_ ?_ ?_ ?_ ?_
  · intro visited
    simp [processAdsAsync]
  · intro visited ad rest hi s hs hrec ih
    simp only [hrec] at ih
    simp only [processAdsAsync, hi, if_true, hrec]
    exact ih
  · intro visited ad rest hi hw ih
    simp only [processAdsAsync, hi, Bool.false_eq_true, if_false, hw]
    exact ih
  · intro visited ad rest hi w hw hmem ih
    simp only [processAdsAsync, hi, Bool.false_eq_true, if_false, hw]
    rw [dif_pos hmem]
    exact ih
  · intro visited ad rest hi w hw hmem a hf s hs hrec ih
    simp only [hrec] at ih
    simp only [processAdsAsync, hi, Bool.false_eq_true, if_false, hw]
    rw [dif_neg hmem]
    split
    · rename_i a' heq
      simp only [hrec]
      refine ⟨fun u hu => ih.1 u (List.mem_cons_of_mem _ hu), ?_, ?_⟩
      · refine List.nodup_cons.mpr ⟨fun hmemlg => ?_, ih.2.1⟩
        exact ((ih.2.2 _ hmemlg).1) (List.mem_cons_self _ _)
      · intro u hu
        rcases List.mem_cons.mp hu with rfl | hu
        · exact ⟨hmem, ih.1 _ (List.mem_cons_self _ _)⟩
        · have h := ih.2.2 u hu
          exact ⟨fun hv => h.1 (List.mem_cons_of_mem _ hv), h.2⟩
    · rename_i next heq
      simp [hf] at heq
  · intro visited ad rest hi w hw hmem next hf s hs hrec ih
    simp only [hrec] at ih
    simp only [processAdsAsync, hi, Bool.false_eq_true, if_false, hw]
    rw [dif_neg hmem]
    split
    · rename_i a' heq
      simp [hf] at heq
    · rename_i next' heq
      rw [hf] at heq
      cases heq
      simp only [hrec]
      refine ⟨fun u hu => ih.1 u (List.mem_cons_of_mem _ hu), ?_, ?_⟩
      · refine List.nodup_cons.mpr ⟨fun hmemlg => ?_, ih.2.1⟩
        exact ((ih.2.2 _ hmemlg).1) (List.mem_cons_self _ _)
      · intro u hu
        rcases List.mem_cons.mp hu with rfl | hu
        · exact ⟨hmem, ih.1 _ (List.mem_cons_self _ _)⟩
        · have h := ih.2.2 u hu
          exact ⟨fun hv => h.1 (List.mem_cons_of_mem _ hv), h.2⟩

-- Fetch-log invariant of the breadth-first resolver's queue loop.
theorem unwrapAsyncGo_log_invariant (env : FetchEnv) :
    ∀ (queue : List (List Event × Nat)) (visited : List String) (ras : List Ad)
      (lastv : Option Vast) (log : List String),
      (∀ u, u ∈ visited → u ∈ (unwrapAsyncGo env queue visited ras lastv log).2.2.1) ∧
      ∃ Δ, (unwrapAsyncGo env queue visited ras lastv log).2.2.2 = log ++ Δ ∧
        Δ.Nodup ∧ ∀ u, u ∈ Δ → u ∉ visited ∧
          u ∈ (unwrapAsyncGo env queue visited ras lastv log).2.2.1 := by
  refine unwrapAsyncGo.induct env
    (fun queue visited ras lastv log =>
      (∀ u, u ∈ visited → u ∈ (unwrapAsyncGo env queue visited ras lastv log).2.2.1) ∧
      ∃ Δ, (unwrapAsyncGo env queue visited ras lastv log).2.2.2 = log ++ Δ ∧
        Δ.Nodup ∧ ∀ u, u ∈ Δ → u ∉ visited ∧
          u ∈ (unwrapAsyncGo env queue visited ras lastv log).2.2.1)
    ?_ ?_ ?_ ?_
  · intro visited ras lastv log
    exact ⟨fun u hu => by simpa [unwrapAsyncGo] using hu,
      ⟨[], by simp [unwrapAsyncGo]⟩⟩
  · intro visited ras lastv log evs depth rest hd ih
    simp only [unwrapAsyncGo, if_pos hd]
    exact ih
  · intro visited ras lastv log evs depth rest hd e hp ih
    simp only [unwrapAsyncGo]
    rw [if_neg hd]
    simp only [hp]
    exact ih
  · intro visited ras lastv log evs depth rest hd vast hp s hs hrec ih
    have hpa := processAdsAsync_log_invariant env vast.ads visited
    simp only [hrec] at hpa
    simp only [unwrapAsyncGo]
    rw [if_neg hd]
    simp only [hp, hrec]
    obtain ⟨ihm, Δ', hΔ', hnd', hfr'⟩ := ih
    refine ⟨fun u hu => ihm u (hpa.1 u hu), s.log ++ Δ', ?_, ?_, ?_⟩
    · rw [hΔ', List.append_assoc]
    · refine List.nodup_append.mpr ⟨hpa.2.1, hnd', ?_⟩
      intro u hu₁ hu₂
      exact (hfr' u hu₂).1 ((hpa.2.2 u hu₁).2)
    · intro u hu
      rcases List.mem_append.mp hu with h | h
      · have h1 := hpa.2.2 u h
        exact ⟨h1.1, ihm u h1.2⟩
      · have h2 := hfr' u h
        exact ⟨fun hv => h2.1 (hpa.1 u hv), h2.2⟩

def selfDoc : List Event :=
  [.start "VAST" [("version", "2.0")],
   .start "Ad" [],
   .start "Wrapper" [],
   .start "VASTAdTagURI" [], .cdata "self", .endE "VASTAdTagURI",
   .endE "Wrapper",
   .endE "Ad",
   .endE "VAST"]

def selfEnv : FetchEnv := [("self", .ok selfDoc)]

/-- C8: every locator is passed to the fetcher at most once by both
resolvers (the visited set is checked before and updated at each
fetch); the traversals are total Lean functions, so they terminate.  In
particular, on the concrete self-cycle document (a wrapper whose target
serves the same document again) each resolver performs exactly one
fetch. -/
theorem C8_fetch_at_most_once :
    (∀ (env : FetchEnv) (evs : List Event) (u : String),
      (unwrap_vast_log env evs).count u ≤ 1 ∧
      (unwrap_vast_async_log env evs).count u ≤ 1) ∧
    unwrap_vast_log selfEnv selfDoc = ["self"] ∧
    unwrap_vast_async_log selfEnv selfDoc = ["self"] := by
  refine ⟨fun env evs u => ⟨?_, ?_⟩, ?_, ?_⟩
  · have h := (unwrap_log_invariant env evs MAX_WRAPPER_DEPTH []).2.1
    exact List.nodup_iff_count_le_one.mp h u
  · obtain ⟨-, Δ, hΔ, hnd, -⟩ :=
      unwrapAsyncGo_log_invariant env [(evs, 0)] [] [] none []
    rw [unwrap_vast_async_log, hΔ]
    simpa using List.nodup_iff_count_le_one.mp hnd u
  · simp [unwrap_vast_log, unwrapGo, unwrapAds, MAX_WRAPPER_DEPTH, selfEnv, selfDoc,
      parse_vast, parse_ads, parse_ads_go, parse_ad_element, parse_ad_go,
      parse_wrapper_element, parse_wrapper_go, Wrapper.init, read_text_element,
      read_text_go, adFromAttrs, vastVersionFromAttrs, wk, fetchEnv, List.find?]
  · simp [unwrap_vast_async_log, unwrapAsyncGo, processAdsAsync, MAX_WRAPPER_DEPTH,
      selfEnv, selfDoc, parse_vast, parse_ads, parse_ads_go, parse_ad_element,
      parse_ad_go, parse_wrapper_element, parse_wrapper_go, Wrapper.init,
      read_text_element, read_text_go, adFromAttrs, vastVersionFromAttrs, wk,
      fetchEnv, List.find?]

-- A document whose ads all carry InLine content resolves to exactly
-- those ads, fetching nothing.
theorem unwrapAds_all_inline (env : FetchEnv) (ads : List Ad) (r : Nat)
    (v : List String) (h : ∀ a, a ∈ ads → a.inline.isSome = true) :
    unwrapAds env ads r v = (ads, !ads.isEmpty, v, []) := by
  induction ads with
  | nil => simp [unwrapAds]
  | cons a ads ih =>
    have ha := h a (List.mem_cons_self _ _)
    have ih' := ih (fun b hb => h b (List.mem_cons_of_mem _ hb))
    simp [unwrapAds, ha, ih']

theorem processAdsAsync_all_inline (env : FetchEnv) (ads : List Ad)
    (visited : List String) (h : ∀ a, a ∈ ads → a.inline.isSome = true) :
    (processAdsAsync env ads visited).val = ⟨[], ads, visited, []⟩ := by
  induction ads with
  | nil => simp [processAdsAsync]
  | cons a ads ih =>
    have ha := h a (List.mem_cons_self _ _)
    have ih' := ih (fun b hb => h b (List.mem_cons_of_mem _ hb))
    rcases hrec : processAdsAsync env ads visited with ⟨s, hs⟩
    rw [hrec] at ih'
    have hseq : s = ⟨[], ads, visited, []⟩ := ih'
    subst hseq
    simp only [processAdsAsync, ha, if_true, hrec]

-- A single-wrapper pop with a fresh, fetchable target queues exactly
-- the fetched text.
theorem processAdsAsync_single_wrapper (env : FetchEnv) (ad : Ad) (w : Wrapper)
    (visited : List String) (next : List Event)
    (hi : ad.inline = none) (hw : ad.wrapper = some w)
    (hmem : w.vast_ad_tag_uri ∉ visited)
    (hf : fetchEnv env w.vast_ad_tag_uri = .ok next) :
    (processAdsAsync env [ad] visited).val =
      ⟨[next], [], w.vast_ad_tag_uri :: visited, [w.vast_ad_tag_uri]⟩ := by
  simp only [processAdsAsync, hi, Option.isSome_none, Bool.false_eq_true, if_false, hw]
  rw [dif_neg hmem]
  split
  · rename_i heq
    simp [hf] at heq
  · rename_i next' heq
    rw [hf] at heq
    cases heq
    simp [processAdsAsync]

/-- C1: a wrapper chain of length `k < MAX_WRAPPER_DEPTH` — documents
`t 0 … t (k-1)` each a single wrapper ad pointing at the next document,
`t k` parsing to ads that all carry InLine content — resolves, in both
the recursive and the breadth-first resolver, to a Document whose ads
are exactly the final document's ads, whose version is the root
document's version, and whose top-level error is `none`. -/
theorem C1_chain_resolution (env : FetchEnv) (k : Nat) (t : Nat → List Event)
    (ver : Nat → String) (uri : Nat → String) (w : Nat → Wrapper) (ad : Nat → Ad)
    (adsk : List Ad)
    (hk : k < MAX_WRAPPER_DEPTH)
    (hwad : ∀ j, j < k → (ad j).inline = none ∧ (ad j).wrapper = some (w j) ∧
      (w j).vast_ad_tag_uri = uri j)
    (hparse : ∀ j, j < k → parse_vast (t j) = .ok ⟨ver j, [ad j], none⟩)
    (hfetch : ∀ j, j < k → fetchEnv env (uri j) = .ok (t (j + 1)))
    (hinj : ∀ i j, i < k → j < k → uri i = uri j → i = j)
    (hfin : parse_vast (t k) = .ok ⟨ver k, adsk, none⟩)
    (hne : adsk ≠ []) (hinl : ∀ a, a ∈ adsk → a.inline.isSome = true) :
    unwrap_vast env (t 0) = .ok ⟨ver 0, adsk, none⟩ ∧
    unwrap_vast_async env (t 0) = .ok ⟨ver 0, adsk, none⟩ := by
  have hk' : k < 10 := by simpa [MAX_WRAPPER_DEPTH] using hk
  have hne' : adsk.isEmpty = false := by simpa [List.isEmpty_iff] using hne
  have hroot : parse_vast (t 0) = .ok ⟨ver 0, if k = 0 then adsk else [ad 0], none⟩ := by
    rcases Nat.eq_zero_or_pos k with h0 | h0
    · subst h0
      simpa using hfin
    · rw [if_neg (by omega)]
      exact hparse 0 h0
  have chain : ∀ r j visited, j ≤ k → k - j < r →
      (∀ l, j ≤ l → l < k → uri l ∉ visited) →
      (unwrapGo env (t j) r visited).1 = .ok ⟨ver j, adsk, none⟩ := by
    intro r
    induction r with
    | zero =>
      intro j visited hj hd hfr
      omega
    | succ r ih =>
      intro j visited hj hd hfr
      rcases Nat.lt_or_ge j k with hjk | hjk
      · have hw := hwad j hjk
        have hgo := ih (j + 1) (uri j :: visited) (by omega) (by omega)
          (fun l hl hlk => by
            intro hmem
            rcases List.mem_cons.mp hmem with hequ | hmem'
            · exact absurd (hinj l j hlk hjk hequ) (by omega)
            · exact hfr l (by omega) hlk hmem')
        rcases hgo' : unwrapGo env (t (j + 1)) r (uri j :: visited) with ⟨res, v₂, lg₂⟩
        rw [hgo'] at hgo
        simp only at hgo
        subst hgo
        simp only [unwrapGo, hparse j hjk]
        simp only [unwrapAds, hw.1, Option.isSome_none, Bool.false_eq_true, if_false,
          hw.2.1, hw.2.2]
        rw [if_neg (hfr j le_rfl hjk)]
        simp only [hfetch j hjk, hgo', unwrapAds]
        simp [hne']
      · have hjek : j = k := le_antisymm hj hjk
        subst hjek
        simp only [unwrapGo, hfin, unwrapAds_all_inline env adsk r visited hinl]
        simp [hne']
  have achain : ∀ d j visited ras lastv log, j ≤ k → k - j = d →
      (∀ l, j ≤ l → l < k → uri l ∉ visited) →
      (unwrapAsyncGo env [(t j, j)] visited ras lastv log).1 = ras ++ adsk := by
    intro d
    induction d with
    | zero =>
      intro j visited ras lastv log hj hd hfr
      have hjek : j = k := by omega
      subst hjek
      simp only [unwrapAsyncGo]
      rw [if_neg (by simp [MAX_WRAPPER_DEPTH]; omega)]
      simp only [hfin]
      rcases hpa : processAdsAsync env adsk visited with ⟨s, hs⟩
      have hsv := processAdsAsync_all_inline env adsk visited hinl
      rw [hpa] at hsv
      have hseq : s = ⟨[], adsk, visited, []⟩ := hsv
      subst hseq
      simp [unwrapAsyncGo]
    | succ d ih =>
      intro j visited ras lastv log hj hd hfr
      have hjk : j < k := by omega
      have hw := hwad j hjk
      simp only [unwrapAsyncGo]
      rw [if_neg (by simp [MAX_WRAPPER_DEPTH]; omega)]
      simp only [hparse j hjk]
      rcases hpa : processAdsAsync env [ad j] visited with ⟨s, hs⟩
      have hsv := processAdsAsync_single_wrapper env (ad j) (w j) visited (t (j + 1))
        hw.1 hw.2.1 (hw.2.2 ▸ hfr j le_rfl hjk) (hw.2.2 ▸ hfetch j hjk)
      rw [hpa] at hsv
      have hseq : s = ⟨[t (j + 1)], [], (w j).vast_ad_tag_uri :: visited,
        [(w j).vast_ad_tag_uri]⟩ := hsv
      subst hseq
      simp only [hw.2.2]
      have := ih (j + 1) (uri j :: visited) ras (some ⟨ver j, [ad j], none⟩)
        (log ++ [uri j]) (by omega) (by omega)
        (fun l hl hlk => by
          intro hmem
          rcases List.mem_cons.mp hmem with hequ | hmem'
          · exact absurd (hinj l j hlk hjk hequ) (by omega)
          · exact hfr l (by omega) hlk hmem')
      simpa using this
  constructor
  · exact chain MAX_WRAPPER_DEPTH 0 [] (by omega) (by simpa [MAX_WRAPPER_DEPTH])
      (fun l _ _ => by simp)
  · rcases hq : unwrapAsyncGo env [(t 0, 0)] [] [] none [] with ⟨ras, lastv, v, lg⟩
    have h := achain k 0 [] [] none [] (by omega) (by omega) (fun l _ _ => by simp)
    rw [hq] at h
    simp only at h
    subst h
    simp [unwrap_vast_async, hq, hroot, hne']
def tC1 : Nat → List Event
  | 0 => [.start "VAST" [("version", "2.0")], .start "Ad" [], .start "Wrapper" [],
          .start "VASTAdTagURI" [], .cdata "u0", .endE "VASTAdTagURI",
          .endE "Wrapper", .endE "Ad", .endE "VAST"]
  | 1 => [.start "VAST" [("version", "3.0")], .start "Ad" [], .start "Wrapper" [],
          .start "VASTAdTagURI" [], .cdata "u1", .endE "VASTAdTagURI",
          .endE "Wrapper", .endE "Ad", .endE "VAST"]
  | _ => [.start "VAST" [("version", "4.0")], .start "Ad" [("id", "i")],
          .start "InLine" [], .start "AdTitle" [], .text "T", .endE "AdTitle",
          .endE "InLine", .endE "Ad", .endE "VAST"]

def verC1 : Nat → String
  | 0 => "2.0"
  | 1 => "3.0"
  | _ => "4.0"

def uriC1 : Nat → String
  | 0 => "u0"
  | 1 => "u1"
  | _ => ""

def wrpC1 : Nat → Wrapper := fun j => ⟨⟨"", none⟩, uriC1 j, [], none, [], []⟩

def adwC1 : Nat → Ad := fun j => ⟨none, none, none, none, some (wrpC1 j)⟩

def iadC1 : Ad := ⟨some "i", none, none, some { InLine.init with ad_title := "T" }, none⟩

def envC1 : FetchEnv := [("u0", .ok (tC1 1)), ("u1", .ok (tC1 2))]

/-- Witness for C1: a concrete chain of two wrapper documents ending in
an InLine document. -/
theorem C1_chain_resolution_witness :
    unwrap_vast envC1 (tC1 0) = .ok ⟨"2.0", [iadC1], none⟩ ∧
    unwrap_vast_async envC1 (tC1 0) = .ok ⟨"2.0", [iadC1], none⟩ := by
  have h := C1_chain_resolution envC1 2 tC1 verC1 uriC1 wrpC1 adwC1 [iadC1]
    (by simp [MAX_WRAPPER_DEPTH])
    (by
      intro j hj
      interval_cases j <;> simp [adwC1, wrpC1, uriC1])
    (by
      intro j hj
      interval_cases j <;>
        simp [tC1, adwC1, wrpC1, uriC1, verC1, parse_vast, parse_ads, parse_ads_go,
          parse_ad_element, parse_ad_go, parse_wrapper_element, parse_wrapper_go,
          Wrapper.init, read_text_element, read_text_go, adFromAttrs,
          vastVersionFromAttrs, wk])
    (by
      intro j hj
      interval_cases j <;> simp [envC1, uriC1, fetchEnv, List.find?])
    (by
      intro i j hi hj
      interval_cases i <;> interval_cases j <;> simp [uriC1])
    (by
      simp [tC1, verC1, iadC1, InLine.init, parse_vast, parse_ads, parse_ads_go,
        parse_ad_element, parse_ad_go, parse_inline_element, parse_inline_go,
        read_text_element, read_text_go, adFromAttrs, vastVersionFromAttrs, wk])
    (by simp)
    (by
      intro a ha
      simp only [List.mem_singleton] at ha
      subst ha
      simp [iadC1])
  simpa [verC1] using h
/-- C6 (amended): on a wrapper chain that is still all wrappers at
depth `MAX_WRAPPER_DEPTH` (so the chain length is ≥ MAX_WRAPPER_DEPTH
and documents 0..9 each hold a single wrapper ad), resolution is a
silent truncation, not an error: the breadth-first resolver
(`unwrap_vast_async`) returns the last successfully parsed document
(hop 9) verbatim, while the recursive resolver (`unwrap_vast`) returns
a Document carrying the last parsed document's ads but the ROOT
document's version (error `none`), not that document verbatim; and when
no document parses at all, a synthetic empty Document with version
"4.0" and a descriptive error is returned. -/
theorem C6_truncated_chain (env : FetchEnv) (t : Nat → List Event)
    (ver : Nat → String) (uri : Nat → String) (w : Nat → Wrapper) (ad : Nat → Ad)
    (hwad : ∀ j, j < MAX_WRAPPER_DEPTH → (ad j).inline = none ∧
      (ad j).wrapper = some (w j) ∧ (w j).vast_ad_tag_uri = uri j)
    (hparse : ∀ j, j < MAX_WRAPPER_DEPTH →
      parse_vast (t j) = .ok ⟨ver j, [ad j], none⟩)
    (hfetch : ∀ j, j < MAX_WRAPPER_DEPTH → fetchEnv env (uri j) = .ok (t (j + 1)))
    (hinj : ∀ i j, i < MAX_WRAPPER_DEPTH → j < MAX_WRAPPER_DEPTH →
      uri i = uri j → i = j) :
    unwrap_vast env (t 0) = .ok ⟨ver 0, [ad 9], none⟩ ∧
    unwrap_vast_async env (t 0) = .ok ⟨ver 9, [ad 9], none⟩ ∧
    (∀ (env' : FetchEnv) (evs : List Event) (e : VastError),
      parse_vast evs = .error e →
      unwrap_vast env' evs = .ok ⟨"4.0", [], some "Failed to parse VAST XML"⟩ ∧
      unwrap_vast_async env' evs =
        .ok ⟨"4.0", [], some "No valid VAST documents found in the chain"⟩) := by
  have hwad' : ∀ j, j < 10 → (ad j).inline = none ∧
      (ad j).wrapper = some (w j) ∧ (w j).vast_ad_tag_uri = uri j := by
    simpa [MAX_WRAPPER_DEPTH] using hwad
  have hparse' : ∀ j, j < 10 → parse_vast (t j) = .ok ⟨ver j, [ad j], none⟩ := by
    simpa [MAX_WRAPPER_DEPTH] using hparse
  have hfetch' : ∀ j, j < 10 → fetchEnv env (uri j) = .ok (t (j + 1)) := by
    simpa [MAX_WRAPPER_DEPTH] using hfetch
  have hinj' : ∀ i j, i < 10 → j < 10 → uri i = uri j → i = j := by
    simpa [MAX_WRAPPER_DEPTH] using hinj
  have chain : ∀ d j visited, j + d = 9 →
      (∀ l, j ≤ l → l < 10 → uri l ∉ visited) →
      (unwrapGo env (t j) (d + 1) visited).1 = .ok ⟨ver j, [ad 9], none⟩ := by
    intro d
    induction d with
    | zero =>
      intro j visited hj hfr
      have hj9 : j = 9 := by omega
      subst hj9
      have hw := hwad' 9 (by omega)
      simp only [unwrapGo, hparse' 9 (by omega)]
      simp only [unwrapAds, hw.1, Option.isSome_none, Bool.false_eq_true, if_false,
        hw.2.1, hw.2.2]
      rw [if_neg (hfr 9 le_rfl (by omega))]
      simp only [hfetch' 9 (by omega), unwrapGo, unwrapAds]
      simp
    | succ d ih =>
      intro j visited hj hfr
      have hjk : j < 9 := by omega
      have hw := hwad' j (by omega)
      have hgo := ih (j + 1) (uri j :: visited) (by omega)
        (fun l hl hlk => by
          intro hmem
          rcases List.mem_cons.mp hmem with hequ | hmem'
          · exact absurd (hinj' l j hlk (by omega) hequ) (by omega)
          · exact hfr l (by omega) hlk hmem')
      rcases hgo' : unwrapGo env (t (j + 1)) (d + 1) (uri j :: visited) with
        ⟨res, v₂, lg₂⟩
      rw [hgo'] at hgo
      simp only at hgo
      subst hgo
      simp only [unwrapGo, hparse' j (by omega)]
      simp only [unwrapAds, hw.1, Option.isSome_none, Bool.false_eq_true, if_false,
        hw.2.1, hw.2.2]
      rw [if_neg (hfr j le_rfl (by omega))]
      simp only [hfetch' j (by omega), hgo', unwrapAds]
      simp
  have achain : ∀ d j visited ras lastv log, j + d = 9 →
      (∀ l, j ≤ l → l < 10 → uri l ∉ visited) →
      (unwrapAsyncGo env [(t j, j)] visited ras lastv log).1 = ras ∧
      (unwrapAsyncGo env [(t j, j)] visited ras lastv log).2.1 =
        some ⟨ver 9, [ad 9], none⟩ := by
    intro d
    induction d with
    | zero =>
      intro j visited ras lastv log hj hfr
      have hj9 : j = 9 := by omega
      subst hj9
      have hw := hwad' 9 (by omega)
      simp only [unwrapAsyncGo]
      rw [if_neg (by simp [MAX_WRAPPER_DEPTH])]
      simp only [hparse' 9 (by omega)]
      rcases hpa : processAdsAsync env [ad 9] visited with ⟨s, hs⟩
      have hsv := processAdsAsync_single_wrapper env (ad 9) (w 9) visited (t 10)
        hw.1 hw.2.1 (hw.2.2 ▸ hfr 9 le_rfl (by omega)) (hw.2.2 ▸ hfetch' 9 (by omega))
      rw [hpa] at hsv
      have hseq : s = ⟨[t 10], [], (w 9).vast_ad_tag_uri :: visited,
        [(w 9).vast_ad_tag_uri]⟩ := hsv
      subst hseq
      simp [unwrapAsyncGo, MAX_WRAPPER_DEPTH]
    | succ d ih =>
      intro j visited ras lastv log hj hfr
      have hjk : j < 9 := by omega
      have hw := hwad' j (by omega)
      simp only [unwrapAsyncGo]
      rw [if_neg (by simp [MAX_WRAPPER_DEPTH]; omega)]
      simp only [hparse' j (by omega)]
      rcases hpa : processAdsAsync env [ad j] visited with ⟨s, hs⟩
      have hsv := processAdsAsync_single_wrapper env (ad j) (w j) visited (t (j + 1))
        hw.1 hw.2.1 (hw.2.2 ▸ hfr j le_rfl (by omega)) (hw.2.2 ▸ hfetch' j (by omega))
      rw [hpa] at hsv
      have hseq : s = ⟨[t (j + 1)], [], (w j).vast_ad_tag_uri :: visited,
        [(w j).vast_ad_tag_uri]⟩ := hsv
      subst hseq
      simp only [hw.2.2]
      have := ih (j + 1) (uri j :: visited) ras (some ⟨ver j, [ad j], none⟩)
        (log ++ [uri j]) (by omega)
        (fun l hl hlk => by
          intro hmem
          rcases List.mem_cons.mp hmem with hequ | hmem'
          · exact absurd (hinj' l j hlk (by omega) hequ) (by omega)
          · exact hfr l (by omega) hlk hmem')
      simpa using this
  refine ⟨?_, ?_, ?_⟩
  · have h := chain 9 0 [] (by omega) (fun l _ _ => by simp)
    simpa [unwrap_vast, MAX_WRAPPER_DEPTH] using h
  · have h := achain 9 0 [] [] none [] (by omega) (fun l _ _ => by simp)
    rcases hq : unwrapAsyncGo env [(t 0, 0)] [] [] none [] with ⟨ras, lastv, v, lg⟩
    rw [hq] at h
    simp only at h
    obtain ⟨h1, h2⟩ := h
    subst h1
    subst h2
    simp [unwrap_vast_async, hq]
  · intro env' evs e h
    constructor
    · simp [unwrap_vast, unwrapGo, MAX_WRAPPER_DEPTH, h]
    · simp [unwrap_vast_async, unwrapAsyncGo, MAX_WRAPPER_DEPTH, h]
def uriC6 : Nat → String
  | 0 => "v0"
  | 1 => "v1"
  | 2 => "v2"
  | 3 => "v3"
  | 4 => "v4"
  | 5 => "v5"
  | 6 => "v6"
  | 7 => "v7"
  | 8 => "v8"
  | 9 => "v9"
  | _ => ""

def verC6 : Nat → String
  | 0 => "2.0"
  | _ => "3.0"

def tC6 : Nat → List Event := fun j =>
  [.start "VAST" [("version", verC6 j)], .start "Ad" [], .start "Wrapper" [],
   .start "VASTAdTagURI" [], .cdata (uriC6 j), .endE "VASTAdTagURI",
   .endE "Wrapper", .endE "Ad", .endE "VAST"]

def wrpC6 : Nat → Wrapper := fun j => ⟨⟨"", none⟩, uriC6 j, [], none, [], []⟩

def adwC6 : Nat → Ad := fun j => ⟨none, none, none, none, some (wrpC6 j)⟩

def envC6 : FetchEnv :=
  [("v0", .ok (tC6 1)), ("v1", .ok (tC6 2)), ("v2", .ok (tC6 3)),
   ("v3", .ok (tC6 4)), ("v4", .ok (tC6 5)), ("v5", .ok (tC6 6)),
   ("v6", .ok (tC6 7)), ("v7", .ok (tC6 8)), ("v8", .ok (tC6 9)),
   ("v9", .ok (tC6 10))]

/-- C6 counterexample: on a concrete chain of ten wrapper documents
(root version "2.0", every later hop version "3.0"), the last
successfully parsed document is hop 9, `⟨"3.0", [adwC6 9], none⟩` —
returned verbatim by the breadth-first resolver — but the recursive
resolver (`unwrap_vast`, the cited `unwrap_vast_with_depth`) returns
`⟨"2.0", [adwC6 9], none⟩`, which is not that document. -/
theorem C6_truncation_counterexample :
    unwrap_vast envC6 (tC6 0) = .ok ⟨"2.0", [adwC6 9], none⟩ ∧
    unwrap_vast_async envC6 (tC6 0) = .ok ⟨"3.0", [adwC6 9], none⟩ ∧
    Vast.mk "2.0" [adwC6 9] none ≠ Vast.mk "3.0" [adwC6 9] none := by
  refine ⟨?_, ?_, by simp⟩
  · simp [unwrap_vast, unwrapGo, unwrapAds, MAX_WRAPPER_DEPTH, envC6, tC6, uriC6,
      verC6, parse_vast, parse_ads, parse_ads_go, parse_ad_element, parse_ad_go,
      parse_wrapper_element, parse_wrapper_go, Wrapper.init, read_text_element,
      read_text_go, adFromAttrs, vastVersionFromAttrs, wk, fetchEnv, List.find?,
      adwC6, wrpC6]
  · simp [unwrap_vast_async, unwrapAsyncGo, processAdsAsync, MAX_WRAPPER_DEPTH,
      envC6, tC6, uriC6, verC6, parse_vast, parse_ads, parse_ads_go,
      parse_ad_element, parse_ad_go, parse_wrapper_element, parse_wrapper_go,
      Wrapper.init, read_text_element, read_text_go, adFromAttrs,
      vastVersionFromAttrs, wk, fetchEnv, List.find?, adwC6, wrpC6]

/-- Witness for C6 applying the amended theorem to the concrete
ten-wrapper chain. -/
theorem C6_truncated_chain_witness :
    unwrap_vast envC6 (tC6 0) = .ok ⟨verC6 0, [adwC6 9], none⟩ ∧
    unwrap_vast_async envC6 (tC6 0) = .ok ⟨verC6 9, [adwC6 9], none⟩ := by
  have h := C6_truncated_chain envC6 tC6 verC6 uriC6 wrpC6 adwC6
    (by
      intro j hj
      simp [adwC6, wrpC6])
    (by
      intro j hj
      have hj' : j < 10 := by simpa [MAX_WRAPPER_DEPTH] using hj
      interval_cases j <;>
        simp [tC6, adwC6, wrpC6, uriC6, verC6, parse_vast, parse_ads, parse_ads_go,
          parse_ad_element, parse_ad_go, parse_wrapper_element, parse_wrapper_go,
          Wrapper.init, read_text_element, read_text_go, adFromAttrs,
          vastVersionFromAttrs, wk])
    (by
      intro j hj
      have hj' : j < 10 := by simpa [MAX_WRAPPER_DEPTH] using hj
      interval_cases j <;> simp [envC6, uriC6, fetchEnv, List.find?])
    (by
      intro i j hi hj
      have hi' : i < 10 := by simpa [MAX_WRAPPER_DEPTH] using hi
      have hj' : j < 10 := by simpa [MAX_WRAPPER_DEPTH] using hj
      interval_cases i <;> interval_cases j <;> simp [uriC6])
  exact ⟨h.1, h.2.1⟩
/-! ## Round trip (`vast_to_xml` then `parse_vast`)

`vast_to_xml` produces a `String`; reading it back goes through the
external `quick_xml` reader, which is outside this repository.  As on
the input side (where `parse_vast` consumes `List Event`), the reader
is modelled at the event level: each `*_to_xml_events` definition below
mirrors the corresponding `*_to_xml` push_str for push_str and gives
the event stream the reader produces on that output, under the
side conditions recorded by `safeVast`:

* raw text fields (written between tags with no escaping) contain no
  `<`, `>` or `&` and are unchanged by whitespace trimming — the reader
  is configured with `trim_text(true)`, so an empty text field yields
  no `Text` event at all, and inter-tag layout whitespace yields none;
* attribute values (written inside double quotes with no escaping)
  contain no `"`, `<`, `>` or `&`;
* CDATA payloads contain no `]]>`;
* numeric attributes are rendered in decimal, which is always safe.

Outside `safeVast` the rendered string is not well-formed XML (or the
reader would unescape or split it differently), so these event lists
model the reader only on safe documents; the round-trip theorem
carries `safeVast` as a hypothesis accordingly. -/

/-- Optional attribute: rendered as ` k="v"` when present, nothing when
absent. -/
def optAttr (k : String) : Option String → List Attr
  | some v => [(k, v)]
  | none => []

/-- Rust's `format!("{}", b)` for a `bool`. -/
def boolStr (b : Bool) : String := if b then "true" else "false"

/-- Events of a raw text field under `trim_text(true)`: an empty field
produces no event, a (safe) non-empty one produces exactly one `Text`
event. -/
def textEvents (s : String) : List Event := if s = "" then [] else [.text s]

/-- Events of `<n attrs><![CDATA[s]]></n>`. -/
def cdataElement (n : String) (attrs : List Attr) (s : String) : List Event :=
  [.start n attrs, .cdata s, .endE n]

/-- Events of an optionally rendered `<n>text</n>` element. -/
def optTextElement (n : String) : Option String → List Event
  | some s => .start n [] :: textEvents s ++ [.endE n]
  | none => []

/-- Events of an optionally rendered attribute-less CDATA element. -/
def optCdataElement (n : String) : Option String → List Event
  | some s => cdataElement n [] s
  | none => []

/-- Events of one rendered `<Impression>` element. -/
def impressionEvents (im : Impression) : List Event :=
  cdataElement "Impression" (optAttr "id" im.id) im.url

/-- Events of one rendered `<Tracking>` element. -/
def trackingEventEvents (te : TrackingEvent) : List Event :=
  cdataElement "Tracking" [("event", te.event)] te.url

/-- Events of a rendered `<TrackingEvents>` block (rendered only when
the list is non-empty). -/
def trackingBlock (tes : List TrackingEvent) : List Event :=
  if ¬tes.isEmpty then
    .start "TrackingEvents" [] :: tes.flatMap trackingEventEvents ++ [.endE "TrackingEvents"]
  else []

/-- Events of the resource element selected by `resource_type` (the
renderer's three-way if; anything else renders nothing). -/
def resourceEvents (rt rs : String) : List Event :=
  if rt = "StaticResource" then cdataElement "StaticResource" [] rs
  else if rt = "IFrameResource" then cdataElement "IFrameResource" [] rs
  else if rt = "HTMLResource" then cdataElement "HTMLResource" [] rs
  else []

/-- Attributes of a rendered `<MediaFile>` tag, in render order. -/
def mediaFileAttrs (m : MediaFile) : List Attr :=
  ("type", m.mime_type) :: optAttr "delivery" m.delivery ++
    optAttr "width" (m.width.map toString) ++
    optAttr "height" (m.height.map toString) ++
    optAttr "codec" m.codec ++
    optAttr "bitrate" (m.bitrate.map toString)

/-- Events of one rendered `<MediaFile>` element. -/
def mediaFileEvents (m : MediaFile) : List Event :=
  cdataElement "MediaFile" (mediaFileAttrs m) m.url

/-- Events of a rendered `<MediaFiles>` block (rendered only when the
list is non-empty). -/
def mediaFilesBlock (ms : List MediaFile) : List Event :=
  if ¬ms.isEmpty then
    .start "MediaFiles" [] :: ms.flatMap mediaFileEvents ++ [.endE "MediaFiles"]
  else []

/-- Events inside a rendered `<VideoClicks>` element (including its end
tag). -/
def vcInner (vc : VideoClicks) : List Event :=
  optCdataElement "ClickThrough" vc.click_through ++
  vc.click_tracking.flatMap (fun u => cdataElement "ClickTracking" [] u) ++
  vc.custom_click.flatMap (fun u => cdataElement "CustomClick" [] u) ++
  [.endE "VideoClicks"]

/-- Events of the optionally rendered `<VideoClicks>` element. -/
def optVideoClicksEvents : Option VideoClicks → List Event
  | some vc => .start "VideoClicks" [] :: vcInner vc
  | none => []

/-- Events inside a rendered `<Linear>` element (including its end
tag), mirroring `linear_to_xml`. -/
def linInner (l : Linear) : List Event :=
  optTextElement "Duration" l.duration ++
  trackingBlock l.tracking_events ++
  optVideoClicksEvents l.video_clicks ++
  mediaFilesBlock l.media_files ++
  [.endE "Linear"]

/-- Events of one rendered `<Companion>` element, mirroring the loop
body of `companion_ads_to_xml`. -/
def companionEvents (c : Companion) : List Event :=
  .start "Companion"
      (optAttr "id" c.id ++
        [("width", toString c.width), ("height", toString c.height)]) ::
    (resourceEvents c.resource_type c.resource ++
     optCdataElement "CompanionClickThrough" c.click_through ++
     trackingBlock c.tracking_events ++
     [.endE "Companion"])

/-- Events of one rendered `<NonLinear>` element, mirroring the loop
body of `non_linear_ads_to_xml`. -/
def nonLinearEvents (nl : NonLinear) : List Event :=
  .start "NonLinear"
      (optAttr "id" nl.id ++
        [("width", toString nl.width), ("height", toString nl.height)] ++
        optAttr "expandedWidth" (nl.expand_width.map toString) ++
        optAttr "expandedHeight" (nl.expand_height.map toString) ++
        optAttr "scalable" (nl.scalable.map boolStr) ++
        optAttr "maintainAspectRatio" (nl.maintain_aspect_ratio.map boolStr)) ::
    (resourceEvents nl.resource_type nl.resource ++
     optCdataElement "NonLinearClickThrough" nl.click_through ++
     [.endE "NonLinear"])

/-- Attributes of a rendered `<Creative>` tag, in render order. -/
def creativeAttrs (c : Creative) : List Attr :=
  optAttr "id" c.id ++ optAttr "sequence" (c.sequence.map toString) ++
    optAttr "adId" c.ad_id ++ optAttr "apiFramework" c.api_framework

/-- Events of the optionally rendered `<Linear>` element. -/
def optLinearEvents : Option Linear → List Event
  | some l => .start "Linear" [] :: linInner l
  | none => []

/-- Events of the optionally rendered `<CompanionAds>` element. -/
def optCompanionAdsEvents : Option CompanionAds → List Event
  | some ca =>
    .start "CompanionAds" [] ::
      ca.companions.flatMap companionEvents ++ [.endE "CompanionAds"]
  | none => []

/-- Events of the optionally rendered `<NonLinearAds>` element. -/
def optNonLinearAdsEvents : Option NonLinearAds → List Event
  | some na =>
    .start "NonLinearAds" [] ::
      na.non_linears.flatMap nonLinearEvents ++ [.endE "NonLinearAds"]
  | none => []

/-- Events inside a rendered `<Creative>` element (including its end
tag), mirroring `creative_to_xml`. -/
def crInner (c : Creative) : List Event :=
  optLinearEvents c.linear ++
  optCompanionAdsEvents c.companion_ads ++
  optNonLinearAdsEvents c.non_linear_ads ++
  [.endE "Creative"]

/-- Events of one rendered `<Creative>` element. -/
def creativeEvents (c : Creative) : List Event :=
  .start "Creative" (creativeAttrs c) :: crInner c

/-- Events of a rendered `<AdSystem>` element. -/
def adSystemEvents (s : AdSystem) : List Event :=
  .start "AdSystem" (optAttr "version" s.version) :: textEvents s.name ++ [.endE "AdSystem"]

/-- Events of one rendered `<Extension>` element. -/
def extensionEvents (x : Extension) : List Event :=
  .start "Extension" (optAttr "type" x.type_) :: textEvents x.content ++ [.endE "Extension"]

/-- Events of a rendered `<Extensions>` block (rendered only when the
list is non-empty). -/
def extensionsBlock (xs : List Extension) : List Event :=
  if ¬xs.isEmpty then
    .start "Extensions" [] :: xs.flatMap extensionEvents ++ [.endE "Extensions"]
  else []

/-- Events of a rendered `<Creatives>` block (rendered only when the
list is non-empty). -/
def creativesBlock (cs : List Creative) : List Event :=
  if ¬cs.isEmpty then
    .start "Creatives" [] :: cs.flatMap creativeEvents ++ [.endE "Creatives"]
  else []

/-- Events of the optionally rendered `<Pricing>` element. -/
def optPricingEvents : Option Pricing → List Event
  | some p =>
    .start "Pricing" [("model", p.model), ("currency", p.currency)] ::
      textEvents p.value ++ [.endE "Pricing"]
  | none => []

/-- Events inside a rendered `<InLine>` element (including its end
tag), mirroring `inline_to_xml`. -/
def ilInner (i : InLine) : List Event :=
  adSystemEvents i.ad_system ++
  (.start "AdTitle" [] :: textEvents i.ad_title ++ [.endE "AdTitle"]) ++
  optTextElement "Description" i.description ++
  optTextElement "Advertiser" i.advertiser ++
  optCdataElement "Survey" i.survey ++
  i.impressions.flatMap impressionEvents ++
  optCdataElement "Error" i.error ++
  optPricingEvents i.pricing ++
  extensionsBlock i.extensions ++
  creativesBlock i.creatives ++
  [.endE "InLine"]

/-- Events inside a rendered `<Wrapper>` element (including its end
tag), mirroring `wrapper_to_xml` (which renders no Extensions). -/
def wrInner (w : Wrapper) : List Event :=
  adSystemEvents w.ad_system ++
  cdataElement "VASTAdTagURI" [] w.vast_ad_tag_uri ++
  w.impressions.flatMap impressionEvents ++
  optCdataElement "Error" w.error ++
  creativesBlock w.creatives ++
  [.endE "Wrapper"]

/-- Attributes of a rendered `<Ad>` tag, in render order. -/
def adAttrs (ad : Ad) : List Attr :=
  optAttr "id" ad.id ++ optAttr "sequence" (ad.sequence.map toString) ++
    optAttr "conditionalAd" (ad.conditional_ad.map boolStr)

/-- Events inside a rendered `<Ad>` element (including its end tag),
mirroring `ad_to_xml`: InLine wins over Wrapper when both are set. -/
def adInner (ad : Ad) : List Event :=
  (match ad.inline with
   | some i => .start "InLine" [] :: ilInner i
   | none =>
     match ad.wrapper with
     | some w => .start "Wrapper" [] :: wrInner w
     | none => []) ++
  [.endE "Ad"]

/-- Events of one rendered `<Ad>` element. -/
def adEvents (ad : Ad) : List Event :=
  .start "Ad" (adAttrs ad) :: adInner ad

/-- Event stream the reader produces on the output of `vast_to_xml`
(for `safeVast` documents): declaration, `VAST` root with the rendered
version attribute, optional top-level `Error`, the rendered ads, and
the closing tag. -/
def vast_to_xml_events (v : Vast) : List Event :=
  .decl :: .start "VAST" [("version", v.version)] ::
    (optCdataElement "Error" v.error ++
     v.ads.flatMap adEvents ++
     [.endE "VAST"])

/-! ### Reparse normal form

What `parse_vast` recovers from the rendered events: everything is kept
except the fields the renderer or the placeholder sub-parsers drop —
`MediaFile.type_` (`mediaType` is never rendered), Companion and
NonLinear contents (skipped by the placeholder sub-parsers), Wrapper
extensions (never rendered), the top-level error (never set by the
parser) — and numeric attributes, which survive exactly when their
decimal rendering re-parses as a `u32`. -/

/-- Reparse normal form of a `MediaFile`. -/
def normalizeMediaFile (m : MediaFile) : MediaFile :=
  { m with
    bitrate := m.bitrate.bind (fun n => parseU32 (toString n))
    width := m.width.bind (fun n => parseU32 (toString n))
    height := m.height.bind (fun n => parseU32 (toString n))
    type_ := none }

/-- Reparse normal form of a `Linear`. -/
def normalizeLinear (l : Linear) : Linear :=
  { l with media_files := l.media_files.map normalizeMediaFile }

/-- Reparse normal form of a `Creative`. -/
def normalizeCreative (c : Creative) : Creative :=
  { c with
    sequence := c.sequence.bind (fun n => parseU32 (toString n))
    linear := c.linear.map normalizeLinear
    companion_ads := c.companion_ads.map (fun _ => ⟨[]⟩)
    non_linear_ads := c.non_linear_ads.map (fun _ => ⟨[]⟩) }

/-- Reparse normal form of an `InLine`. -/
def normalizeInline (i : InLine) : InLine :=
  { i with creatives := i.creatives.map normalizeCreative }

/-- Reparse normal form of a `Wrapper`. -/
def normalizeWrapper (w : Wrapper) : Wrapper :=
  { w with
    extensions := []
    creatives := w.creatives.map normalizeCreative }

/-- Reparse normal form of an `Ad` (InLine wins over Wrapper). -/
def normalizeAd (ad : Ad) : Ad :=
  { ad with
    sequence := ad.sequence.bind (fun n => parseU32 (toString n))
    inline := ad.inline.map normalizeInline
    wrapper :=
      match ad.inline with
      | some _ => none
      | none => ad.wrapper.map normalizeWrapper }

/-- Reparse normal form of a `Vast` document. -/
def normalizeVast (v : Vast) : Vast :=
  ⟨v.version, v.ads.map normalizeAd, none⟩

/-! ### XML-safety of rendered fields -/

/-- A character safe in raw rendered text. -/
def safeTextChar (c : Char) : Bool := c != '<' && c != '>' && c != '&'

/-- True when the character list does not start with whitespace. -/
def noLeadWs : List Char → Bool
  | [] => true
  | c :: _ => !c.isWhitespace

/-- A raw text field safe to render between tags: no markup
metacharacters, and stable under the reader's whitespace trimming
(no leading or trailing whitespace). -/
def safeText (s : String) : Bool :=
  s.data.all safeTextChar && noLeadWs s.data && noLeadWs s.data.reverse

/-- An attribute value safe to render inside double quotes. -/
def safeAttr (s : String) : Bool := s.data.all (fun c => safeTextChar c && c != '"')

/-- True when the character list does not contain the CDATA terminator
`]]>`. -/
def noCdataClose : List Char → Bool
  | ']' :: ']' :: '>' :: _ => false
  | _ :: rest => noCdataClose rest
  | [] => true

/-- A payload safe to render inside a CDATA section. -/
def safeCData (s : String) : Bool := noCdataClose s.data

/-- Safety of an optional field. -/
def safeOpt {α : Type} (p : α → Bool) : Option α → Bool
  | some x => p x
  | none => true

/-- Safety of the fields rendered for an `AdSystem`. -/
def safeAdSystem (s : AdSystem) : Bool :=
  safeText s.name && safeOpt safeAttr s.version

/-- Safety of the fields rendered for an `Impression`. -/
def safeImpression (im : Impression) : Bool :=
  safeOpt safeAttr im.id && safeCData im.url

/-- Safety of the fields rendered for a `TrackingEvent`. -/
def safeTrackingEvent (te : TrackingEvent) : Bool :=
  safeAttr te.event && safeCData te.url

/-- Safety of the fields rendered for a `MediaFile`. -/
def safeMediaFile (m : MediaFile) : Bool :=
  safeAttr m.mime_type && safeOpt safeAttr m.delivery &&
    safeOpt safeAttr m.codec && safeCData m.url

/-- Safety of the fields rendered for a `VideoClicks`. -/
def safeVideoClicks (vc : VideoClicks) : Bool :=
  safeOpt safeCData vc.click_through && vc.click_tracking.all safeCData &&
    vc.custom_click.all safeCData

/-- Safety of the fields rendered for a `Linear`. -/
def safeLinear (l : Linear) : Bool :=
  safeOpt safeText l.duration && l.tracking_events.all safeTrackingEvent &&
    safeOpt safeVideoClicks l.video_clicks && l.media_files.all safeMediaFile

/-- Safety of the fields rendered for a `Companion`. -/
def safeCompanion (c : Companion) : Bool :=
  safeOpt safeAttr c.id && safeCData c.resource &&
    safeOpt safeCData c.click_through && c.tracking_events.all safeTrackingEvent

/-- Safety of the fields rendered for a `NonLinear`. -/
def safeNonLinear (nl : NonLinear) : Bool :=
  safeOpt safeAttr nl.id && safeCData nl.resource && safeOpt safeCData nl.click_through

/-- Safety of the fields rendered for a `Creative`. -/
def safeCreative (c : Creative) : Bool :=
  safeOpt safeAttr c.id && safeOpt safeAttr c.ad_id &&
    safeOpt safeAttr c.api_framework && safeOpt safeLinear c.linear &&
    safeOpt (fun ca : CompanionAds => ca.companions.all safeCompanion) c.companion_ads &&
    safeOpt (fun na : NonLinearAds => na.non_linears.all safeNonLinear) c.non_linear_ads

/-- Safety of the fields rendered for a `Pricing`. -/
def safePricing (p : Pricing) : Bool :=
  safeAttr p.model && safeAttr p.currency && safeText p.value

/-- Safety of the fields rendered for an `Extension`. -/
def safeExtension (x : Extension) : Bool :=
  safeOpt safeAttr x.type_ && safeText x.content

/-- Safety of the fields rendered for an `InLine`. -/
def safeInline (i : InLine) : Bool :=
  safeAdSystem i.ad_system && safeText i.ad_title &&
    i.impressions.all safeImpression && safeOpt safeText i.description &&
    safeOpt safeText i.advertiser && safeOpt safeCData i.survey &&
    safeOpt safeCData i.error && safeOpt safePricing i.pricing &&
    i.extensions.all safeExtension && i.creatives.all safeCreative

/-- Safety of the fields rendered for a `Wrapper`. -/
def safeWrapper (w : Wrapper) : Bool :=
  safeAdSystem w.ad_system && safeCData w.vast_ad_tag_uri &&
    w.impressions.all safeImpression && safeOpt safeCData w.error &&
    w.creatives.all safeCreative

/-- Safety of the fields rendered for an `Ad`. -/
def safeAd (ad : Ad) : Bool :=
  safeOpt safeAttr ad.id && safeOpt safeInline ad.inline && safeOpt safeWrapper ad.wrapper

/-- Safety of every string field `vast_to_xml` writes into its output:
under this predicate the rendered string is well-formed XML and
`vast_to_xml_events` is the reader's event stream on it. -/
def safeVast (v : Vast) : Bool :=
  safeAttr v.version && safeOpt safeCData v.error && v.ads.all safeAd

/-- The tracking events of all Linear creatives of an InLine ad, in
document order. -/
def inlineTrackingEvents (i : InLine) : List TrackingEvent :=
  i.creatives.flatMap (fun c =>
    match c.linear with
    | some l => l.tracking_events
    | none => [])

/-! ### Reparse lemmas

The parsing helpers return results indexed by their input list (the
`Rest` bound); `era` erases the index so that consuming a rendered
chunk can be stated as an equation between runs on different inputs. -/

/-- Forget the `Rest` length bound of a parsing result. -/
def era {α : Type} {evs : List Event} :
    Except VastError (α × Rest evs) → Except VastError (α × List Event)
  | .ok (a, r) => .ok (a, r.val)
  | .error e => .error e

theorem era_wk {α : Type} {l₁ l₂ : List Event} (h : l₁.length ≤ l₂.length)
    (x : Except VastError (α × Rest l₁)) : era (wk h x) = era x := by
  cases x with
  | error e => rfl
  | ok p => rcases p with ⟨a, r, hr⟩; rfl

theorem era_ok {α : Type} {evs : List Event} {x : Except VastError (α × Rest evs)}
    {a : α} {r : List Event} (h : era x = .ok (a, r)) :
    ∃ hr : r.length ≤ evs.length, x = .ok (a, ⟨r, hr⟩) := by
  cases x with
  | error e => simp [era] at h
  | ok p =>
    rcases p with ⟨a', r', hr'⟩
    simp only [era, Except.ok.injEq, Prod.mk.injEq] at h
    rcases h with ⟨ha, hr⟩
    subst ha; subst hr
    exact ⟨hr', rfl⟩

/-- Reading the rendered text of a raw field: the (possibly absent)
text event followed by the element's end tag yields the field. -/
theorem rte_text (s n : String) (rest : List Event) :
    era (read_text_element (textEvents s ++ .endE n :: rest)) = .ok (s, rest) := by
  by_cases hs : s = ""
  · subst hs
    simp only [textEvents, if_pos rfl, List.nil_append, read_text_element, read_text_go]
    rfl
  · have h1 : textEvents s = [.text s] := by simp [textEvents, hs]
    rw [h1]
    simp only [List.cons_append, read_text_element, read_text_go, era_wk]
    rfl

/-- Reading a rendered CDATA payload followed by the element's end
tag. -/
theorem rte_cdata (s n : String) (rest : List Event) :
    era (read_text_element (.cdata s :: .endE n :: rest)) = .ok (s, rest) := by
  simp only [read_text_element, read_text_go, era_wk]
  rfl

/-- Events that never mention the element name being skipped (and
contain no reader error). -/
def avoids (name : String) (evs : List Event) : Bool :=
  evs.all fun e =>
    match e with
    | .start n _ => n != name
    | .endE n => n != name
    | .err => false
    | _ => true

theorem avo_append (name : String) (l₁ l₂ : List Event) :
    avoids name (l₁ ++ l₂) = (avoids name l₁ && avoids name l₂) := by
  simp [avoids]

theorem avo_flatMap {α : Type} (name : String) (f : α → List Event) (l : List α)
    (h : ∀ x ∈ l, avoids name (f x) = true) : avoids name (l.flatMap f) = true := by
  induction l with
  | nil => rfl
  | cons x xs ih =>
    have hx := h x (by simp)
    have hxs := ih (fun y hy => h y (by simp [hy]))
    simp [List.flatMap_cons, avo_append, hx, hxs]

/-- `skip_element` over a subtree that never mentions the skipped name
stops exactly at the subtree's end tag (its depth counter stays 0). -/
theorem skip_go_avoids (name : String) (evs rest : List Event)
    (h : avoids name evs = true) :
    era (skip_element_go name 0 (evs ++ .endE name :: rest)) = .ok ((), rest) := by
  induction evs with
  | nil => simp [skip_element_go, era]
  | cons e tl ih =>
    rw [List.cons_append]
    simp only [avoids, List.all_cons, Bool.and_eq_true] at h
    have htl : avoids name tl = true := h.2
    cases e with
    | start n a =>
      have hn : ¬n = name := by simpa using h.1
      simp [skip_element_go, hn, era_wk, ih htl]
    | endE n =>
      have hn : ¬n = name := by simpa using h.1
      simp [skip_element_go, hn, era_wk, ih htl]
    | text s => simp [skip_element_go, era_wk, ih htl]
    | cdata s => simp [skip_element_go, era_wk, ih htl]
    | decl => simp [skip_element_go, era_wk, ih htl]
    | err => simp at h

/-! Attribute-scan round trips for the rendered attribute lists. -/

theorem adSystemVersion_optAttr (o : Option String) :
    adSystemVersionFromAttrs (optAttr "version" o) = o := by
  cases o <;> simp [adSystemVersionFromAttrs, optAttr]

theorem impressionId_optAttr (o : Option String) :
    impressionIdFromAttrs (optAttr "id" o) = o := by
  cases o <;> simp [impressionIdFromAttrs, optAttr]

theorem extensionType_optAttr (o : Option String) :
    extensionTypeFromAttrs (optAttr "type" o) = o := by
  cases o <;> simp [extensionTypeFromAttrs, optAttr]

theorem pricingFromAttrs_rendered (m c : String) :
    pricingFromAttrs [("model", m), ("currency", c)] = ⟨m, c, ""⟩ := by
  simp [pricingFromAttrs]

theorem trackingEventFromAttrs_rendered (e : String) :
    trackingEventFromAttrs [("event", e)] = e := by
  simp [trackingEventFromAttrs]

theorem vastVersionFromAttrs_rendered (x : String) :
    vastVersionFromAttrs [("version", x)] = x := by
  simp [vastVersionFromAttrs]

/-- `format!("{}", b)` lower-cased re-parses to the same boolean. -/
theorem condRound (b : Bool) : decide ((boolStr b).toLower = "true") = b := by
  cases b <;> simp only [boolStr, String.toLower, String.map_eq] <;> decide

theorem mediaFileFromAttrs_rendered (m : MediaFile) :
    mediaFileFromAttrs (mediaFileAttrs m) =
      ⟨"", m.mime_type, m.codec,
        m.bitrate.bind (fun n => parseU32 (toString n)),
        m.width.bind (fun n => parseU32 (toString n)),
        m.height.bind (fun n => parseU32 (toString n)),
        m.delivery, none⟩ := by
  rcases m with ⟨url, mt, cod, br, wd, ht, dl, ty⟩
  rcases dl with _ | d <;> rcases wd with _ | w <;> rcases ht with _ | k <;>
    rcases cod with _ | cc <;> rcases br with _ | b <;>
      simp [mediaFileAttrs, mediaFileFromAttrs, optAttr] <;>
        repeat' (split <;> simp_all)

theorem creativeFromAttrs_rendered (c : Creative) :
    creativeFromAttrs (creativeAttrs c) =
      ⟨c.id, c.sequence.bind (fun n => parseU32 (toString n)),
        c.ad_id, c.api_framework, none, none, none⟩ := by
  rcases c with ⟨i, sq, ai, af, l, ca, na⟩
  rcases i with _ | i <;> rcases sq with _ | s <;> rcases ai with _ | a <;>
    rcases af with _ | f <;>
      simp [creativeAttrs, creativeFromAttrs, optAttr] <;>
        repeat' (split <;> simp_all)

theorem adFromAttrs_rendered (ad : Ad) :
    adFromAttrs (adAttrs ad) =
      ⟨ad.id, ad.sequence.bind (fun n => parseU32 (toString n)),
        ad.conditional_ad, none, none⟩ := by
  rcases ad with ⟨i, sq, ca, il, w⟩
  rcases i with _ | i <;> rcases sq with _ | s <;> rcases ca with _ | b <;>
    simp [adAttrs, adFromAttrs, optAttr, condRound] <;>
      repeat' (split <;> simp_all)

/-! Chunk-consumption lemmas for the parser loops on rendered events:
each lemma runs a loop over one rendered chunk and re-states the run on
the remaining events with the accumulator updated accordingly. -/

theorem vcgo_ct (vc : VideoClicks) (o : Option String) (tail : List Event) :
    era (parse_video_clicks_go vc (optCdataElement "ClickThrough" o ++ tail)) =
      era (parse_video_clicks_go { vc with click_through := o.or vc.click_through } tail) := by
  cases o with
  | none => simp [optCdataElement]
  | some ct =>
    obtain ⟨hr, heq⟩ := era_ok (rte_cdata ct "ClickThrough" tail)
    simp [optCdataElement, cdataElement, parse_video_clicks_go, heq, era_wk]

theorem cdataElement_append (n : String) (attrs : List Attr) (s : String) (l : List Event) :
    cdataElement n attrs s ++ l = .start n attrs :: .cdata s :: .endE n :: l := rfl

theorem vcgo_ctrk (vc : VideoClicks) (us : List String) (tail : List Event) :
    era (parse_video_clicks_go vc
        (us.flatMap (fun u => cdataElement "ClickTracking" [] u) ++ tail)) =
      era (parse_video_clicks_go
        { vc with click_tracking := vc.click_tracking ++ us } tail) := by
  induction us generalizing vc with
  | nil =>
    rw [List.flatMap_nil, List.nil_append, List.append_nil]
  | cons u us ih =>
    rw [List.flatMap_cons, List.append_assoc, cdataElement_append]
    obtain ⟨hr, heq⟩ := era_ok
      (rte_cdata u "ClickTracking"
        (us.flatMap (fun u => cdataElement "ClickTracking" [] u) ++ tail))
    simp [parse_video_clicks_go, heq, era_wk, ih]

theorem vcgo_cust (vc : VideoClicks) (us : List String) (tail : List Event) :
    era (parse_video_clicks_go vc
        (us.flatMap (fun u => cdataElement "CustomClick" [] u) ++ tail)) =
      era (parse_video_clicks_go
        { vc with custom_click := vc.custom_click ++ us } tail) := by
  induction us generalizing vc with
  | nil =>
    rw [List.flatMap_nil, List.nil_append, List.append_nil]
  | cons u us ih =>
    rw [List.flatMap_cons, List.append_assoc, cdataElement_append]
    obtain ⟨hr, heq⟩ := era_ok
      (rte_cdata u "CustomClick"
        (us.flatMap (fun u => cdataElement "CustomClick" [] u) ++ tail))
    simp [parse_video_clicks_go, heq, era_wk, ih]

/-- Reading back a rendered `<VideoClicks>` subtree recovers it
exactly. -/
theorem vc_reparse (vc : VideoClicks) (tail : List Event) :
    era (parse_video_clicks_go ⟨none, [], []⟩ (vcInner vc ++ tail)) = .ok (vc, tail) := by
  rcases vc with ⟨ct, us, vs⟩
  have hl : vcInner ⟨ct, us, vs⟩ ++ tail =
      optCdataElement "ClickThrough" ct ++
        (us.flatMap (fun u => cdataElement "ClickTracking" [] u) ++
          (vs.flatMap (fun u => cdataElement "CustomClick" [] u) ++
            (.endE "VideoClicks" :: tail))) := by
    simp [vcInner, List.append_assoc]
  rw [hl, vcgo_ct, vcgo_ctrk, vcgo_cust]
  simp [parse_video_clicks_go, era]

theorem tego_one (acc : List TrackingEvent) (te : TrackingEvent) (tail : List Event) :
    era (parse_tracking_events_go acc (trackingEventEvents te ++ tail)) =
      era (parse_tracking_events_go (acc ++ [te]) tail) := by
  obtain ⟨hr, heq⟩ := era_ok (rte_cdata te.url "Tracking" tail)
  simp [trackingEventEvents, cdataElement, parse_tracking_events_go, parse_tracking_event,
    heq, era_wk, trackingEventFromAttrs_rendered]

/-- Reading back a rendered tracking-event list recovers it exactly. -/
theorem te_reparse (acc tes : List TrackingEvent) (tail : List Event) :
    era (parse_tracking_events_go acc
        (tes.flatMap trackingEventEvents ++ .endE "TrackingEvents" :: tail)) =
      .ok (acc ++ tes, tail) := by
  induction tes generalizing acc with
  | nil =>
    rw [List.flatMap_nil, List.nil_append, List.append_nil]
    simp [parse_tracking_events_go, era]
  | cons te tes ih =>
    rw [List.flatMap_cons, List.append_assoc, tego_one, ih]
    simp

theorem mfgo_one (acc : List MediaFile) (m : MediaFile) (tail : List Event) :
    era (parse_media_files_go acc (mediaFileEvents m ++ tail)) =
      era (parse_media_files_go (acc ++ [normalizeMediaFile m]) tail) := by
  obtain ⟨hr, heq⟩ := era_ok (rte_cdata m.url "MediaFile" tail)
  simp [mediaFileEvents, cdataElement, parse_media_files_go, parse_media_file,
    heq, era_wk, mediaFileFromAttrs_rendered, normalizeMediaFile]

/-- Reading back a rendered media-file list recovers its normal form. -/
theorem mf_reparse (acc : List MediaFile) (ms : List MediaFile) (tail : List Event) :
    era (parse_media_files_go acc
        (ms.flatMap mediaFileEvents ++ .endE "MediaFiles" :: tail)) =
      .ok (acc ++ ms.map normalizeMediaFile, tail) := by
  induction ms generalizing acc with
  | nil =>
    rw [List.flatMap_nil, List.nil_append, List.map_nil, List.append_nil]
    simp [parse_media_files_go, era]
  | cons m ms ih =>
    rw [List.flatMap_cons, List.append_assoc, mfgo_one, ih]
    simp

theorem extgo_one (acc : List Extension) (x : Extension) (tail : List Event) :
    era (parse_extensions_go acc (extensionEvents x ++ tail)) =
      era (parse_extensions_go (acc ++ [x]) tail) := by
  have hl : extensionEvents x ++ tail =
      .start "Extension" (optAttr "type" x.type_) ::
        (textEvents x.content ++ .endE "Extension" :: tail) := by
    simp [extensionEvents, List.append_assoc]
  rw [hl]
  obtain ⟨hr, heq⟩ := era_ok (rte_text x.content "Extension" tail)
  simp [parse_extensions_go, parse_extension, heq, era_wk, extensionType_optAttr]

/-- Reading back a rendered extension list recovers it exactly. -/
theorem ext_reparse (acc xs : List Extension) (tail : List Event) :
    era (parse_extensions_go acc
        (xs.flatMap extensionEvents ++ .endE "Extensions" :: tail)) =
      .ok (acc ++ xs, tail) := by
  induction xs generalizing acc with
  | nil =>
    rw [List.flatMap_nil, List.nil_append, List.append_nil]
    simp [parse_extensions_go, era]
  | cons x xs ih =>
    rw [List.flatMap_cons, List.append_assoc, extgo_one, ih]
    simp

theorem ite_self_empty {α : Type} (l : List α) : (if ¬l.isEmpty then l else []) = l := by
  cases l <;> simp

theorem ite_map_empty {α β : Type} (l : List α) (f : α → β) :
    (if ¬l.isEmpty then l.map f else []) = l.map f := by
  cases l <;> simp

theorem lingo_dur (lin : Linear) (o : Option String) (tail : List Event) :
    era (parse_linear_go lin (optTextElement "Duration" o ++ tail)) =
      era (parse_linear_go { lin with duration := o.or lin.duration } tail) := by
  cases o with
  | none => rfl
  | some d =>
    have hl : optTextElement "Duration" (some d) ++ tail =
        .start "Duration" [] :: (textEvents d ++ .endE "Duration" :: tail) := by
      simp [optTextElement, List.append_assoc]
    rw [hl]
    obtain ⟨hr, heq⟩ := era_ok (rte_text d "Duration" tail)
    simp [parse_linear_go, heq, era_wk, Option.or]

theorem lingo_trkblock (lin : Linear) (tes : List TrackingEvent) (tail : List Event) :
    era (parse_linear_go lin (trackingBlock tes ++ tail)) =
      era (parse_linear_go
        { lin with tracking_events := if ¬tes.isEmpty then tes else lin.tracking_events }
        tail) := by
  by_cases h : tes.isEmpty
  · have hb : trackingBlock tes = [] := by simp [trackingBlock, h]
    rw [hb]
    simp [h]
  · have hl : trackingBlock tes ++ tail =
        .start "TrackingEvents" [] ::
          (tes.flatMap trackingEventEvents ++ .endE "TrackingEvents" :: tail) := by
      simp [trackingBlock, h, List.append_assoc]
    rw [hl]
    obtain ⟨hr, heq⟩ := era_ok (te_reparse [] tes tail)
    simp [parse_linear_go, parse_tracking_events, heq, era_wk, h]

theorem lingo_vcblock (lin : Linear) (o : Option VideoClicks) (tail : List Event) :
    era (parse_linear_go lin (optVideoClicksEvents o ++ tail)) =
      era (parse_linear_go { lin with video_clicks := o.or lin.video_clicks } tail) := by
  cases o with
  | none => rfl
  | some vc =>
    have hl : optVideoClicksEvents (some vc) ++ tail =
        .start "VideoClicks" [] :: (vcInner vc ++ tail) := by
      simp [optVideoClicksEvents]
    rw [hl]
    obtain ⟨hr, heq⟩ := era_ok (vc_reparse vc tail)
    simp [parse_linear_go, parse_video_clicks, heq, era_wk, Option.or]

theorem lingo_mfblock (lin : Linear) (ms : List MediaFile) (tail : List Event) :
    era (parse_linear_go lin (mediaFilesBlock ms ++ tail)) =
      era (parse_linear_go
        { lin with media_files :=
            if ¬ms.isEmpty then ms.map normalizeMediaFile else lin.media_files }
        tail) := by
  by_cases h : ms.isEmpty
  · have hb : mediaFilesBlock ms = [] := by simp [mediaFilesBlock, h]
    rw [hb]
    simp [h]
  · have hl : mediaFilesBlock ms ++ tail =
        .start "MediaFiles" [] ::
          (ms.flatMap mediaFileEvents ++ .endE "MediaFiles" :: tail) := by
      simp [mediaFilesBlock, h, List.append_assoc]
    rw [hl]
    obtain ⟨hr, heq⟩ := era_ok (mf_reparse [] ms tail)
    simp [parse_linear_go, parse_media_files, heq, era_wk, h]

/-- Reading back a rendered `<Linear>` subtree recovers its reparse
normal form. -/
theorem linear_reparse (l : Linear) (tail : List Event) :
    era (parse_linear_go ⟨none, [], none, []⟩ (linInner l ++ tail)) =
      .ok (normalizeLinear l, tail) := by
  have hl : linInner l ++ tail =
      optTextElement "Duration" l.duration ++
        (trackingBlock l.tracking_events ++
          (optVideoClicksEvents l.video_clicks ++
            (mediaFilesBlock l.media_files ++ (.endE "Linear" :: tail)))) := by
    simp [linInner, List.append_assoc]
  rw [hl, lingo_dur, lingo_trkblock, lingo_vcblock, lingo_mfblock]
  rcases l with ⟨dur, mfs, vcs, tes⟩
  simp [parse_linear_go, era, normalizeLinear, ite_self_empty, ite_map_empty]

/-! Skipping the rendered Companion/NonLinear subtrees: their contents
never mention the skipped element names. -/

theorem avo_cdataElement (name n : String) (attrs : List Attr) (s : String)
    (h : ¬n = name) : avoids name (cdataElement n attrs s) = true := by
  simp [cdataElement, avoids, h]

theorem avo_optCdata (name n : String) (o : Option String) (h : ¬n = name) :
    avoids name (optCdataElement n o) = true := by
  cases o with
  | none => rfl
  | some s => exact avo_cdataElement name n [] s h

theorem avo_start_cons (name n : String) (attrs : List Attr) (l : List Event)
    (h : ¬n = name) : avoids name (.start n attrs :: l) = avoids name l := by
  simp [avoids, h]

theorem avo_trackingBlock (name : String) (tes : List TrackingEvent)
    (h1 : ¬"TrackingEvents" = name) (h2 : ¬"Tracking" = name) :
    avoids name (trackingBlock tes) = true := by
  by_cases h : tes.isEmpty
  · simp [trackingBlock, h, avoids]
  · have hf := avo_flatMap name trackingEventEvents tes
      (fun te _ => avo_cdataElement name "Tracking" [("event", te.event)] te.url h2)
    simp only [avoids] at hf
    simp [trackingBlock, h, avoids, List.all_append, hf, h1]

theorem avo_resource (name rt rs : String) (h1 : ¬"StaticResource" = name)
    (h2 : ¬"IFrameResource" = name) (h3 : ¬"HTMLResource" = name) :
    avoids name (resourceEvents rt rs) = true := by
  rw [resourceEvents]
  split_ifs <;>
    first
      | exact avo_cdataElement name "StaticResource" [] rs h1
      | exact avo_cdataElement name "IFrameResource" [] rs h2
      | exact avo_cdataElement name "HTMLResource" [] rs h3
      | rfl

theorem avo_companion (c : Companion) : avoids "CompanionAds" (companionEvents c) = true := by
  have h1 := avo_resource "CompanionAds" c.resource_type c.resource
    (by decide) (by decide) (by decide)
  have h2 := avo_optCdata "CompanionAds" "CompanionClickThrough" c.click_through (by decide)
  have h3 := avo_trackingBlock "CompanionAds" c.tracking_events (by decide) (by decide)
  simp only [avoids] at h1 h2 h3
  simp [companionEvents, avoids, List.all_append, h1, h2, h3]

theorem avo_nonLinear (nl : NonLinear) :
    avoids "NonLinearAds" (nonLinearEvents nl) = true := by
  have h1 := avo_resource "NonLinearAds" nl.resource_type nl.resource
    (by decide) (by decide) (by decide)
  have h2 := avo_optCdata "NonLinearAds" "NonLinearClickThrough" nl.click_through (by decide)
  simp only [avoids] at h1 h2
  simp [nonLinearEvents, avoids, List.all_append, h1, h2]

theorem crgo_linearBlock (c : Creative) (o : Option Linear) (tail : List Event) :
    era (parse_creative_go c (optLinearEvents o ++ tail)) =
      era (parse_creative_go { c with linear := (o.map normalizeLinear).or c.linear } tail) := by
  cases o with
  | none => rfl
  | some l =>
    have hl : optLinearEvents (some l) ++ tail = .start "Linear" [] :: (linInner l ++ tail) := by
      simp [optLinearEvents]
    rw [hl]
    obtain ⟨hr, heq⟩ := era_ok (linear_reparse l tail)
    simp [parse_creative_go, parse_linear, heq, era_wk, Option.or]

theorem crgo_companionBlock (c : Creative) (o : Option CompanionAds) (tail : List Event) :
    era (parse_creative_go c (optCompanionAdsEvents o ++ tail)) =
      era (parse_creative_go
        { c with companion_ads :=
            (o.map (fun _ => (⟨[]⟩ : CompanionAds))).or c.companion_ads }
        tail) := by
  cases o with
  | none => rfl
  | some ca =>
    have hl : optCompanionAdsEvents (some ca) ++ tail =
        .start "CompanionAds" [] ::
          (ca.companions.flatMap companionEvents ++ .endE "CompanionAds" :: tail) := by
      simp [optCompanionAdsEvents, List.append_assoc]
    rw [hl]
    obtain ⟨hr, heq⟩ := era_ok
      (skip_go_avoids "CompanionAds" (ca.companions.flatMap companionEvents) tail
        (avo_flatMap _ _ _ (fun c _ => avo_companion c)))
    simp [parse_creative_go, parse_companion_ads, skip_element, heq, era_wk, Option.or]

theorem crgo_nonLinearBlock (c : Creative) (o : Option NonLinearAds) (tail : List Event) :
    era (parse_creative_go c (optNonLinearAdsEvents o ++ tail)) =
      era (parse_creative_go
        { c with non_linear_ads :=
            (o.map (fun _ => (⟨[]⟩ : NonLinearAds))).or c.non_linear_ads }
        tail) := by
  cases o with
  | none => rfl
  | some na =>
    have hl : optNonLinearAdsEvents (some na) ++ tail =
        .start "NonLinearAds" [] ::
          (na.non_linears.flatMap nonLinearEvents ++ .endE "NonLinearAds" :: tail) := by
      simp [optNonLinearAdsEvents, List.append_assoc]
    rw [hl]
    obtain ⟨hr, heq⟩ := era_ok
      (skip_go_avoids "NonLinearAds" (na.non_linears.flatMap nonLinearEvents) tail
        (avo_flatMap _ _ _ (fun nl _ => avo_nonLinear nl)))
    simp [parse_creative_go, parse_non_linear_ads, skip_element, heq, era_wk, Option.or]

/-- Reading back a rendered `<Creative>` element recovers its reparse
normal form. -/
theorem creative_reparse (c : Creative) (tail : List Event) :
    era (parse_creative_go (creativeFromAttrs (creativeAttrs c)) (crInner c ++ tail)) =
      .ok (normalizeCreative c, tail) := by
  rw [creativeFromAttrs_rendered]
  have hl : crInner c ++ tail =
      optLinearEvents c.linear ++
        (optCompanionAdsEvents c.companion_ads ++
          (optNonLinearAdsEvents c.non_linear_ads ++ (.endE "Creative" :: tail))) := by
    simp [crInner, List.append_assoc]
  rw [hl, crgo_linearBlock, crgo_companionBlock, crgo_nonLinearBlock]
  rcases c with ⟨i, sq, ai, af, lo, co, no⟩
  simp [parse_creative_go, era, normalizeCreative]

theorem crs_one (acc : List Creative) (c : Creative) (tail : List Event) :
    era (parse_creatives_go acc (creativeEvents c ++ tail)) =
      era (parse_creatives_go (acc ++ [normalizeCreative c]) tail) := by
  have hl : creativeEvents c ++ tail =
      .start "Creative" (creativeAttrs c) :: (crInner c ++ tail) := by
    simp [creativeEvents]
  rw [hl]
  obtain ⟨hr, heq⟩ := era_ok (creative_reparse c tail)
  simp [parse_creatives_go, parse_creative, heq, era_wk]

/-- Reading back a rendered creative list recovers its normal form. -/
theorem crs_reparse (acc cs : List Creative) (tail : List Event) :
    era (parse_creatives_go acc
        (cs.flatMap creativeEvents ++ .endE "Creatives" :: tail)) =
      .ok (acc ++ cs.map normalizeCreative, tail) := by
  induction cs generalizing acc with
  | nil =>
    rw [List.flatMap_nil, List.nil_append, List.map_nil, List.append_nil]
    simp [parse_creatives_go, era]
  | cons c cs ih =>
    rw [List.flatMap_cons, List.append_assoc, crs_one, ih]
    simp

theorem ilgo_adSystem (i : InLine) (s : AdSystem) (tail : List Event) :
    era (parse_inline_go i (adSystemEvents s ++ tail)) =
      era (parse_inline_go { i with ad_system := s } tail) := by
  have hl : adSystemEvents s ++ tail =
      .start "AdSystem" (optAttr "version" s.version) ::
        (textEvents s.name ++ .endE "AdSystem" :: tail) := by
    simp [adSystemEvents, List.append_assoc]
  rw [hl]
  obtain ⟨hr, heq⟩ := era_ok (rte_text s.name "AdSystem" tail)
  simp [parse_inline_go, parse_ad_system, heq, era_wk, adSystemVersion_optAttr]

theorem ilgo_title (i : InLine) (t : String) (tail : List Event) :
    era (parse_inline_go i ((.start "AdTitle" [] :: textEvents t ++ [.endE "AdTitle"]) ++ tail)) =
      era (parse_inline_go { i with ad_title := t } tail) := by
  have hl : (.start "AdTitle" [] :: textEvents t ++ [.endE "AdTitle"]) ++ tail =
      .start "AdTitle" [] :: (textEvents t ++ .endE "AdTitle" :: tail) := by
    simp [List.append_assoc]
  rw [hl]
  obtain ⟨hr, heq⟩ := era_ok (rte_text t "AdTitle" tail)
  simp [parse_inline_go, heq, era_wk]

theorem ilgo_desc (i : InLine) (o : Option String) (tail : List Event) :
    era (parse_inline_go i (optTextElement "Description" o ++ tail)) =
      era (parse_inline_go { i with description := o.or i.description } tail) := by
  cases o with
  | none => rfl
  | some d =>
    have hl : optTextElement "Description" (some d) ++ tail =
        .start "Description" [] :: (textEvents d ++ .endE "Description" :: tail) := by
      simp [optTextElement, List.append_assoc]
    rw [hl]
    obtain ⟨hr, heq⟩ := era_ok (rte_text d "Description" tail)
    simp [parse_inline_go, heq, era_wk, Option.or]

theorem ilgo_adv (i : InLine) (o : Option String) (tail : List Event) :
    era (parse_inline_go i (optTextElement "Advertiser" o ++ tail)) =
      era (parse_inline_go { i with advertiser := o.or i.advertiser } tail) := by
  cases o with
  | none => rfl
  | some a =>
    have hl : optTextElement "Advertiser" (some a) ++ tail =
        .start "Advertiser" [] :: (textEvents a ++ .endE "Advertiser" :: tail) := by
      simp [optTextElement, List.append_assoc]
    rw [hl]
    obtain ⟨hr, heq⟩ := era_ok (rte_text a "Advertiser" tail)
    simp [parse_inline_go, heq, era_wk, Option.or]

theorem ilgo_survey (i : InLine) (o : Option String) (tail : List Event) :
    era (parse_inline_go i (optCdataElement "Survey" o ++ tail)) =
      era (parse_inline_go { i with survey := o.or i.survey } tail) := by
  cases o with
  | none => rfl
  | some s =>
    have hl : optCdataElement "Survey" (some s) ++ tail =
        .start "Survey" [] :: .cdata s :: .endE "Survey" :: tail := by
      simp [optCdataElement, cdataElement]
    rw [hl]
    obtain ⟨hr, heq⟩ := era_ok (rte_cdata s "Survey" tail)
    simp [parse_inline_go, heq, era_wk, Option.or]

theorem ilgo_imp_one (i : InLine) (im : Impression) (tail : List Event) :
    era (parse_inline_go i (impressionEvents im ++ tail)) =
      era (parse_inline_go { i with impressions := i.impressions ++ [im] } tail) := by
  have hl : impressionEvents im ++ tail =
      .start "Impression" (optAttr "id" im.id) :: .cdata im.url :: .endE "Impression" :: tail := by
    simp [impressionEvents, cdataElement]
  rw [hl]
  obtain ⟨hr, heq⟩ := era_ok (rte_cdata im.url "Impression" tail)
  simp [parse_inline_go, parse_impression, heq, era_wk, impressionId_optAttr]

theorem ilgo_imps (i : InLine) (ims : List Impression) (tail : List Event) :
    era (parse_inline_go i (ims.flatMap impressionEvents ++ tail)) =
      era (parse_inline_go { i with impressions := i.impressions ++ ims } tail) := by
  induction ims generalizing i with
  | nil =>
    rw [List.flatMap_nil, List.nil_append, List.append_nil]
  | cons im ims ih =>
    rw [List.flatMap_cons, List.append_assoc, ilgo_imp_one, ih]
    simp

theorem ilgo_error (i : InLine) (o : Option String) (tail : List Event) :
    era (parse_inline_go i (optCdataElement "Error" o ++ tail)) =
      era (parse_inline_go { i with error := o.or i.error } tail) := by
  cases o with
  | none => rfl
  | some e =>
    have hl : optCdataElement "Error" (some e) ++ tail =
        .start "Error" [] :: .cdata e :: .endE "Error" :: tail := by
      simp [optCdataElement, cdataElement]
    rw [hl]
    obtain ⟨hr, heq⟩ := era_ok (rte_cdata e "Error" tail)
    simp [parse_inline_go, heq, era_wk, Option.or]

theorem ilgo_pricing (i : InLine) (o : Option Pricing) (tail : List Event) :
    era (parse_inline_go i (optPricingEvents o ++ tail)) =
      era (parse_inline_go { i with pricing := o.or i.pricing } tail) := by
  cases o with
  | none => rfl
  | some p =>
    have hl : optPricingEvents (some p) ++ tail =
        .start "Pricing" [("model", p.model), ("currency", p.currency)] ::
          (textEvents p.value ++ .endE "Pricing" :: tail) := by
      simp [optPricingEvents, List.append_assoc]
    rw [hl]
    obtain ⟨hr, heq⟩ := era_ok (rte_text p.value "Pricing" tail)
    simp [parse_inline_go, parse_pricing, heq, era_wk, pricingFromAttrs_rendered, Option.or]

theorem ilgo_extblock (i : InLine) (xs : List Extension) (tail : List Event) :
    era (parse_inline_go i (extensionsBlock xs ++ tail)) =
      era (parse_inline_go
        { i with extensions := if ¬xs.isEmpty then xs else i.extensions } tail) := by
  by_cases h : xs.isEmpty
  · have hb : extensionsBlock xs = [] := by simp [extensionsBlock, h]
    rw [hb]
    simp [h]
  · have hl : extensionsBlock xs ++ tail =
        .start "Extensions" [] ::
          (xs.flatMap extensionEvents ++ .endE "Extensions" :: tail) := by
      simp [extensionsBlock, h, List.append_assoc]
    rw [hl]
    obtain ⟨hr, heq⟩ := era_ok (ext_reparse [] xs tail)
    simp [parse_inline_go, parse_extensions, heq, era_wk, h]

theorem ilgo_creblock (i : InLine) (cs : List Creative) (tail : List Event) :
    era (parse_inline_go i (creativesBlock cs ++ tail)) =
      era (parse_inline_go
        { i with creatives :=
            if ¬cs.isEmpty then cs.map normalizeCreative else i.creatives } tail) := by
  by_cases h : cs.isEmpty
  · have hb : creativesBlock cs = [] := by simp [creativesBlock, h]
    rw [hb]
    simp [h]
  · have hl : creativesBlock cs ++ tail =
        .start "Creatives" [] ::
          (cs.flatMap creativeEvents ++ .endE "Creatives" :: tail) := by
      simp [creativesBlock, h, List.append_assoc]
    rw [hl]
    obtain ⟨hr, heq⟩ := era_ok (crs_reparse [] cs tail)
    simp [parse_inline_go, parse_creatives, heq, era_wk, h]

/-- Reading back a rendered `<InLine>` subtree recovers its reparse
normal form. -/
theorem inline_reparse (i : InLine) (tail : List Event) :
    era (parse_inline_go InLine.init (ilInner i ++ tail)) = .ok (normalizeInline i, tail) := by
  have hl : ilInner i ++ tail =
      adSystemEvents i.ad_system ++
        ((.start "AdTitle" [] :: textEvents i.ad_title ++ [.endE "AdTitle"]) ++
          (optTextElement "Description" i.description ++
            (optTextElement "Advertiser" i.advertiser ++
              (optCdataElement "Survey" i.survey ++
                (i.impressions.flatMap impressionEvents ++
                  (optCdataElement "Error" i.error ++
                    (optPricingEvents i.pricing ++
                      (extensionsBlock i.extensions ++
                        (creativesBlock i.creatives ++
                          (.endE "InLine" :: tail)))))))))) := by
    simp [ilInner, List.append_assoc]
  rw [hl, ilgo_adSystem, ilgo_title, ilgo_desc, ilgo_adv, ilgo_survey, ilgo_imps,
    ilgo_error, ilgo_pricing, ilgo_extblock, ilgo_creblock]
  rcases i with ⟨s, t, ims, de, av, su, er, pr, xs, cs⟩
  simp [parse_inline_go, era, normalizeInline, InLine.init, ite_self_empty, ite_map_empty]

theorem wrgo_adSystem (w : Wrapper) (s : AdSystem) (tail : List Event) :
    era (parse_wrapper_go w (adSystemEvents s ++ tail)) =
      era (parse_wrapper_go { w with ad_system := s } tail) := by
  have hl : adSystemEvents s ++ tail =
      .start "AdSystem" (optAttr "version" s.version) ::
        (textEvents s.name ++ .endE "AdSystem" :: tail) := by
    simp [adSystemEvents, List.append_assoc]
  rw [hl]
  obtain ⟨hr, heq⟩ := era_ok (rte_text s.name "AdSystem" tail)
  simp [parse_wrapper_go, parse_ad_system, heq, era_wk, adSystemVersion_optAttr]

theorem wrgo_uri (w : Wrapper) (u : String) (tail : List Event) :
    era (parse_wrapper_go w (cdataElement "VASTAdTagURI" [] u ++ tail)) =
      era (parse_wrapper_go { w with vast_ad_tag_uri := u } tail) := by
  rw [cdataElement_append]
  obtain ⟨hr, heq⟩ := era_ok (rte_cdata u "VASTAdTagURI" tail)
  simp [parse_wrapper_go, heq, era_wk]

theorem wrgo_imp_one (w : Wrapper) (im : Impression) (tail : List Event) :
    era (parse_wrapper_go w (impressionEvents im ++ tail)) =
      era (parse_wrapper_go { w with impressions := w.impressions ++ [im] } tail) := by
  have hl : impressionEvents im ++ tail =
      .start "Impression" (optAttr "id" im.id) :: .cdata im.url :: .endE "Impression" :: tail := by
    simp [impressionEvents, cdataElement]
  rw [hl]
  obtain ⟨hr, heq⟩ := era_ok (rte_cdata im.url "Impression" tail)
  simp [parse_wrapper_go, parse_impression, heq, era_wk, impressionId_optAttr]

theorem wrgo_imps (w : Wrapper) (ims : List Impression) (tail : List Event) :
    era (parse_wrapper_go w (ims.flatMap impressionEvents ++ tail)) =
      era (parse_wrapper_go { w with impressions := w.impressions ++ ims } tail) := by
  induction ims generalizing w with
  | nil =>
    rw [List.flatMap_nil, List.nil_append, List.append_nil]
  | cons im ims ih =>
    rw [List.flatMap_cons, List.append_assoc, wrgo_imp_one, ih]
    simp

theorem wrgo_error (w : Wrapper) (o : Option String) (tail : List Event) :
    era (parse_wrapper_go w (optCdataElement "Error" o ++ tail)) =
      era (parse_wrapper_go { w with error := o.or w.error } tail) := by
  cases o with
  | none => rfl
  | some e =>
    have hl : optCdataElement "Error" (some e) ++ tail =
        .start "Error" [] :: .cdata e :: .endE "Error" :: tail := by
      simp [optCdataElement, cdataElement]
    rw [hl]
    obtain ⟨hr, heq⟩ := era_ok (rte_cdata e "Error" tail)
    simp [parse_wrapper_go, heq, era_wk, Option.or]

theorem wrgo_creblock (w : Wrapper) (cs : List Creative) (tail : List Event) :
    era (parse_wrapper_go w (creativesBlock cs ++ tail)) =
      era (parse_wrapper_go
        { w with creatives :=
            if ¬cs.isEmpty then cs.map normalizeCreative else w.creatives } tail) := by
  by_cases h : cs.isEmpty
  · have hb : creativesBlock cs = [] := by simp [creativesBlock, h]
    rw [hb]
    simp [h]
  · have hl : creativesBlock cs ++ tail =
        .start "Creatives" [] ::
          (cs.flatMap creativeEvents ++ .endE "Creatives" :: tail) := by
      simp [creativesBlock, h, List.append_assoc]
    rw [hl]
    obtain ⟨hr, heq⟩ := era_ok (crs_reparse [] cs tail)
    simp [parse_wrapper_go, parse_creatives, heq, era_wk, h]

/-- Reading back a rendered `<Wrapper>` subtree recovers its reparse
normal form. -/
theorem wrapper_reparse (w : Wrapper) (tail : List Event) :
    era (parse_wrapper_go Wrapper.init (wrInner w ++ tail)) =
      .ok (normalizeWrapper w, tail) := by
  have hl : wrInner w ++ tail =
      adSystemEvents w.ad_system ++
        (cdataElement "VASTAdTagURI" [] w.vast_ad_tag_uri ++
          (w.impressions.flatMap impressionEvents ++
            (optCdataElement "Error" w.error ++
              (creativesBlock w.creatives ++ (.endE "Wrapper" :: tail))))) := by
    simp [wrInner, List.append_assoc]
  rw [hl, wrgo_adSystem, wrgo_uri, wrgo_imps, wrgo_error, wrgo_creblock]
  rcases w with ⟨s, u, ims, er, xs, cs⟩
  simp [parse_wrapper_go, era, normalizeWrapper, Wrapper.init, ite_map_empty]

/-- Reading back a rendered `<Ad>` element recovers its reparse normal
form. -/
theorem ad_reparse (ad : Ad) (tail : List Event) :
    era (parse_ad_go (adFromAttrs (adAttrs ad)) (adInner ad ++ tail)) =
      .ok (normalizeAd ad, tail) := by
  rw [adFromAttrs_rendered]
  rcases had : ad.inline with _ | i
  · rcases haw : ad.wrapper with _ | w
    · have hl : adInner ad ++ tail = .endE "Ad" :: tail := by
        simp [adInner, had, haw]
      rw [hl]
      simp [parse_ad_go, era, normalizeAd, had, haw]
    · have hl : adInner ad ++ tail =
          .start "Wrapper" [] :: (wrInner w ++ (.endE "Ad" :: tail)) := by
        simp [adInner, had, haw, List.append_assoc]
      rw [hl]
      obtain ⟨hr, heq⟩ := era_ok (wrapper_reparse w (.endE "Ad" :: tail))
      simp [parse_ad_go, parse_wrapper_element, heq, era_wk, normalizeAd, had, haw, era, wk]
  · have hl : adInner ad ++ tail =
        .start "InLine" [] :: (ilInner i ++ (.endE "Ad" :: tail)) := by
      simp [adInner, had, List.append_assoc]
    rw [hl]
    obtain ⟨hr, heq⟩ := era_ok (inline_reparse i (.endE "Ad" :: tail))
    simp [parse_ad_go, parse_inline_element, heq, era_wk, normalizeAd, had, era, wk]

theorem adsgo_one (acc : List Ad) (ad : Ad) (tail : List Event) :
    era (parse_ads_go acc (adEvents ad ++ tail)) =
      era (parse_ads_go (acc ++ [normalizeAd ad]) tail) := by
  have hl : adEvents ad ++ tail = .start "Ad" (adAttrs ad) :: (adInner ad ++ tail) := by
    simp [adEvents]
  rw [hl]
  obtain ⟨hr, heq⟩ := era_ok (ad_reparse ad tail)
  simp [parse_ads_go, parse_ad_element, heq, era_wk]

/-- Reading back the rendered ad list recovers its normal form. -/
theorem ads_reparse (acc ads : List Ad) (tail : List Event) :
    era (parse_ads_go acc (ads.flatMap adEvents ++ .endE "VAST" :: tail)) =
      .ok (acc ++ ads.map normalizeAd, tail) := by
  induction ads generalizing acc with
  | nil =>
    rw [List.flatMap_nil, List.nil_append, List.map_nil, List.append_nil]
    simp [parse_ads_go, era]
  | cons ad ads ih =>
    rw [List.flatMap_cons, List.append_assoc, adsgo_one, ih]
    simp

/-- The rendered top-level `<Error>` element is ignored by the ad
scan. -/
theorem adsgo_err (acc : List Ad) (o : Option String) (tail : List Event) :
    era (parse_ads_go acc (optCdataElement "Error" o ++ tail)) =
      era (parse_ads_go acc tail) := by
  cases o with
  | none => rfl
  | some e =>
    have hl : optCdataElement "Error" (some e) ++ tail =
        .start "Error" [] :: .cdata e :: .endE "Error" :: tail := by
      simp [optCdataElement, cdataElement]
    rw [hl]
    simp [parse_ads_go, era_wk]

/-- Re-reading the rendered output of a document with a non-empty
version yields exactly its reparse normal form. -/
theorem vast_reparse (v : Vast) (hv : ¬v.version = "") :
    parse_vast (vast_to_xml_events v) = .ok (normalizeVast v) := by
  have h1 : era (parse_ads_go []
      (optCdataElement "Error" v.error ++ v.ads.flatMap adEvents ++ [.endE "VAST"])) =
      .ok (v.ads.map normalizeAd, ([] : List Event)) := by
    rw [List.append_assoc, adsgo_err]
    simpa using ads_reparse [] v.ads []
  obtain ⟨hr, heq⟩ := era_ok h1
  simp [vast_to_xml_events, parse_vast, vastVersionFromAttrs_rendered, hv, parse_ads,
    heq, normalizeVast]

theorem inlineTrackingEvents_normalize (i : InLine) :
    inlineTrackingEvents (normalizeInline i) = inlineTrackingEvents i := by
  rcases i with ⟨s, t, ims, de, av, su, er, pr, xs, cs⟩
  simp only [inlineTrackingEvents, normalizeInline]
  induction cs with
  | nil => rfl
  | cons c cs ih =>
    rw [List.map_cons, List.flatMap_cons, List.flatMap_cons, ih]
    cases hcl : c.linear <;> simp [normalizeCreative, hcl, normalizeLinear]

/-- C9 (amended): rendering a parsed document and reading the output
back reproduces the version, the ad count, and each InLine ad's title,
impression list and tracking events, provided the parsed document has a
non-empty version (an input with no `VAST` root parses to an empty
version, and its rendering re-parses as a MissingField error) and its
string fields are XML-safe (`safeVast`) — the renderer writes raw field
strings with no escaping, so fields containing markup metacharacters,
stray CDATA terminators or edge whitespace do not survive the reader.
The re-parse equals the reparse normal form `normalizeVast`, which also
records what is not reproduced: the never-rendered `mediaType`
attribute and wrapper Extensions, the skipped Companion/NonLinear
contents, and numeric attributes beyond their decimal round trip. -/
theorem C9_render_reparse (x : List Event) (v : Vast)
    (hp : parse_vast x = .ok v) (hs : safeVast v = true) (hv : ¬v.version = "") :
    parse_vast (vast_to_xml_events v) = .ok (normalizeVast v) ∧
    (normalizeVast v).version = v.version ∧
    (normalizeVast v).ads.length = v.ads.length ∧
    List.Forall₂
      (fun a a' : Ad =>
        ∀ i : InLine, a.inline = some i →
          ∃ i' : InLine, a'.inline = some i' ∧ i'.ad_title = i.ad_title ∧
            i'.impressions = i.impressions ∧
            inlineTrackingEvents i' = inlineTrackingEvents i)
      v.ads (normalizeVast v).ads := by
  refine ⟨vast_reparse v hv, rfl, by simp [normalizeVast], ?_⟩
  simp only [normalizeVast]
  rw [List.forall₂_map_right_iff]
  refine List.forall₂_same.mpr (fun a _ i hi => ?_)
  exact ⟨normalizeInline i, by simp [normalizeAd, hi], rfl, rfl,
    inlineTrackingEvents_normalize i⟩

/-- Concrete creative for the C9 witness. -/
def cC9 : Creative :=
  ⟨some "c1", none, none, none, some ⟨none, [], none, [⟨"start", "trk"⟩]⟩, none, none⟩

/-- Concrete InLine for the C9 witness. -/
def iC9 : InLine :=
  ⟨⟨"sys", some "1"⟩, "Title", [⟨some "i1", "imp"⟩], none, none, none, none, none, [], [cC9]⟩

/-- Concrete parsed document for the C9 witness. -/
def vC9 : Vast := ⟨"3.0", [⟨some "a1", none, none, some iC9, none⟩], none⟩

/-- Concrete input for the C9 witness, parsing to `vC9`. -/
def xC9 : List Event :=
  [.start "VAST" [("version", "3.0")],
   .start "Ad" [("id", "a1")],
   .start "InLine" [],
   .start "AdSystem" [("version", "1")], .text "sys", .endE "AdSystem",
   .start "AdTitle" [], .text "Title", .endE "AdTitle",
   .start "Impression" [("id", "i1")], .cdata "imp", .endE "Impression",
   .start "Creatives" [],
   .start "Creative" [("id", "c1")],
   .start "Linear" [],
   .start "TrackingEvents" [],
   .start "Tracking" [("event", "start")], .cdata "trk", .endE "Tracking",
   .endE "TrackingEvents",
   .endE "Linear",
   .endE "Creative",
   .endE "Creatives",
   .endE "InLine",
   .endE "Ad",
   .endE "VAST"]

/-- Witness for C9 at a concrete safe document with an InLine ad,
impression and tracking event. -/
theorem C9_render_reparse_witness :
    parse_vast (vast_to_xml_events vC9) = .ok (normalizeVast vC9) ∧
    (normalizeVast vC9).version = vC9.version ∧
    (normalizeVast vC9).ads.length = vC9.ads.length ∧
    List.Forall₂
      (fun a a' : Ad =>
        ∀ i : InLine, a.inline = some i →
          ∃ i' : InLine, a'.inline = some i' ∧ i'.ad_title = i.ad_title ∧
            i'.impressions = i.impressions ∧
            inlineTrackingEvents i' = inlineTrackingEvents i)
      vC9.ads (normalizeVast vC9).ads :=
  C9_render_reparse xC9 vC9
    (by simp [xC9, vC9, iC9, cC9, parse_vast, parse_ads, parse_ads_go,
      parse_ad_element, parse_ad_go, parse_inline_element, parse_inline_go,
      InLine.init, parse_ad_system, parse_impression, parse_creatives,
      parse_creatives_go, parse_creative, parse_creative_go, creativeFromAttrs,
      parse_linear, parse_linear_go, parse_tracking_events,
      parse_tracking_events_go, parse_tracking_event, read_text_element,
      read_text_go, adFromAttrs, adSystemVersionFromAttrs, impressionIdFromAttrs,
      trackingEventFromAttrs, vastVersionFromAttrs, wk])
    (by decide) (by decide)

/-- C9 counterexample: an input with no `VAST` root parses successfully
to a document with empty version and no ads (the C5 behaviour); its
rendering carries `version=""`, and reading that back fails with a
MissingField error, so the round trip reproduces neither the version
nor the ad count of `parse(x)`. -/
theorem C9_roundtrip_counterexample :
    parse_vast ([] : List Event) = .ok ⟨"", [], none⟩ ∧
    vast_to_xml ⟨"", [], none⟩ =
      .ok "<?xml version=\"1.0\" encoding=\"UTF-8\"?>\n<VAST version=\"\">\n</VAST>" ∧
    vast_to_xml_events ⟨"", [], none⟩ =
      [.decl, .start "VAST" [("version", "")], .endE "VAST"] ∧
    parse_vast (vast_to_xml_events ⟨"", [], none⟩) =
      .error (.missingField "VAST version") := by
  refine ⟨rfl, rfl, rfl, ?_⟩
  simp [vast_to_xml_events, parse_vast, vastVersionFromAttrs, optCdataElement]

end VastLib
